import Mathlib

/-!
Shallow embedding of the archive ingestion / search core of the birdapp
storage package (`birdapp/storage/importer.py`, `search.py`, `embeddings.py`,
`models.py`, `dates.py`).

Conventions of the embedding:
* Python/JSON values flowing through the importer are modelled by `PyVal`.
* `datetime` objects are modelled by `PyDatetime`: a wall-clock reading in
  microseconds since the Unix epoch together with an optional UTC offset in
  seconds (`none` models a naive datetime).
* SQLAlchemy sessions are modelled by an explicit `Store` record of row
  lists; `session.add` appends, in-place attribute mutation replaces the
  first row matching the lookup key, `session.commit` is a no-op on the pure
  state (the importer only batches commits; it never rolls back after a
  write, and its single error is raised before any write).
* Python `str.get` on a non-dict and iteration over a non-list raise at
  runtime; the canonical archive document only holds JSON data, and the
  embedding totalises these accesses to a default instead.
-/

namespace BirdApp

/-- Model of a Python `datetime`: wall-clock microseconds since the epoch
plus an optional UTC offset in seconds (`none` = naive). -/
structure PyDatetime where
  usec : Int
  off : Option Int
deriving DecidableEq, Repr

/-- Model of a Python/JSON value as handled by the importer. -/
inductive PyVal where
  | none
  | bool (b : Bool)
  | int (n : Int)
  | str (s : String)
  | datetime (d : PyDatetime)
  | list (xs : List PyVal)
  | dict (xs : List (String × PyVal))
deriving Repr, BEq

/-- Python truthiness (`bool(x)`). -/
def pyTruthy : PyVal → Bool
  | .none => false
  | .bool b => b
  | .int n => n != 0
  | .str s => s ≠ ""
  | .datetime _ => true
  | .list xs => ¬ xs.isEmpty
  | .dict xs => ¬ xs.isEmpty

/-- Python `a or b`. -/
def pyOr (a b : PyVal) : PyVal := if pyTruthy a then a else b

/-- Python `str(x)` as used on archive scalar fields.  Container and
datetime reprs are abbreviated: the importer only ever stringifies
scalar fields, and no Python repr of a container or datetime is the
empty string. -/
def pyStr : PyVal → String
  | .none => "None"
  | .bool b => if b then "True" else "False"
  | .int n => toString n
  | .str s => s
  | .datetime _ => "<datetime>"
  | .list _ => "<list>"
  | .dict _ => "<dict>"

/-- Characters of a string with surrounding whitespace removed
(kernel-reducible model of Python `str.strip()`). -/
def trimChars (cs : List Char) : List Char :=
  ((cs.dropWhile Char.isWhitespace).reverse.dropWhile Char.isWhitespace).reverse

/-- Python `s.strip()`. -/
def pyStrip (s : String) : String := String.mk (trimChars s.data)

/-- Lookup in a Python dict literal (first binding wins). -/
def dictGet (xs : List (String × PyVal)) (k : String) : Option PyVal :=
  (xs.find? (fun p => p.1 = k)).map (·.2)

/-- Python `d.get(k, dflt)`; non-dict receivers are totalised to the
default (the importer only calls `.get` on JSON objects). -/
def pyGet (v : PyVal) (k : String) (dflt : PyVal) : PyVal :=
  match v with
  | .dict xs => (dictGet xs k).getD dflt
  | _ => dflt

/-- Python `d.get(k)` (default `None`). -/
def pyGet? (v : PyVal) (k : String) : PyVal := pyGet v k .none

/-- Iterating a Python value as a list; non-lists are totalised to `[]`. -/
def asList : PyVal → List PyVal
  | .list xs => xs
  | _ => []

/-- `isinstance(v, dict)`. -/
def isDict : PyVal → Bool
  | .dict _ => true
  | _ => false

/-- Python `int(s)`: optional surrounding whitespace, optional sign, a
non-empty run of decimal digits (underscore digit-grouping is not
modelled). -/
def pyParseInt (s : String) : Option Int :=
  let t := trimChars s.data
  let (sign, digits) :=
    match t with
    | '-' :: rest => ((-1 : Int), rest)
    | '+' :: rest => ((1 : Int), rest)
    | cs => ((1 : Int), cs)
  if digits = [] then Option.none
  else if digits.all Char.isDigit then
    Option.some (sign * (digits.foldl (fun acc c => acc * 10 + (c.toNat - 48)) 0 : Nat))
  else Option.none

/-- `importer._safe_int`.  (Python `bool` is an `int` subclass, so the
`isinstance(value, int)` branch maps `True`/`False` to `1`/`0`.) -/
def safe_int : PyVal → Option Int
  | .none => Option.none
  | .bool b => Option.some (if b then 1 else 0)
  | .int n => Option.some n
  | .str s => if pyStrip s ≠ "" then pyParseInt s else Option.none
  | _ => Option.none

/-- `importer._indices_to_bounds`. -/
def indices_to_bounds (indices : List PyVal) : Option Int × Option Int :=
  match indices with
  | [a, b] => (safe_int a, safe_int b)
  | _ => (Option.none, Option.none)

/-! ### Calendar arithmetic for datetime parsing -/

/-- Days from 1970-01-01 to the civil date y-m-d (Hinnant's algorithm;
all intermediate divisions have non-negative operands for 4-digit years). -/
def daysFromCivil (y m d : Int) : Int :=
  let y' := y - (if m ≤ 2 then 1 else 0)
  let era := (if y' ≥ 0 then y' else y' - 399) / 400
  let yoe := y' - era * 400
  let doy := (153 * (m + (if m > 2 then -3 else 9)) + 2) / 5 + d - 1
  let doe := yoe * 365 + yoe / 4 - yoe / 100 + doy
  era * 146097 + doe - 719468

/-- Pack a civil wall-clock reading into microseconds since the epoch. -/
def civilToUsec (y m d h mi s us : Int) : Int :=
  ((daysFromCivil y m d) * 86400 + h * 3600 + mi * 60 + s) * 1000000 + us

/-! ### `datetime.fromisoformat`

A model of the ISO-8601 subset accepted by `datetime.fromisoformat`:
`YYYY-MM-DD`, optionally followed by a one-character separator and
`HH:MM[:SS[.f{1..6}]]`, optionally followed by a `±HH:MM[:SS]` offset.
Range validation of the day against the month length is simplified to
`1 ≤ day ≤ 31`.  Verbose, locale-bearing timestamps (e.g.
`Thu Jan 22 21:04:29 +0000 2026`) are rejected, as in CPython. -/

/-- Parse exactly two digits. -/
def parse2 : List Char → Option (Int × List Char)
  | c1 :: c2 :: rest =>
    if c1.isDigit ∧ c2.isDigit then
      Option.some (((c1.toNat - 48) * 10 + (c2.toNat - 48) : Nat), rest)
    else Option.none
  | _ => Option.none

/-- Parse exactly four digits. -/
def parse4 : List Char → Option (Int × List Char)
  | c1 :: c2 :: c3 :: c4 :: rest =>
    if c1.isDigit ∧ c2.isDigit ∧ c3.isDigit ∧ c4.isDigit then
      Option.some
        ((((c1.toNat - 48) * 1000 + (c2.toNat - 48) * 100 +
           (c3.toNat - 48) * 10 + (c4.toNat - 48) : Nat)), rest)
    else Option.none
  | _ => Option.none

/-- Parse a fractional-second run of one to six digits into microseconds. -/
def parseFrac (cs : List Char) : Option (Int × List Char) :=
  let digits := cs.takeWhile Char.isDigit
  let rest := cs.dropWhile Char.isDigit
  if digits.length < 1 ∨ digits.length > 6 then Option.none
  else
    let scale : Nat := 10 ^ (6 - digits.length)
    Option.some
      (((digits.foldl (fun acc c => acc * 10 + (c.toNat - 48)) 0) * scale : Nat), rest)

/-- Parse `HH:MM[:SS[.frac]]`; returns microseconds into the day. -/
def parseTimePart (cs : List Char) : Option (Int × List Char) := do
  let (h, cs) ← parse2 cs
  match cs with
  | ':' :: cs => do
    let (mi, cs) ← parse2 cs
    if h > 23 ∨ mi > 59 then failure
    let base := h * 3600 + mi * 60
    match cs with
    | ':' :: cs => do
      let (s, cs) ← parse2 cs
      if s > 59 then failure
      match cs with
      | '.' :: cs => do
        let (us, cs) ← parseFrac cs
        pure ((base + s) * 1000000 + us, cs)
      | _ => pure ((base + s) * 1000000, cs)
    | _ => pure (base * 1000000, cs)
  | _ => failure

/-- Parse a trailing UTC offset `±HH:MM[:SS]`; returns seconds. -/
def parseOffsetPart (cs : List Char) : Option Int := do
  let (sign, cs) ←
    match cs with
    | '+' :: rest => Option.some ((1 : Int), rest)
    | '-' :: rest => Option.some ((-1 : Int), rest)
    | _ => Option.none
  let (h, cs) ← parse2 cs
  match cs with
  | ':' :: cs => do
    let (mi, cs) ← parse2 cs
    match cs with
    | [] => pure (sign * (h * 3600 + mi * 60))
    | ':' :: cs => do
      let (s, cs) ← parse2 cs
      if cs = [] then pure (sign * (h * 3600 + mi * 60 + s)) else failure
    | _ => failure
  | _ => failure

/-- Model of `datetime.fromisoformat`. -/
def fromisoformatChars (cs : List Char) : Option PyDatetime := do
  let (y, cs) ← parse4 cs
  let cs ← match cs with | '-' :: rest => Option.some rest | _ => Option.none
  let (m, cs) ← parse2 cs
  let cs ← match cs with | '-' :: rest => Option.some rest | _ => Option.none
  let (d, cs) ← parse2 cs
  if m < 1 ∨ m > 12 ∨ d < 1 ∨ d > 31 then failure
  match cs with
  | [] => pure { usec := civilToUsec y m d 0 0 0 0, off := Option.none }
  | _ :: timeChars => do
    let (dayUs, rest) ← parseTimePart timeChars
    match rest with
    | [] => pure { usec := civilToUsec y m d 0 0 0 0 + dayUs, off := Option.none }
    | _ => do
      let offSec ← parseOffsetPart rest
      pure { usec := civilToUsec y m d 0 0 0 0 + dayUs, off := Option.some offSec }

/-- `dt.astimezone(timezone.utc)` for an aware datetime with offset `o`,
and `dt.replace(tzinfo=timezone.utc)` for a naive one. -/
def toUtc (dt : PyDatetime) : PyDatetime :=
  match dt.off with
  | Option.none => { dt with off := Option.some 0 }
  | Option.some o => { usec := dt.usec - o * 1000000, off := Option.some 0 }

/-- `importer._parse_archive_datetime`. -/
def parse_archive_datetime : PyVal → Option PyDatetime
  | .none => Option.none
  | .datetime dt => Option.some (toUtc dt)
  | .str s =>
    let candidate := trimChars s.data
    if candidate = [] then Option.none
    else
      let candidate :=
        if candidate.getLast? = Option.some 'Z' then
          candidate.dropLast ++ "+00:00".data
        else candidate
      match fromisoformatChars candidate with
      | Option.none => Option.none
      | Option.some parsed => Option.some (toUtc parsed)
  | _ => Option.none

/-! ### Relational rows (`storage/models.py`)

Auto-increment surrogate `id` columns are not modelled: the importer never
reads them, and row identity in the embedding is positional. -/

/-- `models.UploadOptions`. -/
structure UploadOptions where
  account_id : String
  keep_private : Bool
  upload_likes : Bool
  start_date : String
  end_date : String
deriving Repr, DecidableEq

/-- `models.Account`. -/
structure Account where
  account_id : String
  username : String
  account_display_name : String
  created_at : String
  created_via : String
deriving Repr, DecidableEq

/-- `models.Profile`. -/
structure Profile where
  account_id : String
  bio : String
  website : String
  location : String
  avatar_media_url : String
  header_media_url : String
deriving Repr, DecidableEq

/-- `models.Tweet`.  The importer stores a parsed `datetime` (or `None`)
in `created_at`; JSON-typed columns hold raw `PyVal` payloads. -/
structure Tweet where
  tweet_id : String
  account_id : String
  tweet_id_str : Option String
  tweet_kind : String
  created_at : Option PyDatetime
  full_text : String
  lang : String
  source : String
  retweeted : Bool
  favorited : Bool
  truncated : Bool
  favorite_count : Option Int
  retweet_count : Option Int
  display_text_range : Option (List Int)
  in_reply_to_status_id : Option String
  in_reply_to_status_id_str : Option String
  in_reply_to_user_id : Option String
  in_reply_to_user_id_str : Option String
  in_reply_to_screen_name : Option String
  possibly_sensitive : Option Bool
  edit_info : PyVal
  community_id : Option String := Option.none
  community_id_str : Option String := Option.none
  scopes : PyVal := PyVal.none
deriving Repr

/-- `models.TweetHashtag`. -/
structure TweetHashtag where
  tweet_id : String
  text : String
  start_index : Option Int
  end_index : Option Int
deriving Repr, DecidableEq

/-- `models.TweetSymbol`. -/
structure TweetSymbol where
  tweet_id : String
  text : String
  start_index : Option Int
  end_index : Option Int
deriving Repr, DecidableEq

/-- `models.TweetUserMention`. -/
structure TweetUserMention where
  tweet_id : String
  user_id : Option String
  user_id_str : Option String
  name : String
  screen_name : String
  start_index : Option Int
  end_index : Option Int
deriving Repr, DecidableEq

/-- `models.TweetUrl`. -/
structure TweetUrl where
  tweet_id : String
  url : String
  expanded_url : String
  display_url : String
  start_index : Option Int
  end_index : Option Int
deriving Repr, DecidableEq

/-- `models.TweetMedia`. -/
structure TweetMedia where
  tweet_id : String
  entity_type : String
  media_id : Option String
  media_id_str : Option String
  media_type : String
  url : String
  expanded_url : String
  display_url : String
  media_url : String
  media_url_https : String
  sizes : PyVal
  video_info : PyVal := PyVal.none
  additional_media_info : PyVal := PyVal.none
  source_status_id : Option String
  source_status_id_str : Option String
  source_user_id : Option String
  source_user_id_str : Option String
deriving Repr

/-- `models.NoteTweet`. -/
structure NoteTweet where
  note_tweet_id : String
  account_id : String
  created_at : String
  updated_at : String
  lifecycle : PyVal
  core : PyVal
deriving Repr

/-- `models.Like` (raw JSON payloads are stored for the optional columns). -/
structure Like where
  account_id : String
  tweet_id : String
  full_text : PyVal
  expanded_url : PyVal
deriving Repr

/-- `models.Follower`. -/
structure Follower where
  account_id : String
  follower_account_id : String
  user_link : String
deriving Repr, DecidableEq

/-- `models.Following`. -/
structure Following where
  account_id : String
  followed_account_id : String
  user_link : String
deriving Repr, DecidableEq

/-- One row of the `tweet_fts` full-text index (`search.py`). -/
structure FtsRow where
  tweet_id : String
  account_id : String
  full_text : String
deriving Repr, DecidableEq

/-- One row of the `tweet_embedding` vec0 table (`embeddings.py`);
the vector payload is kept as the JSON text that is inserted. -/
structure EmbeddingRow where
  account_id : String
  embedding : String
  tweet_id : String
deriving Repr, DecidableEq

/-- The persistent store: one list per table, in insertion order. -/
structure Store where
  upload_options : List UploadOptions := []
  accounts : List Account := []
  profiles : List Profile := []
  tweets : List Tweet := []
  tweet_hashtags : List TweetHashtag := []
  tweet_symbols : List TweetSymbol := []
  tweet_user_mentions : List TweetUserMention := []
  tweet_urls : List TweetUrl := []
  tweet_media : List TweetMedia := []
  note_tweets : List NoteTweet := []
  likes : List Like := []
  followers : List Follower := []
  followings : List Following := []
  fts : List FtsRow := []
  embeddings : List EmbeddingRow := []
deriving Repr

/-- The canonical archive document: one list per record kind
(`account`, `profile`, `tweets`, `community-tweet`, `note-tweet`, `like`,
`follower`, `following`) plus the `upload-options` value, which the
export ships as a single JSON object. -/
structure ArchiveDoc where
  account : List PyVal := []
  profile : List PyVal := []
  tweets : List PyVal := []
  communityTweets : List PyVal := []
  noteTweets : List PyVal := []
  likes : List PyVal := []
  followers : List PyVal := []
  followings : List PyVal := []
  uploadOptions : PyVal := PyVal.none
deriving Repr

/-- The per-kind newly-inserted counters returned by
`import_archive_data`. -/
structure Counts where
  upload_options : Nat := 0
  account : Nat := 0
  profile : Nat := 0
  tweet : Nat := 0
  community_tweet : Nat := 0
  note_tweet : Nat := 0
  like : Nat := 0
  follower : Nat := 0
  following : Nat := 0
  tweet_hashtag : Nat := 0
  tweet_symbol : Nat := 0
  tweet_user_mention : Nat := 0
  tweet_url : Nat := 0
  tweet_media : Nat := 0
deriving Repr, DecidableEq

/-- The only error `import_archive_data` raises
(`ValueError: Archive owner account id is required ...`). -/
inductive ImportError where
  | missingOwner
deriving Repr, DecidableEq

/-! ### Shared field-coercion idioms of the importer -/

/-- `str(obj.get(k, ""))`. -/
def strField (obj : PyVal) (k : String) : String := pyStr (pyGet obj k (.str ""))

/-- `str(obj.get(k, "")) or None`. -/
def strFieldOrNone (obj : PyVal) (k : String) : Option String :=
  let s := strField obj k
  if s = "" then Option.none else Option.some s

/-- `str(obj.get(k)) if obj.get(k) is not None else None`. -/
def optStrField (obj : PyVal) (k : String) : Option String :=
  match pyGet? obj k with
  | .none => Option.none
  | v => Option.some (pyStr v)

/-- `bool(obj.get(k))`. -/
def boolField (obj : PyVal) (k : String) : Bool := pyTruthy (pyGet? obj k)

/-- `bool(obj.get(k)) if obj.get(k) is not None else None`. -/
def optBoolField (obj : PyVal) (k : String) : Option Bool :=
  match pyGet? obj k with
  | .none => Option.none
  | v => Option.some (pyTruthy v)

/-- The `display_text_range` coercion:
`[v for v in (_safe_int(x) for x in dtr or []) if v is not None]`
when the field is present, else `None`. -/
def displayTextRangeField (tweet : PyVal) : Option (List Int) :=
  match pyGet? tweet "display_text_range" with
  | .none => Option.none
  | v => Option.some ((asList (pyOr v (.list []))).filterMap safe_int)

/-- Replace the first list entry satisfying `p` (models in-place mutation
of the row returned by a keyed lookup). -/
def replaceFirst (p : α → Bool) (new : α) : List α → List α
  | [] => []
  | x :: xs => if p x then new :: xs else x :: replaceFirst p new xs

/-! ### `importer.py` owner resolution -/

/-- `importer._get_owner_account_id`. -/
def get_owner_account_id (doc : ArchiveDoc) : Option String :=
  match doc.account with
  | [] => Option.none
  | item :: _ =>
    let account := pyOr (pyGet? (pyOr item (.dict [])) "account") (.dict [])
    let accountId := pyStrip (pyStr (pyGet account "accountId" (.str "")))
    if accountId = "" then Option.none else Option.some accountId

/-- `importer._has_owner_scoped_data`: true when any owner-scoped record
kind carries a non-empty list (or, for `upload-options`, a non-empty
dict or list). -/
def has_owner_scoped_data (doc : ArchiveDoc) : Bool :=
  (match doc.uploadOptions with
   | .list xs => ¬ xs.isEmpty
   | .dict xs => ¬ xs.isEmpty
   | _ => false)
  || ¬ doc.profile.isEmpty
  || ¬ doc.tweets.isEmpty
  || ¬ doc.communityTweets.isEmpty
  || ¬ doc.noteTweets.isEmpty
  || ¬ doc.likes.isEmpty
  || ¬ doc.followers.isEmpty
  || ¬ doc.followings.isEmpty

/-- `search.sync_tweet_fts`: delete every index row for the tweet id,
then insert the fresh row. -/
def sync_tweet_fts (tweetId accountId fullText : String) (s : Store) : Store :=
  { s with fts := s.fts.filter (fun r => r.tweet_id ≠ tweetId)
      ++ [{ tweet_id := tweetId, account_id := accountId, full_text := fullText }] }

/-- `item.get("tweet") or {}`. -/
def tweetItemPayload (item : PyVal) : PyVal := pyOr (pyGet? item "tweet") (.dict [])

/-- `item.get("account") or {}`. -/
def accountItemPayload (item : PyVal) : PyVal := pyOr (pyGet? item "account") (.dict [])

/-- `item.get("profile") or {}`. -/
def profileItemPayload (item : PyVal) : PyVal := pyOr (pyGet? item "profile") (.dict [])

/-- `item.get("noteTweet") or {}`. -/
def noteItemPayload (item : PyVal) : PyVal := pyOr (pyGet? item "noteTweet") (.dict [])

/-- `item.get("like") or {}`. -/
def likeItemPayload (item : PyVal) : PyVal := pyOr (pyGet? item "like") (.dict [])

/-- `item.get("follower") or {}`. -/
def followerItemPayload (item : PyVal) : PyVal := pyOr (pyGet? item "follower") (.dict [])

/-- `item.get("following") or {}`. -/
def followingItemPayload (item : PyVal) : PyVal := pyOr (pyGet? item "following") (.dict [])

/-- The identifying field of an `account` item. -/
def accountItemId (item : PyVal) : String :=
  pyStr (pyGet (accountItemPayload item) "accountId" (.str ""))

/-- The identifying field of a `tweets` / `community-tweet` item, exactly
as the loop guard computes it. -/
def tweetItemId (item : PyVal) : String :=
  pyStr (pyGet (tweetItemPayload item) "id" (.str ""))

/-- The identifying field of a `note-tweet` item. -/
def noteItemId (item : PyVal) : String :=
  pyStr (pyGet (noteItemPayload item) "noteTweetId" (.str ""))

/-- The identifying field of a `like` item. -/
def likeItemId (item : PyVal) : String :=
  pyStr (pyGet (likeItemPayload item) "tweetId" (.str ""))

/-- The identifying field of a `follower` item. -/
def followerItemId (item : PyVal) : String :=
  pyStr (pyGet (followerItemPayload item) "accountId" (.str ""))

/-- The identifying field of a `following` item. -/
def followingItemId (item : PyVal) : String :=
  pyStr (pyGet (followingItemPayload item) "accountId" (.str ""))

/-- `obj.get(k) or []` iterated as a list. -/
def entityList (obj : PyVal) (k : String) : List PyVal :=
  asList (pyOr (pyGet? obj k) (.list []))

/-- The insert-or-overwrite pattern shared by every keyed entity:
look up by key; if absent, add the row (and report an insert); if
present, overwrite the looked-up row's fields in place. -/
def upsertList (p : ρ → Bool) (row : ρ) (l : List ρ) : List ρ × Bool :=
  if l.any p then (replaceFirst p row l, false) else (l ++ [row], true)

/-- The `_exists`-checked insert pattern shared by every attachment:
skip if a matching row exists, insert otherwise. -/
def insertIfAbsent (p : ρ → Bool) (row : ρ) (l : List ρ) : List ρ × Bool :=
  if l.any p then (l, false) else (l ++ [row], true)

/-! ### Per-record-kind upsert steps of `import_archive_data`

Each step threads the `(Store, Counts)` pair that models the session plus
the `counts` dictionary.  `session.commit` (batched via `commit_if_needed`
and the final unconditional commit) is a no-op on the pure state and is
not represented. -/

/-- The `upload-options` block of `import_archive_data`. -/
def processUploadOptions (uo : PyVal) (owner : Option String)
    (sc : Store × Counts) : Store × Counts :=
  match owner with
  | Option.none => sc
  | Option.some ownerId =>
    if isDict uo then
      let row : UploadOptions :=
        { account_id := ownerId
          keep_private := boolField uo "keepPrivate"
          upload_likes := boolField uo "uploadLikes"
          start_date := strField uo "startDate"
          end_date := strField uo "endDate" }
      let res := upsertList (fun r => r.account_id == ownerId) row sc.1.upload_options
      ({ sc.1 with upload_options := res.1 },
       if res.2 then { sc.2 with upload_options := sc.2.upload_options + 1 } else sc.2)
    else sc

/-- One iteration of the `account` loop. -/
def processAccountItem (sc : Store × Counts) (item : PyVal) : Store × Counts :=
  let account := accountItemPayload item
  let accountId := accountItemId item
  if accountId = "" then sc
  else
    let row : Account :=
      { account_id := accountId
        username := strField account "username"
        account_display_name := strField account "accountDisplayName"
        created_at := strField account "createdAt"
        created_via := strField account "createdVia" }
    let res := upsertList (fun r => r.account_id == accountId) row sc.1.accounts
    ({ sc.1 with accounts := res.1 },
     if res.2 then { sc.2 with account := sc.2.account + 1 } else sc.2)

/-- One iteration of the `profile` loop. -/
def processProfileItem (owner : Option String) (sc : Store × Counts)
    (item : PyVal) : Store × Counts :=
  let profile := profileItemPayload item
  let description := pyOr (pyGet? profile "description") (.dict [])
  match owner with
  | Option.none => sc
  | Option.some ownerId =>
    let row : Profile :=
      { account_id := ownerId
        bio := strField description "bio"
        website := strField description "website"
        location := strField description "location"
        avatar_media_url := strField profile "avatarMediaUrl"
        header_media_url := strField profile "headerMediaUrl" }
    let res := upsertList (fun r => r.account_id == ownerId) row sc.1.profiles
    ({ sc.1 with profiles := res.1 },
     if res.2 then { sc.2 with profile := sc.2.profile + 1 } else sc.2)

/-- The `Tweet` row built by both the insert and the update branch of the
tweet loops (the update branch assigns every one of these fields on the
looked-up row, whose primary key already equals `tweetId`). -/
def mkTweetRow (kind ownerId tweetId : String) (tweet : PyVal) : Tweet :=
  { tweet_id := tweetId
    account_id := ownerId
    tweet_id_str := strFieldOrNone tweet "id_str"
    tweet_kind := kind
    created_at := parse_archive_datetime (pyGet? tweet "created_at")
    full_text := strField tweet "full_text"
    lang := strField tweet "lang"
    source := strField tweet "source"
    retweeted := boolField tweet "retweeted"
    favorited := boolField tweet "favorited"
    truncated := boolField tweet "truncated"
    favorite_count := safe_int (pyGet? tweet "favorite_count")
    retweet_count := safe_int (pyGet? tweet "retweet_count")
    display_text_range := displayTextRangeField tweet
    in_reply_to_status_id := optStrField tweet "in_reply_to_status_id"
    in_reply_to_status_id_str := optStrField tweet "in_reply_to_status_id_str"
    in_reply_to_user_id := optStrField tweet "in_reply_to_user_id"
    in_reply_to_user_id_str := optStrField tweet "in_reply_to_user_id_str"
    in_reply_to_screen_name := optStrField tweet "in_reply_to_screen_name"
    possibly_sensitive := optBoolField tweet "possibly_sensitive"
    edit_info := pyGet? tweet "edit_info" }

/-- The community-tweet loop additionally sets the community columns. -/
def mkCommunityTweetRow (ownerId tweetId : String) (tweet : PyVal) : Tweet :=
  { mkTweetRow "community" ownerId tweetId tweet with
      community_id := strFieldOrNone tweet "community_id"
      community_id_str := strFieldOrNone tweet "community_id_str"
      scopes := pyGet? tweet "scopes" }

/-- Insert-or-update of a tweet row keyed by `tweet_id`
(`session.get(Tweet, tweet_id)` then add / field-wise overwrite). -/
def upsertTweet (row : Tweet) (s : Store) : Store × Bool :=
  let res := upsertList (fun r => r.tweet_id == row.tweet_id) row s.tweets
  ({ s with tweets := res.1 }, res.2)

/-- The hashtag row built from an `entities.hashtags` entry. -/
def mkHashtagRow (tweetId : String) (h : PyVal) : TweetHashtag :=
  let (si, ei) := indices_to_bounds (asList (pyOr (pyGet? h "indices") (.list [])))
  { tweet_id := tweetId, text := strField h "text", start_index := si, end_index := ei }

/-- The `_exists` filter of the hashtag insert (every column). -/
def hashtagPred (row r : TweetHashtag) : Bool :=
  r.tweet_id == row.tweet_id && r.text == row.text &&
  r.start_index == row.start_index && r.end_index == row.end_index

/-- Existence-checked insert of a hashtag attachment row. -/
def addHashtag (tweetId : String) (h : PyVal) (sc : Store × Counts) : Store × Counts :=
  let row := mkHashtagRow tweetId h
  let res := insertIfAbsent (hashtagPred row) row sc.1.tweet_hashtags
  ({ sc.1 with tweet_hashtags := res.1 },
   if res.2 then { sc.2 with tweet_hashtag := sc.2.tweet_hashtag + 1 } else sc.2)

/-- The symbol row built from an `entities.symbols` entry. -/
def mkSymbolRow (tweetId : String) (h : PyVal) : TweetSymbol :=
  let (si, ei) := indices_to_bounds (asList (pyOr (pyGet? h "indices") (.list [])))
  { tweet_id := tweetId, text := strField h "text", start_index := si, end_index := ei }

/-- The `_exists` filter of the symbol insert (every column). -/
def symbolPred (row r : TweetSymbol) : Bool :=
  r.tweet_id == row.tweet_id && r.text == row.text &&
  r.start_index == row.start_index && r.end_index == row.end_index

/-- Existence-checked insert of a symbol attachment row. -/
def addSymbol (tweetId : String) (h : PyVal) (sc : Store × Counts) : Store × Counts :=
  let row := mkSymbolRow tweetId h
  let res := insertIfAbsent (symbolPred row) row sc.1.tweet_symbols
  ({ sc.1 with tweet_symbols := res.1 },
   if res.2 then { sc.2 with tweet_symbol := sc.2.tweet_symbol + 1 } else sc.2)

/-- The user-mention row built from an `entities.user_mentions` entry. -/
def mkMentionRow (tweetId : String) (m : PyVal) : TweetUserMention :=
  let (si, ei) := indices_to_bounds (asList (pyOr (pyGet? m "indices") (.list [])))
  { tweet_id := tweetId
    user_id := strFieldOrNone m "id"
    user_id_str := strFieldOrNone m "id_str"
    name := strField m "name"
    screen_name := strField m "screen_name"
    start_index := si, end_index := ei }

/-- The `_exists` filter of the user-mention insert (every column). -/
def mentionPred (row r : TweetUserMention) : Bool :=
  r.tweet_id == row.tweet_id && r.user_id == row.user_id &&
  r.user_id_str == row.user_id_str && r.name == row.name &&
  r.screen_name == row.screen_name &&
  r.start_index == row.start_index && r.end_index == row.end_index

/-- Existence-checked insert of a user-mention attachment row. -/
def addMention (tweetId : String) (m : PyVal) (sc : Store × Counts) : Store × Counts :=
  let row := mkMentionRow tweetId m
  let res := insertIfAbsent (mentionPred row) row sc.1.tweet_user_mentions
  ({ sc.1 with tweet_user_mentions := res.1 },
   if res.2 then { sc.2 with tweet_user_mention := sc.2.tweet_user_mention + 1 } else sc.2)

/-- The url row built from an `entities.urls` entry. -/
def mkUrlRow (tweetId : String) (u : PyVal) : TweetUrl :=
  let (si, ei) := indices_to_bounds (asList (pyOr (pyGet? u "indices") (.list [])))
  { tweet_id := tweetId
    url := strField u "url"
    expanded_url := strField u "expanded_url"
    display_url := strField u "display_url"
    start_index := si, end_index := ei }

/-- The `_exists` filter of the url insert (every column). -/
def urlPred (row r : TweetUrl) : Bool :=
  r.tweet_id == row.tweet_id && r.url == row.url &&
  r.expanded_url == row.expanded_url && r.display_url == row.display_url &&
  r.start_index == row.start_index && r.end_index == row.end_index

/-- Existence-checked insert of a url attachment row. -/
def addUrl (tweetId : String) (u : PyVal) (sc : Store × Counts) : Store × Counts :=
  let row := mkUrlRow tweetId u
  let res := insertIfAbsent (urlPred row) row sc.1.tweet_urls
  ({ sc.1 with tweet_urls := res.1 },
   if res.2 then { sc.2 with tweet_url := sc.2.tweet_url + 1 } else sc.2)

/-- The media row built from an `entities.media` entry
(`entity_type = "entities"`, no video info). -/
def mkEntitiesMediaRow (tweetId : String) (m : PyVal) : TweetMedia :=
  { tweet_id := tweetId
    entity_type := "entities"
    media_id := strFieldOrNone m "id"
    media_id_str := strFieldOrNone m "id_str"
    media_type := strField m "type"
    url := strField m "url"
    expanded_url := strField m "expanded_url"
    display_url := strField m "display_url"
    media_url := strField m "media_url"
    media_url_https := strField m "media_url_https"
    sizes := pyGet? m "sizes"
    source_status_id := optStrField m "source_status_id"
    source_status_id_str := optStrField m "source_status_id_str"
    source_user_id := optStrField m "source_user_id"
    source_user_id_str := optStrField m "source_user_id_str" }

/-- The media row built from an `extended_entities.media` entry
(`entity_type = "extended"`, video info kept). -/
def mkExtendedMediaRow (tweetId : String) (m : PyVal) : TweetMedia :=
  { mkEntitiesMediaRow tweetId m with
      entity_type := "extended"
      video_info := pyGet? m "video_info"
      additional_media_info := pyGet? m "additional_media_info" }

/-- The `_exists` filter of the media insert: it compares only
(tweet_id, entity_type, media_id, media_id_str, url, media_url). -/
def mediaPred (row r : TweetMedia) : Bool :=
  r.tweet_id == row.tweet_id && r.entity_type == row.entity_type &&
  r.media_id == row.media_id && r.media_id_str == row.media_id_str &&
  r.url == row.url && r.media_url == row.media_url

/-- Existence-checked insert of a media attachment row. -/
def addMedia (row : TweetMedia) (sc : Store × Counts) : Store × Counts :=
  let res := insertIfAbsent (mediaPred row) row sc.1.tweet_media
  ({ sc.1 with tweet_media := res.1 },
   if res.2 then { sc.2 with tweet_media := sc.2.tweet_media + 1 } else sc.2)

/-- One iteration of the `tweets` loop: upsert the row, re-sync its
full-text index row, then the existence-checked attachment inserts
(hashtags, symbols, user mentions, urls, `entities.media`,
`extended_entities.media`). -/
def processTweetItem (owner : Option String) (sc : Store × Counts)
    (item : PyVal) : Store × Counts :=
  let tweet := tweetItemPayload item
  let tweetId := tweetItemId item
  if tweetId = "" then sc
  else match owner with
  | Option.none => sc
  | Option.some ownerId =>
    let res := upsertTweet (mkTweetRow "tweet" ownerId tweetId tweet) sc.1
    let c := if res.2 then { sc.2 with tweet := sc.2.tweet + 1 } else sc.2
    let s := sync_tweet_fts tweetId ownerId (strField tweet "full_text") res.1
    let entities := pyOr (pyGet? tweet "entities") (.dict [])
    let sc := (entityList entities "hashtags").foldl
      (fun sc h => addHashtag tweetId h sc) (s, c)
    let sc := (entityList entities "symbols").foldl
      (fun sc h => addSymbol tweetId h sc) sc
    let sc := (entityList entities "user_mentions").foldl
      (fun sc m => addMention tweetId m sc) sc
    let sc := (entityList entities "urls").foldl
      (fun sc u => addUrl tweetId u sc) sc
    let sc := (entityList entities "media").foldl
      (fun sc m => addMedia (mkEntitiesMediaRow tweetId m) sc) sc
    let extended := pyOr (pyGet? tweet "extended_entities") (.dict [])
    let sc := (entityList extended "media").foldl
      (fun sc m => addMedia (mkExtendedMediaRow tweetId m) sc) sc
    sc

/-- One iteration of the `community-tweet` loop (no media attachments in
this loop; `tweet_kind = "community"`). -/
def processCommunityTweetItem (owner : Option String) (sc : Store × Counts)
    (item : PyVal) : Store × Counts :=
  let tweet := tweetItemPayload item
  let tweetId := tweetItemId item
  if tweetId = "" then sc
  else match owner with
  | Option.none => sc
  | Option.some ownerId =>
    let res := upsertTweet (mkCommunityTweetRow ownerId tweetId tweet) sc.1
    let c := if res.2 then { sc.2 with community_tweet := sc.2.community_tweet + 1 } else sc.2
    let s := sync_tweet_fts tweetId ownerId (strField tweet "full_text") res.1
    let entities := pyOr (pyGet? tweet "entities") (.dict [])
    let sc := (entityList entities "hashtags").foldl
      (fun sc h => addHashtag tweetId h sc) (s, c)
    let sc := (entityList entities "symbols").foldl
      (fun sc h => addSymbol tweetId h sc) sc
    let sc := (entityList entities "user_mentions").foldl
      (fun sc m => addMention tweetId m sc) sc
    let sc := (entityList entities "urls").foldl
      (fun sc u => addUrl tweetId u sc) sc
    sc

/-- One iteration of the `note-tweet` loop. -/
def processNoteTweetItem (owner : Option String) (sc : Store × Counts)
    (item : PyVal) : Store × Counts :=
  let note := noteItemPayload item
  let noteId := noteItemId item
  if noteId = "" then sc
  else match owner with
  | Option.none => sc
  | Option.some ownerId =>
    let row : NoteTweet :=
      { note_tweet_id := noteId
        account_id := ownerId
        created_at := strField note "createdAt"
        updated_at := strField note "updatedAt"
        lifecycle := pyOr (pyGet? note "lifecycle") (.dict [])
        core := pyOr (pyGet? note "core") (.dict []) }
    let res := upsertList (fun r => r.note_tweet_id == noteId) row sc.1.note_tweets
    ({ sc.1 with note_tweets := res.1 },
     if res.2 then { sc.2 with note_tweet := sc.2.note_tweet + 1 } else sc.2)

/-- One iteration of the `like` loop (composite key (account_id, tweet_id)). -/
def processLikeItem (owner : Option String) (sc : Store × Counts)
    (item : PyVal) : Store × Counts :=
  let like := likeItemPayload item
  let tweetId := likeItemId item
  if tweetId = "" then sc
  else match owner with
  | Option.none => sc
  | Option.some ownerId =>
    let row : Like :=
      { account_id := ownerId
        tweet_id := tweetId
        full_text := pyGet? like "fullText"
        expanded_url := pyGet? like "expandedUrl" }
    let res := upsertList
      (fun r => r.account_id == ownerId && r.tweet_id == tweetId) row sc.1.likes
    ({ sc.1 with likes := res.1 },
     if res.2 then { sc.2 with like := sc.2.like + 1 } else sc.2)

/-- One iteration of the `follower` loop (composite key
(account_id, follower_account_id); update touches only `user_link`). -/
def processFollowerItem (owner : Option String) (sc : Store × Counts)
    (item : PyVal) : Store × Counts :=
  let follower := followerItemPayload item
  let followerId := followerItemId item
  if followerId = "" then sc
  else match owner with
  | Option.none => sc
  | Option.some ownerId =>
    let userLink := strField follower "userLink"
    let row : Follower :=
      { account_id := ownerId, follower_account_id := followerId, user_link := userLink }
    let res := upsertList
      (fun r => r.account_id == ownerId && r.follower_account_id == followerId)
      row sc.1.followers
    ({ sc.1 with followers := res.1 },
     if res.2 then { sc.2 with follower := sc.2.follower + 1 } else sc.2)

/-- One iteration of the `following` loop. -/
def processFollowingItem (owner : Option String) (sc : Store × Counts)
    (item : PyVal) : Store × Counts :=
  let following := followingItemPayload item
  let followedId := followingItemId item
  if followedId = "" then sc
  else match owner with
  | Option.none => sc
  | Option.some ownerId =>
    let userLink := strField following "userLink"
    let row : Following :=
      { account_id := ownerId, followed_account_id := followedId, user_link := userLink }
    let res := upsertList
      (fun r => r.account_id == ownerId && r.followed_account_id == followedId)
      row sc.1.followings
    ({ sc.1 with followings := res.1 },
     if res.2 then { sc.2 with following := sc.2.following + 1 } else sc.2)

/-- `importer.import_archive_data`.  Raising `ValueError` for a missing
owner is the only failure path and happens before any write; batch-size
commit boundaries do not affect the final state and are not modelled. -/
def import_archive_data (doc : ArchiveDoc) (s : Store) :
    Except ImportError (Counts × Store) :=
  let owner := get_owner_account_id doc
  if owner.isNone ∧ has_owner_scoped_data doc then
    .error .missingOwner
  else
    let sc : Store × Counts := (s, {})
    let sc := processUploadOptions doc.uploadOptions owner sc
    let sc := doc.account.foldl processAccountItem sc
    let sc := doc.profile.foldl (processProfileItem owner) sc
    let sc := doc.tweets.foldl (processTweetItem owner) sc
    let sc := doc.communityTweets.foldl (processCommunityTweetItem owner) sc
    let sc := doc.noteTweets.foldl (processNoteTweetItem owner) sc
    let sc := doc.likes.foldl (processLikeItem owner) sc
    let sc := doc.followers.foldl (processFollowerItem owner) sc
    let sc := doc.followings.foldl (processFollowingItem owner) sc
    .ok (sc.2, sc.1)

/-! ### Keyword search (`search.py`)

The fts5 `MATCH` operator and the `bm25` relevance score are external
collaborators: they are passed in as an opaque predicate and an opaque
(integer-valued model of the) scoring function. -/

/-- A Python `datetime.date`. -/
structure PyDate where
  y : Int
  m : Int
  d : Int
deriving Repr, DecidableEq

/-- `search._date_to_utc_datetime` / `embeddings._date_to_utc_datetime`:
`datetime.combine(value, time.min | time.max, tzinfo=timezone.utc)`. -/
def date_to_utc_datetime (value : Option PyDate) (isEnd : Bool) : Option PyDatetime :=
  value.map fun dt =>
    { usec := civilToUsec dt.y dt.m dt.d 0 0 0 0 + (if isEnd then 86399999999 else 0)
      off := Option.some 0 }

/-- `_coerce_datetime` applied to a stored timestamp.  The store is typed,
so only the `None` and `datetime` branches of the Python helper are
reachable (the raw-SQL string branch re-parses driver strings). -/
def coerce_stored_datetime (v : Option PyDatetime) : Option PyDatetime := v.map toUtc

/-- SQL semantics of `(:since IS NULL OR t.created_at >= :since)`:
a NULL `created_at` compares as NULL and the row is filtered out. -/
def sinceFilter (sinceDt : Option PyDatetime) (created : Option PyDatetime) : Bool :=
  match sinceDt with
  | Option.none => true
  | Option.some dt =>
    match created with
    | Option.none => false
    | Option.some c => decide (c.usec ≥ dt.usec)

/-- SQL semantics of `(:until IS NULL OR t.created_at <= :until)`. -/
def untilFilter (untilDt : Option PyDatetime) (created : Option PyDatetime) : Bool :=
  match untilDt with
  | Option.none => true
  | Option.some dt =>
    match created with
    | Option.none => false
    | Option.some c => decide (c.usec ≤ dt.usec)

/-- `search.SearchOwner`. -/
structure SearchOwner where
  account_id : String
  username : String
  account_display_name : String
deriving Repr, DecidableEq

/-- `search.SearchResult` (the bm25 `REAL` rank is modelled as an `Int`). -/
structure SearchResult where
  tweet_id : String
  created_at : Option PyDatetime
  full_text : String
  tweet_kind : String
  owner : SearchOwner
  rank : Int
deriving Repr, DecidableEq

/-- `search._normalize_author`: strip, then drop a single leading `@`. -/
def normalize_author (a : String) : String :=
  match trimChars a.data with
  | '@' :: rest => String.mk rest
  | t => String.mk t

/-- Python truthiness of the optional author argument. -/
def authorTruthy : Option String → Bool
  | Option.some a => a ≠ ""
  | Option.none => false

/-- `search._resolve_author_account_id`. -/
def resolve_author_account_id (s : Store) (author : Option String) : Option String :=
  match author with
  | Option.none => Option.none
  | Option.some a =>
    if a = "" then Option.none
    else (s.accounts.find? (fun r => r.username == normalize_author a)).map (·.account_id)

/-- The `FROM tweet_fts JOIN tweet ... JOIN account ...` join. -/
def searchJoinRows (s : Store) : List (FtsRow × Tweet × Account) :=
  s.fts.flatMap fun f =>
    (s.tweets.filter (fun t => t.tweet_id == f.tweet_id)).flatMap fun t =>
      (s.accounts.filter (fun a => a.account_id == t.account_id)).map fun a => (f, t, a)

/-- `ORDER BY rank ASC, t.created_at IS NULL, t.created_at DESC`. -/
def resultLe (a b : SearchResult) : Bool :=
  if a.rank = b.rank then
    match a.created_at, b.created_at with
    | Option.some x, Option.some y => decide (x.usec ≥ y.usec)
    | Option.some _, Option.none => true
    | Option.none, Option.some _ => false
    | Option.none, Option.none => true
  else decide (a.rank ≤ b.rank)

/-- `search.search_tweets`.  `matchFn` models the fts5 `MATCH` operator
(applied to the indexed `tweet_fts.full_text` column) and `rankFn` the
`bm25` score. -/
def search_tweets (s : Store) (matchFn : String → String → Bool)
    (rankFn : String → String → Int) (query : String) (author : Option String)
    (since untilD : Option PyDate) (limit : Nat) : List SearchResult :=
  if pyStrip query = "" then []
  else
    let accountId := resolve_author_account_id s author
    if authorTruthy author ∧ accountId.isNone then []
    else
      let sinceDt := date_to_utc_datetime since false
      let untilDt := date_to_utc_datetime untilD true
      let rows := (searchJoinRows s).filter fun ⟨f, t, _⟩ =>
        matchFn query f.full_text
        && (match accountId with
            | Option.none => true
            | Option.some aid => t.account_id == aid)
        && sinceFilter sinceDt t.created_at
        && untilFilter untilDt t.created_at
      let results := rows.map fun ⟨f, t, a⟩ =>
        { tweet_id := t.tweet_id
          created_at := coerce_stored_datetime t.created_at
          full_text := t.full_text
          tweet_kind := t.tweet_kind
          owner := { account_id := a.account_id, username := a.username,
                     account_display_name := a.account_display_name }
          rank := rankFn query f.full_text : SearchResult }
      (results.mergeSort resultLe).take limit

/-! ### Semantic search (`embeddings.py`)

The OpenAI client and the sqlite-vec `MATCH` k-nearest-neighbour
selection are external collaborators, passed in as opaque functions. -/

/-- `embeddings.EmbeddingConfig`. -/
structure EmbeddingConfig where
  api_key : String
  model : String
deriving Repr, DecidableEq

/-- The credential sources consulted by `resolve_embedding_config`
(environment, embedding-specific stored credential, generic stored
credential). -/
structure EmbeddingEnv where
  envApiKey : Option String := Option.none
  embeddingCredApiKey : Option String := Option.none
  credApiKey : Option String := Option.none
  envModel : Option String := Option.none
  embeddingCredModel : Option String := Option.none
  credModel : Option String := Option.none
deriving Repr

/-- The failures of the semantic-search path: `EmbeddingsUnavailable`
and the `RuntimeError` for a missing `OPENAI_API_KEY`. -/
inductive EmbeddingsError where
  | embeddingsUnavailable
  | missingApiKey
deriving Repr, DecidableEq

/-- Python `a or b` on optional strings (`None` and `""` are falsy). -/
def pyOrStr (a b : Option String) : Option String :=
  match a with
  | Option.some s => if s ≠ "" then Option.some s else b
  | Option.none => b

/-- Python `a or d` with a string default. -/
def pyOrStrD (a : Option String) (d : String) : String :=
  match a with
  | Option.some s => if s ≠ "" then s else d
  | Option.none => d

/-- `embeddings.resolve_embedding_config`: explicit override >
environment > stored embedding credential > stored credential >
built-in default model. -/
def resolve_embedding_config (env : EmbeddingEnv) (modelOverride : Option String) :
    Except EmbeddingsError EmbeddingConfig :=
  let apiKey := pyOrStr env.envApiKey (pyOrStr env.embeddingCredApiKey env.credApiKey)
  match apiKey with
  | Option.none => .error .missingApiKey
  | Option.some k =>
    if k = "" then .error .missingApiKey
    else
      .ok { api_key := k
            model := pyOrStrD
              (pyOrStr modelOverride
                (pyOrStr env.envModel
                  (pyOrStr env.embeddingCredModel env.credModel)))
              "text-embedding-3-small" }

/-- `embeddings.SemanticSearchResult`. -/
structure SemanticSearchResult where
  tweet_id : String
  created_at : Option PyDatetime
  full_text : String
  tweet_kind : String
  owner_account_id : String
  owner_username : String
  owner_display_name : String
deriving Repr, DecidableEq

/-- `embeddings._resolve_author_account_id`:
`author.strip().lstrip("@")` strips every leading `@`. -/
def resolve_author_account_id_sem (s : Store) (author : Option String) : Option String :=
  match author with
  | Option.none => Option.none
  | Option.some a =>
    if a = "" then Option.none
    else
      let normalized := String.mk ((trimChars a.data).dropWhile (· = '@'))
      (s.accounts.find? (fun r => r.username == normalized)).map (·.account_id)

/-- `embeddings.embeddings_available`: `SELECT COUNT(*) FROM
tweet_embedding` is positive (a missing table, caught by the
`except` clause, is modelled by the empty list). -/
def embeddings_available (s : Store) : Bool := s.embeddings.length > 0

/-- `ORDER BY t.created_at IS NULL, t.created_at DESC`. -/
def semResultLe (a b : SemanticSearchResult) : Bool :=
  match a.created_at, b.created_at with
  | Option.some x, Option.some y => decide (x.usec ≥ y.usec)
  | Option.some _, Option.none => true
  | Option.none, Option.some _ => false
  | Option.none, Option.none => true

/-- `embeddings.semantic_search_tweets`.  `embedFn` models the OpenAI
embedding call (model, text) ↦ JSON vector; `knn` models the vec0
`MATCH ... AND k = :k` nearest-neighbour selection over the rows that
pass the partition-key filter. -/
def semantic_search_tweets (s : Store) (env : EmbeddingEnv)
    (embedFn : String → String → String)
    (knn : List EmbeddingRow → String → Nat → List EmbeddingRow)
    (query : String) (author : Option String) (since untilD : Option PyDate)
    (limit : Nat) (modelOverride : Option String) :
    Except EmbeddingsError (List SemanticSearchResult) :=
  if pyStrip query = "" then .ok []
  else if ¬ embeddings_available s then .error .embeddingsUnavailable
  else
    match resolve_embedding_config env modelOverride with
    | .error e => .error e
    | .ok config =>
      let accountId := resolve_author_account_id_sem s author
      if authorTruthy author ∧ accountId.isNone then .ok []
      else
        let queryEmbedding := embedFn config.model query
        let sinceDt := date_to_utc_datetime since false
        let untilDt := date_to_utc_datetime untilD true
        let candidates := knn
          (s.embeddings.filter fun te =>
            match accountId with
            | Option.none => true
            | Option.some aid => te.account_id == aid)
          queryEmbedding limit
        let rows := candidates.flatMap fun te =>
          (s.tweets.filter (fun t => t.tweet_id == te.tweet_id)).flatMap fun t =>
            (s.accounts.filter (fun a => a.account_id == t.account_id)).map fun a => (t, a)
        let rows := rows.filter fun ⟨t, _⟩ =>
          sinceFilter sinceDt t.created_at && untilFilter untilDt t.created_at
        let results := rows.map fun ⟨t, a⟩ =>
          { tweet_id := t.tweet_id
            created_at := coerce_stored_datetime t.created_at
            full_text := t.full_text
            tweet_kind := t.tweet_kind
            owner_account_id := a.account_id
            owner_username := a.username
            owner_display_name := a.account_display_name : SemanticSearchResult }
        .ok ((results.mergeSort semResultLe).take limit)

/-! ### Derived notions used by the verification -/

/-- The document with every record whose identifying field stringifies to
the empty string removed. -/
def dropEmptyIdRecords (doc : ArchiveDoc) : ArchiveDoc :=
  { doc with
    tweets := doc.tweets.filter (fun item => tweetItemId item ≠ "")
    communityTweets := doc.communityTweets.filter (fun item => tweetItemId item ≠ "")
    noteTweets := doc.noteTweets.filter (fun item => noteItemId item ≠ "")
    likes := doc.likes.filter (fun item => likeItemId item ≠ "")
    followers := doc.followers.filter (fun item => followerItemId item ≠ "")
    followings := doc.followings.filter (fun item => followingItemId item ≠ "") }

/-- No stored row carries an empty external identifier. -/
def NoEmptyIds (s : Store) : Prop :=
  (∀ t ∈ s.tweets, t.tweet_id ≠ "")
  ∧ (∀ n ∈ s.note_tweets, n.note_tweet_id ≠ "")
  ∧ (∀ l ∈ s.likes, l.tweet_id ≠ "")
  ∧ (∀ f ∈ s.followers, f.follower_account_id ≠ "")
  ∧ (∀ f ∈ s.followings, f.followed_account_id ≠ "")

/-- The search-index consistency invariant of a well-formed store: post
ids are unique in both the post table and the index, every index row
mirrors its post's current text and owner, and every post has an index
row.  It holds for the empty store and is preserved by imports. -/
def FtsSync (s : Store) : Prop :=
  (s.fts.map (·.tweet_id)).Nodup
  ∧ (s.tweets.map (·.tweet_id)).Nodup
  ∧ (∀ f ∈ s.fts, ∃ t ∈ s.tweets,
      t.tweet_id = f.tweet_id ∧ f.full_text = t.full_text ∧ f.account_id = t.account_id)
  ∧ (∀ t ∈ s.tweets, ∃ f ∈ s.fts, f.tweet_id = t.tweet_id)

/-- The row count of every table of the store. -/
def tableLengths (s : Store) : List Nat :=
  [s.upload_options.length, s.accounts.length, s.profiles.length, s.tweets.length,
   s.tweet_hashtags.length, s.tweet_symbols.length, s.tweet_user_mentions.length,
   s.tweet_urls.length, s.tweet_media.length, s.note_tweets.length, s.likes.length,
   s.followers.length, s.followings.length, s.fts.length, s.embeddings.length]

/-- The (counts, store) pair of a successful import (identity on failure). -/
def importOk (doc : ArchiveDoc) (s : Store) : Counts × Store :=
  match import_archive_data doc s with
  | .ok r => r
  | .error _ => ({}, s)

/-- The store left behind by a successful import (identity on failure). -/
def storeAfter (doc : ArchiveDoc) (s : Store) : Store :=
  match import_archive_data doc s with
  | .ok (_, s') => s'
  | .error _ => s

/-! ### Materialization predicates for the idempotence argument -/

/-- The upload-options record is already materialized for owner `o`. -/
def uploadHandled (o : String) (uo : PyVal) (s : Store) : Prop :=
  isDict uo = true → s.upload_options.any (fun r => r.account_id == o) = true

/-- An `account` item is already materialized (or guarded out). -/
def accountHandled (item : PyVal) (s : Store) : Prop :=
  accountItemId item = ""
  ∨ s.accounts.any (fun r => r.account_id == accountItemId item) = true

/-- A `tweets` item is already materialized: the post row exists and every
attachment row passes its existence check. -/
def tweetHandled (item : PyVal) (s : Store) : Prop :=
  let tweet := tweetItemPayload item
  let tid := tweetItemId item
  let entities := pyOr (pyGet? tweet "entities") (.dict [])
  tid = "" ∨
    (s.tweets.any (fun r => r.tweet_id == tid) = true
     ∧ (∀ h ∈ entityList entities "hashtags",
         s.tweet_hashtags.any (hashtagPred (mkHashtagRow tid h)) = true)
     ∧ (∀ h ∈ entityList entities "symbols",
         s.tweet_symbols.any (symbolPred (mkSymbolRow tid h)) = true)
     ∧ (∀ m ∈ entityList entities "user_mentions",
         s.tweet_user_mentions.any (mentionPred (mkMentionRow tid m)) = true)
     ∧ (∀ u ∈ entityList entities "urls",
         s.tweet_urls.any (urlPred (mkUrlRow tid u)) = true)
     ∧ (∀ m ∈ entityList entities "media",
         s.tweet_media.any (mediaPred (mkEntitiesMediaRow tid m)) = true)
     ∧ (∀ m ∈ entityList (pyOr (pyGet? tweet "extended_entities") (.dict [])) "media",
         s.tweet_media.any (mediaPred (mkExtendedMediaRow tid m)) = true))

/-- A `community-tweet` item is already materialized. -/
def communityTweetHandled (item : PyVal) (s : Store) : Prop :=
  let tweet := tweetItemPayload item
  let tid := tweetItemId item
  let entities := pyOr (pyGet? tweet "entities") (.dict [])
  tid = "" ∨
    (s.tweets.any (fun r => r.tweet_id == tid) = true
     ∧ (∀ h ∈ entityList entities "hashtags",
         s.tweet_hashtags.any (hashtagPred (mkHashtagRow tid h)) = true)
     ∧ (∀ h ∈ entityList entities "symbols",
         s.tweet_symbols.any (symbolPred (mkSymbolRow tid h)) = true)
     ∧ (∀ m ∈ entityList entities "user_mentions",
         s.tweet_user_mentions.any (mentionPred (mkMentionRow tid m)) = true)
     ∧ (∀ u ∈ entityList entities "urls",
         s.tweet_urls.any (urlPred (mkUrlRow tid u)) = true))

/-- A `note-tweet` item is already materialized. -/
def noteHandled (item : PyVal) (s : Store) : Prop :=
  noteItemId item = ""
  ∨ s.note_tweets.any (fun r => r.note_tweet_id == noteItemId item) = true

/-- A `like` item is already materialized for owner `o`. -/
def likeHandled (o : String) (item : PyVal) (s : Store) : Prop :=
  likeItemId item = ""
  ∨ s.likes.any (fun r => r.account_id == o && r.tweet_id == likeItemId item) = true

/-- A `follower` item is already materialized for owner `o`. -/
def followerHandled (o : String) (item : PyVal) (s : Store) : Prop :=
  followerItemId item = ""
  ∨ s.followers.any
      (fun r => r.account_id == o && r.follower_account_id == followerItemId item) = true

/-- A `following` item is already materialized for owner `o`. -/
def followingHandled (o : String) (item : PyVal) (s : Store) : Prop :=
  followingItemId item = ""
  ∨ s.followings.any
      (fun r => r.account_id == o && r.followed_account_id == followingItemId item) = true

/-- Every record of the document is already materialized in the store, so
a re-import performs only in-place overwrites and skips. -/
def DocHandled (owner : Option String) (doc : ArchiveDoc) (s : Store) : Prop :=
  (∀ item ∈ doc.account, accountHandled item s)
  ∧ match owner with
    | Option.none => True
    | Option.some o =>
      uploadHandled o doc.uploadOptions s
      ∧ (doc.profile ≠ [] → s.profiles.any (fun r => r.account_id == o) = true)
      ∧ (∀ item ∈ doc.tweets, tweetHandled item s)
      ∧ (∀ item ∈ doc.communityTweets, communityTweetHandled item s)
      ∧ (∀ item ∈ doc.noteTweets, noteHandled item s)
      ∧ (∀ item ∈ doc.likes, likeHandled o item s)
      ∧ (∀ item ∈ doc.followers, followerHandled o item s)
      ∧ (∀ item ∈ doc.followings, followingHandled o item s)

/-- Key-indexed presence facts are monotone from `s` to `s'`: whatever a
keyed lookup or an attachment existence check could already find in `s`,
it still finds in `s'`.  Every import step produces a `KeyPres`-related
store. -/
structure KeyPres (s s' : Store) : Prop where
  upload : ∀ k, s.upload_options.any (fun r => r.account_id == k) = true →
    s'.upload_options.any (fun r => r.account_id == k) = true
  account : ∀ k, s.accounts.any (fun r => r.account_id == k) = true →
    s'.accounts.any (fun r => r.account_id == k) = true
  profile : ∀ k, s.profiles.any (fun r => r.account_id == k) = true →
    s'.profiles.any (fun r => r.account_id == k) = true
  tweet : ∀ k, s.tweets.any (fun r => r.tweet_id == k) = true →
    s'.tweets.any (fun r => r.tweet_id == k) = true
  note : ∀ k, s.note_tweets.any (fun r => r.note_tweet_id == k) = true →
    s'.note_tweets.any (fun r => r.note_tweet_id == k) = true
  like : ∀ o k, s.likes.any (fun r => r.account_id == o && r.tweet_id == k) = true →
    s'.likes.any (fun r => r.account_id == o && r.tweet_id == k) = true
  follower : ∀ o k,
    s.followers.any (fun r => r.account_id == o && r.follower_account_id == k) = true →
    s'.followers.any (fun r => r.account_id == o && r.follower_account_id == k) = true
  following : ∀ o k,
    s.followings.any (fun r => r.account_id == o && r.followed_account_id == k) = true →
    s'.followings.any (fun r => r.account_id == o && r.followed_account_id == k) = true
  hashtag : ∀ q, s.tweet_hashtags.any q = true → s'.tweet_hashtags.any q = true
  symbol : ∀ q, s.tweet_symbols.any q = true → s'.tweet_symbols.any q = true
  mention : ∀ q, s.tweet_user_mentions.any q = true → s'.tweet_user_mentions.any q = true
  url : ∀ q, s.tweet_urls.any q = true → s'.tweet_urls.any q = true
  media : ∀ q, s.tweet_media.any q = true → s'.tweet_media.any q = true

/-! ### Concrete example documents (mirroring the repository's test
fixtures) used by counterexamples and witnesses -/

/-- An `account` record-kind entry. -/
def exampleAccountItem (ownerId username : String) : PyVal :=
  .dict [("account", .dict [
    ("createdVia", .str "oauth:123"),
    ("username", .str username),
    ("accountId", .str ownerId),
    ("createdAt", .str "2023-01-01T00:00:00.000Z"),
    ("accountDisplayName", .str username)])]

/-- A `tweets` record-kind entry. -/
def exampleTweetItem (tweetId txt : String) : PyVal :=
  .dict [("tweet", .dict [
    ("created_at", .str "2023-05-01T00:00:00.000Z"),
    ("display_text_range", .list [.str "0", .str "5"]),
    ("entities", .dict [("hashtags", .list []), ("symbols", .list []),
                        ("user_mentions", .list []), ("urls", .list [])]),
    ("favorite_count", .str "0"),
    ("id_str", .str tweetId),
    ("truncated", .bool false),
    ("retweet_count", .str "0"),
    ("id", .str tweetId),
    ("favorited", .bool false),
    ("full_text", .str txt),
    ("lang", .str "en"),
    ("source", .str "web"),
    ("retweeted", .bool false)])]

/-- A one-account, one-post canonical document. -/
def exampleDoc (ownerId username tweetId txt : String) : ArchiveDoc :=
  { account := [exampleAccountItem ownerId username]
    tweets := [exampleTweetItem tweetId txt] }

/-- Owner A's document for the cross-owner scenario. -/
def c1DocA : ArchiveDoc := exampleDoc "42" "alice" "111" "tweet-42"

/-- Owner B's colliding document for the cross-owner scenario. -/
def c1DocB : ArchiveDoc := exampleDoc "99" "bob" "111" "tweet-99"

/-- The store after importing owner A's document into an empty store. -/
def c1Store1 : Store := storeAfter c1DocA {}

/-- A document whose only post has empty text. -/
def c2Doc : ArchiveDoc := exampleDoc "42" "alice" "111" ""

/-- A document with owner-scoped data but no `account` entry. -/
def c4Doc : ArchiveDoc := { tweets := [exampleTweetItem "111" "hello"] }

/-- A document holding one well-formed post and one post record whose id
stringifies to the empty string. -/
def c10Doc : ArchiveDoc :=
  { account := [exampleAccountItem "42" "alice"]
    tweets := [exampleTweetItem "111" "hello",
               .dict [("tweet", .dict [("id", .str "")])]] }

/-- The invariant carried through a re-import of an already-materialized
document: no insert has been counted, no table has grown, keyed presence
facts of the pre-state persist, and the search index stays consistent. -/
def ReimportInv (base : Store) (sc : Store × Counts) : Prop :=
  sc.2 = ({} : Counts) ∧ tableLengths sc.1 = tableLengths base
    ∧ KeyPres base sc.1 ∧ FtsSync sc.1

/-- A small but fully populated document (account, profile, upload
options, one post with entities, one note, one like, one follower, one
following) used to witness re-import idempotence. -/
def c3Doc : ArchiveDoc :=
  { account := [exampleAccountItem "7" "carol"]
    profile := [.dict [("profile", .dict
        [("description", .dict [("bio", .str "hi")])])]]
    uploadOptions := .dict [("keepPrivate", .bool false)]
    tweets := [exampleTweetItem "201" "hello world"]
    noteTweets := [.dict [("noteTweet", .dict
        [("noteTweetId", .str "301"), ("createdAt", .str "2023-01-01")])]]
    likes := [.dict [("like", .dict [("tweetId", .str "201")])]]
    followers := [.dict [("follower", .dict [("accountId", .str "8")])]]
    followings := [.dict [("following", .dict [("accountId", .str "9")])]] }

/-! ## Theorems -/

/-- `replaceFirst` preserves the length. -/
theorem replaceFirst_length (p : α → Bool) (new : α) :
    ∀ l : List α, (replaceFirst p new l).length = l.length := by
  intro l
  induction l with
  | nil => rfl
  | cons x t ih =>
    simp only [replaceFirst]
    split <;> simp [ih]

/-- A satisfied predicate stays satisfied across `replaceFirst` when the
replacement keeps the predicate status of whatever it replaces. -/
theorem any_true_replaceFirst {p q : α → Bool} {new : α}
    (h : ∀ x, p x = true → q x = true → q new = true) :
    ∀ {l : List α}, l.any q = true → (replaceFirst p new l).any q = true := by
  intro l
  induction l with
  | nil => simp
  | cons x t ih =>
    intro hl
    simp only [List.any_cons, Bool.or_eq_true] at hl
    simp only [replaceFirst]
    split
    · rename_i hpx
      rcases hl with hqx | ht
      · simp [h x hpx hqx]
      · simp [ht]
    · rcases hl with hqx | ht
      · simp [hqx]
      · simp [ih ht]

/-- After replacing a first `p`-match by a `q`-satisfying row, `q` holds
somewhere. -/
theorem any_replaceFirst_self {p q : α → Bool} {new : α} (hq : q new = true) :
    ∀ {l : List α}, l.any p = true → (replaceFirst p new l).any q = true := by
  intro l
  induction l with
  | nil => simp
  | cons x t ih =>
    intro hl
    simp only [List.any_cons, Bool.or_eq_true] at hl
    simp only [replaceFirst]
    split
    · simp [hq]
    · rename_i hpx
      rcases hl with hpx' | ht
      · exact absurd hpx' (by simp [hpx])
      · simp [ih ht]

/-- Length accounting for `upsertList`. -/
theorem upsertList_length (p : ρ → Bool) (row : ρ) (l : List ρ) :
    (upsertList p row l).1.length = if l.any p then l.length else l.length + 1 := by
  simp only [upsertList]
  split <;> simp [replaceFirst_length]

/-- On a present key, `upsertList` updates in place and reports no insert. -/
theorem upsertList_of_any {p : ρ → Bool} {row : ρ} {l : List ρ} (h : l.any p = true) :
    upsertList p row l = (replaceFirst p row l, false) := by
  simp [upsertList, h]

/-- Presence facts survive `upsertList` when the replacement row keeps the
status of what it replaces. -/
theorem upsertList_any_mono {p q : ρ → Bool} {row : ρ} {l : List ρ}
    (hcompat : ∀ x, p x = true → q x = true → q row = true)
    (h : l.any q = true) : (upsertList p row l).1.any q = true := by
  simp only [upsertList]
  split
  · exact any_true_replaceFirst hcompat h
  · simp [h]

/-- After an `upsertList` whose row satisfies `q`, `q` holds somewhere. -/
theorem upsertList_establishes {p q : ρ → Bool} {row : ρ} {l : List ρ}
    (hq : q row = true) : (upsertList p row l).1.any q = true := by
  simp only [upsertList]
  split
  · exact any_replaceFirst_self hq (by assumption)
  · simp [hq]

/-- Length accounting for `insertIfAbsent`. -/
theorem insertIfAbsent_length (p : ρ → Bool) (row : ρ) (l : List ρ) :
    (insertIfAbsent p row l).1.length = if l.any p then l.length else l.length + 1 := by
  simp only [insertIfAbsent]
  split <;> simp

/-- On a present row, `insertIfAbsent` is a no-op. -/
theorem insertIfAbsent_of_any {p : ρ → Bool} {row : ρ} {l : List ρ}
    (h : l.any p = true) : insertIfAbsent p row l = (l, false) := by
  simp [insertIfAbsent, h]

/-- `insertIfAbsent` only appends, so presence facts survive it. -/
theorem insertIfAbsent_any_mono {p q : ρ → Bool} {row : ρ} {l : List ρ}
    (h : l.any q = true) : (insertIfAbsent p row l).1.any q = true := by
  simp only [insertIfAbsent]
  split <;> simp [h]

/-- After `insertIfAbsent` of a row, its own existence check passes. -/
theorem insertIfAbsent_establishes {p : ρ → Bool} {row : ρ} {l : List ρ}
    (hrow : p row = true) : (insertIfAbsent p row l).1.any p = true := by
  simp only [insertIfAbsent]
  split
  · assumption
  · simp [hrow]

/-- A fold preserves any invariant its step preserves. -/
theorem foldl_preserve {P : β → Prop} {f : β → α → β}
    (hf : ∀ b a, P b → P (f b a)) :
    ∀ (l : List α) (b), P b → P (l.foldl f b) := by
  intro l
  induction l with
  | nil => exact fun b h => h
  | cons a t ih => exact fun b h => ih (f b a) (hf b a h)

/-- A fold over steps that fix `b` returns `b`. -/
theorem foldl_fixed {f : β → α → β} {b : β} :
    ∀ {l : List α}, (∀ a ∈ l, f b a = b) → l.foldl f b = b := by
  intro l
  induction l with
  | nil => simp
  | cons a t ih =>
    intro h
    have ha := h a (by simp)
    simp only [List.foldl_cons, ha]
    exact ih fun x hx => h x (by simp [hx])

/-- Dropping the elements on which the step acts as the identity does not
change a fold. -/
theorem foldl_filter_eq {f : β → α → β} {p : α → Bool}
    (hstep : ∀ b a, p a = false → f b a = b) :
    ∀ (l : List α) (b), (l.filter p).foldl f b = l.foldl f b := by
  intro l
  induction l with
  | nil => intro b; rfl
  | cons a t ih =>
    intro b
    cases hpa : p a with
    | false => simp only [List.filter_cons, hpa, List.foldl_cons, hstep b a hpa]; exact ih b
    | true => simp only [List.filter_cons, hpa, List.foldl_cons]; exact ih (f b a)

/-- After a fold whose step establishes `P` of its argument and preserves
`P` of anything else, `P` holds of every element folded over. -/
theorem foldl_forall_mem {f : β → α → β} {P : α → β → Prop}
    (hest : ∀ b a, P a (f b a)) (hmono : ∀ b a x, P x b → P x (f b a)) :
    ∀ (l : List α) (b), ∀ x ∈ l, P x (l.foldl f b) := by
  intro l
  induction l with
  | nil => simp
  | cons a t ih =>
    intro b x hx
    rcases List.mem_cons.mp hx with rfl | hx'
    · exact foldl_preserve (fun b' a' h => hmono b' a' x h) t (f b x) (hest b x)
    · exact ih (f b a) x hx'

/-- `KeyPres` is reflexive. -/
theorem keyPres_refl (s : Store) : KeyPres s s :=
  ⟨fun _ h => h, fun _ h => h, fun _ h => h, fun _ h => h, fun _ h => h,
   fun _ _ h => h, fun _ _ h => h, fun _ _ h => h,
   fun _ h => h, fun _ h => h, fun _ h => h, fun _ h => h, fun _ h => h⟩

/-- `KeyPres` composes. -/
theorem keyPres_trans {u v w : Store} (h1 : KeyPres u v) (h2 : KeyPres v w) :
    KeyPres u w :=
  ⟨fun k h => h2.upload k (h1.upload k h),
   fun k h => h2.account k (h1.account k h),
   fun k h => h2.profile k (h1.profile k h),
   fun k h => h2.tweet k (h1.tweet k h),
   fun k h => h2.note k (h1.note k h),
   fun o k h => h2.like o k (h1.like o k h),
   fun o k h => h2.follower o k (h1.follower o k h),
   fun o k h => h2.following o k (h1.following o k h),
   fun q h => h2.hashtag q (h1.hashtag q h),
   fun q h => h2.symbol q (h1.symbol q h),
   fun q h => h2.mention q (h1.mention q h),
   fun q h => h2.url q (h1.url q h),
   fun q h => h2.media q (h1.media q h)⟩

/-- An element not matching `p` survives `replaceFirst` untouched. -/
theorem mem_replaceFirst_of_not_pred {p : α → Bool} {new x : α} (hx : p x = false) :
    ∀ {l : List α}, x ∈ l → x ∈ replaceFirst p new l := by
  intro l
  induction l with
  | nil => simp
  | cons y t ih =>
    intro hmem
    simp only [replaceFirst]
    split
    · rename_i hpy
      rcases List.mem_cons.mp hmem with rfl | hmem'
      · exact absurd hpy (by simp [hx])
      · exact List.mem_cons_of_mem _ hmem'
    · rcases List.mem_cons.mp hmem with rfl | hmem'
      · exact List.mem_cons_self _ _
      · exact List.mem_cons_of_mem _ (ih hmem')

/-- The replacement row is a member after a successful `replaceFirst`. -/
theorem mem_replaceFirst_self {p : α → Bool} {new : α} :
    ∀ {l : List α}, l.any p = true → new ∈ replaceFirst p new l := by
  intro l
  induction l with
  | nil => simp
  | cons y t ih =>
    intro hany
    simp only [replaceFirst]
    split
    · exact List.mem_cons_self _ _
    · rename_i hpy
      have hpy' : p y = false := by simpa using hpy
      simp [hpy'] at hany
      exact List.mem_cons_of_mem _ (ih (List.any_eq_true.mpr hany))

/-- Members of a `replaceFirst` result are the replacement or old members. -/
theorem mem_of_mem_replaceFirst {p : α → Bool} {new x : α} :
    ∀ {l : List α}, x ∈ replaceFirst p new l → x = new ∨ x ∈ l := by
  intro l
  induction l with
  | nil => simp [replaceFirst]
  | cons y t ih =>
    intro hmem
    simp only [replaceFirst] at hmem
    split at hmem
    · rcases List.mem_cons.mp hmem with rfl | h'
      · exact Or.inl rfl
      · exact Or.inr (List.mem_cons_of_mem _ h')
    · rcases List.mem_cons.mp hmem with rfl | h'
      · exact Or.inr (List.mem_cons_self _ _)
      · rcases ih h' with h'' | h''
        · exact Or.inl h''
        · exact Or.inr (List.mem_cons_of_mem _ h'')

/-- `replaceFirst` does not change the image under a key that agrees on
matched elements. -/
theorem map_replaceFirst_key {f : α → κ} {p : α → Bool} {new : α}
    (hmatch : ∀ x, p x = true → f x = f new) :
    ∀ {l : List α}, (replaceFirst p new l).map f = l.map f := by
  intro l
  induction l with
  | nil => rfl
  | cons y t ih =>
    simp only [replaceFirst]
    split
    · rename_i hpy
      simp [List.map_cons, hmatch y hpy]
    · simp [List.map_cons, ih]

/-- After a sync, the index holds exactly one row for the synced id. -/
theorem sync_fts_countP_self (k a txt : String) (s : Store) :
    (sync_tweet_fts k a txt s).fts.countP (fun r => r.tweet_id == k) = 1 := by
  simp only [sync_tweet_fts]
  rw [List.countP_append]
  have h0 : (s.fts.filter (fun r => r.tweet_id ≠ k)).countP
      (fun r => r.tweet_id == k) = 0 := by
    rw [List.countP_eq_zero]
    intro r hr
    have hne := (List.mem_filter.mp hr).2
    simp only [decide_not, Bool.not_eq_eq_eq_not, Bool.not_true, decide_eq_false_iff_not]
      at hne
    simp [hne]
  rw [h0]
  simp [List.countP_cons]

/-- A sync leaves the row count of every other id unchanged. -/
theorem sync_fts_countP_other {k k' : String} (h : k' ≠ k) (a txt : String) (s : Store) :
    (sync_tweet_fts k a txt s).fts.countP (fun r => r.tweet_id == k')
      = s.fts.countP (fun r => r.tweet_id == k') := by
  simp only [sync_tweet_fts]
  rw [List.countP_append, List.countP_filter]
  have hfun : (fun (r : FtsRow) => (r.tweet_id == k') && decide ¬(r.tweet_id = k))
      = fun (r : FtsRow) => r.tweet_id == k' := by
    funext r
    by_cases hr : r.tweet_id = k'
    · simp [hr, h]
    · simp [hr]
  rw [hfun]
  simp [List.countP_cons, Ne.symm h]

/-- When the synced id had exactly one row, a sync preserves the index
length. -/
theorem sync_fts_length (k a txt : String) (s : Store)
    (h : s.fts.countP (fun r => r.tweet_id == k) = 1) :
    (sync_tweet_fts k a txt s).fts.length = s.fts.length := by
  simp only [sync_tweet_fts, List.length_append, List.length_cons, List.length_nil]
  have hsplit := List.length_eq_countP_add_countP
    (fun (r : FtsRow) => r.tweet_id == k) s.fts
  have hfun : (fun (r : FtsRow) => decide ¬(r.tweet_id == k) = true)
      = fun (r : FtsRow) => decide ¬(r.tweet_id = k) := by
    funext r
    by_cases hr : r.tweet_id = k
    · simp [hr]
    · simp [hr]
  have hflen : (s.fts.filter (fun r => r.tweet_id ≠ k)).length
      = s.fts.countP (fun r => decide ¬(r.tweet_id = k)) := by
    rw [← List.countP_eq_length_filter]
  rw [hflen, ← hfun]
  omega

/-- A sync keeps the index ids duplicate-free out of any starting list. -/
theorem sync_fts_nodup (k a txt : String) (s : Store)
    (h : (s.fts.map (·.tweet_id)).Nodup) :
    ((sync_tweet_fts k a txt s).fts.map (·.tweet_id)).Nodup := by
  simp only [sync_tweet_fts]
  rw [List.map_append, List.nodup_append]
  refine ⟨?_, by simp, ?_⟩
  · exact ((List.filter_sublist s.fts).map _).nodup h
  · intro x hx
    obtain ⟨r, hr, rfl⟩ := List.mem_map.mp hx
    have hne := (List.mem_filter.mp hr).2
    simp only [decide_not, Bool.not_eq_eq_eq_not, Bool.not_true, decide_eq_false_iff_not]
      at hne
    simp [hne]

/-- Syncing id `k` on top of an arbitrary replacement post table `L`
yields a consistent store, provided `L` is duplicate-free, covers the
surviving index rows, is covered outside `k`, and holds a `k`-row
matching the synced contents. -/
theorem ftsSync_sync_general (k a txt : String) (s : Store) (L : List Tweet)
    (hnF : (s.fts.map (·.tweet_id)).Nodup)
    (hnT : (L.map (·.tweet_id)).Nodup)
    (hFT : ∀ f ∈ s.fts, f.tweet_id ≠ k →
      ∃ t ∈ L, t.tweet_id = f.tweet_id ∧ f.full_text = t.full_text
        ∧ f.account_id = t.account_id)
    (hTF : ∀ t ∈ L, t.tweet_id ≠ k → ∃ f ∈ s.fts, f.tweet_id = t.tweet_id)
    (hkrow : ∃ t ∈ L, t.tweet_id = k ∧ txt = t.full_text ∧ a = t.account_id) :
    FtsSync (sync_tweet_fts k a txt { s with tweets := L }) := by
  refine ⟨?_, hnT, ?_, ?_⟩
  · exact sync_fts_nodup k a txt { s with tweets := L } hnF
  · intro f hf
    simp only [sync_tweet_fts, List.mem_append, List.mem_singleton] at hf
    rcases hf with hf | rfl
    · have hf' := List.mem_filter.mp hf
      have hne : f.tweet_id ≠ k := by simpa using hf'.2
      exact hFT f hf'.1 hne
    · -- the freshly inserted row is witnessed by the `k`-row of `L`
      obtain ⟨t, htL, htk, htxt, hacct⟩ := hkrow
      exact ⟨t, htL, htk, htxt, hacct⟩
  · intro t ht
    simp only [sync_tweet_fts, List.mem_append, List.mem_singleton]
    by_cases hid : t.tweet_id = k
    · exact ⟨{ tweet_id := k, account_id := a, full_text := txt },
        Or.inr rfl, hid.symm⟩
    · obtain ⟨f, hfmem, hfid⟩ := hTF t ht hid
      refine ⟨f, Or.inl (List.mem_filter.mpr ⟨hfmem, by simp [hfid, hid]⟩), hfid⟩

/-- `FtsSync` only depends on the post table and the index. -/
theorem ftsSync_congr {s s' : Store} (ht : s'.tweets = s.tweets)
    (hf : s'.fts = s.fts) (h : FtsSync s) : FtsSync s' := by
  unfold FtsSync at h ⊢
  rw [ht, hf]
  exact h

/-- A tweet upsert followed by its index sync preserves `FtsSync`. -/
theorem upsert_sync_ftsSync (row : Tweet) (s : Store) (hfts : FtsSync s) :
    FtsSync (sync_tweet_fts row.tweet_id row.account_id row.full_text
      (upsertTweet row s).1) := by
  obtain ⟨hnF, hnT, hFT, hTF⟩ := hfts
  by_cases hany : s.tweets.any (fun r => r.tweet_id == row.tweet_id) = true
  · have hres : (upsertTweet row s).1
        = { s with tweets :=
            replaceFirst (fun r => r.tweet_id == row.tweet_id) row s.tweets } := by
      simp [upsertTweet, upsertList, hany]
    rw [hres]
    refine ftsSync_sync_general _ _ _ _ _ hnF ?_ ?_ ?_ ?_
    · rw [map_replaceFirst_key (f := fun r : Tweet => r.tweet_id)
        (fun x hx => by simpa using hx)]
      exact hnT
    · intro f hf hne
      obtain ⟨t, htmem, htid, htxt, hacct⟩ := hFT f hf
      refine ⟨t, ?_, htid, htxt, hacct⟩
      exact mem_replaceFirst_of_not_pred (by simp [htid ▸ hne]) htmem
    · intro t ht hne
      rcases mem_of_mem_replaceFirst ht with rfl | htold
      · exact absurd rfl hne
      · exact hTF t htold
    · exact ⟨row, mem_replaceFirst_self hany, rfl, rfl, rfl⟩
  · have hnotin : ∀ t ∈ s.tweets, t.tweet_id ≠ row.tweet_id := by
      intro t ht heq
      exact hany (List.any_eq_true.mpr ⟨t, ht, by simp [heq]⟩)
    have hres : (upsertTweet row s).1 = { s with tweets := s.tweets ++ [row] } := by
      simp [upsertTweet, upsertList, hany]
    rw [hres]
    refine ftsSync_sync_general _ _ _ _ _ hnF ?_ ?_ ?_ ?_
    · rw [List.map_append, List.nodup_append]
      refine ⟨hnT, by simp, ?_⟩
      intro x hx
      obtain ⟨t, ht, rfl⟩ := List.mem_map.mp hx
      simp [hnotin t ht]
    · intro f hf _
      obtain ⟨t, htmem, htid, htxt, hacct⟩ := hFT f hf
      exact ⟨t, List.mem_append_left _ htmem, htid, htxt, hacct⟩
    · intro t ht hne
      rcases List.mem_append.mp ht with htold | htnew
      · exact hTF t htold
      · simp only [List.mem_singleton] at htnew
        exact absurd (htnew ▸ rfl) hne
    · exact ⟨row, List.mem_append_right _ (by simp), rfl, rfl, rfl⟩

/-- The upload-options step does not disturb `FtsSync`. -/
theorem processUploadOptions_ftsSync {uo : PyVal} {o : Option String}
    {sc : Store × Counts} (h : FtsSync sc.1) :
    FtsSync ((processUploadOptions uo o sc).1) := by
  simp only [processUploadOptions]
  split
  · exact h
  · split
    · exact ftsSync_congr rfl rfl h
    · exact h

/-- The account step does not disturb `FtsSync`. -/
theorem processAccountItem_ftsSync {sc : Store × Counts} {item : PyVal}
    (h : FtsSync sc.1) : FtsSync ((processAccountItem sc item).1) := by
  simp only [processAccountItem]
  split
  · exact h
  · exact ftsSync_congr rfl rfl h

/-- The profile step does not disturb `FtsSync`. -/
theorem processProfileItem_ftsSync {o : Option String} {sc : Store × Counts}
    {item : PyVal} (h : FtsSync sc.1) :
    FtsSync ((processProfileItem o sc item).1) := by
  simp only [processProfileItem]
  split
  · exact h
  · exact ftsSync_congr rfl rfl h

/-- The note-tweet step does not disturb `FtsSync`. -/
theorem processNoteTweetItem_ftsSync {o : Option String} {sc : Store × Counts}
    {item : PyVal} (h : FtsSync sc.1) :
    FtsSync ((processNoteTweetItem o sc item).1) := by
  simp only [processNoteTweetItem]
  split
  · exact h
  · split
    · exact h
    · exact ftsSync_congr rfl rfl h

/-- The like step does not disturb `FtsSync`. -/
theorem processLikeItem_ftsSync {o : Option String} {sc : Store × Counts}
    {item : PyVal} (h : FtsSync sc.1) :
    FtsSync ((processLikeItem o sc item).1) := by
  simp only [processLikeItem]
  split
  · exact h
  · split
    · exact h
    · exact ftsSync_congr rfl rfl h

/-- The follower step does not disturb `FtsSync`. -/
theorem processFollowerItem_ftsSync {o : Option String} {sc : Store × Counts}
    {item : PyVal} (h : FtsSync sc.1) :
    FtsSync ((processFollowerItem o sc item).1) := by
  simp only [processFollowerItem]
  split
  · exact h
  · split
    · exact h
    · exact ftsSync_congr rfl rfl h

/-- The following step does not disturb `FtsSync`. -/
theorem processFollowingItem_ftsSync {o : Option String} {sc : Store × Counts}
    {item : PyVal} (h : FtsSync sc.1) :
    FtsSync ((processFollowingItem o sc item).1) := by
  simp only [processFollowingItem]
  split
  · exact h
  · split
    · exact h
    · exact ftsSync_congr rfl rfl h

/-- `FtsSync` survives a fold whose steps preserve it. -/
theorem foldl_ftsSync {α : Type} (f : Store × Counts → α → Store × Counts)
    (l : List α) (b : Store × Counts) (h : FtsSync b.1)
    (hf : ∀ b a, FtsSync b.1 → FtsSync (f b a).1) : FtsSync (l.foldl f b).1 :=
  foldl_preserve hf l b h

/-- The `tweets` step preserves `FtsSync`. -/
theorem processTweetItem_ftsSync {o : Option String} {sc : Store × Counts}
    {item : PyVal} (h : FtsSync sc.1) :
    FtsSync ((processTweetItem o sc item).1) := by
  simp only [processTweetItem]
  split
  · exact h
  · split
    · exact h
    · rename_i owner2 ownerId
      have h2 := upsert_sync_ftsSync
        (mkTweetRow "tweet" ownerId (tweetItemId item) (tweetItemPayload item)) sc.1 h
      refine foldl_ftsSync _ _ _ ?_ (fun b a hb => ftsSync_congr rfl rfl hb)
      refine foldl_ftsSync _ _ _ ?_ (fun b a hb => ftsSync_congr rfl rfl hb)
      refine foldl_ftsSync _ _ _ ?_ (fun b a hb => ftsSync_congr rfl rfl hb)
      refine foldl_ftsSync _ _ _ ?_ (fun b a hb => ftsSync_congr rfl rfl hb)
      refine foldl_ftsSync _ _ _ ?_ (fun b a hb => ftsSync_congr rfl rfl hb)
      refine foldl_ftsSync _ _ _ ?_ (fun b a hb => ftsSync_congr rfl rfl hb)
      exact h2

/-- The `community-tweet` step preserves `FtsSync`. -/
theorem processCommunityTweetItem_ftsSync {o : Option String} {sc : Store × Counts}
    {item : PyVal} (h : FtsSync sc.1) :
    FtsSync ((processCommunityTweetItem o sc item).1) := by
  simp only [processCommunityTweetItem]
  split
  · exact h
  · split
    · exact h
    · rename_i owner2 ownerId
      have h2 := upsert_sync_ftsSync
        (mkCommunityTweetRow ownerId (tweetItemId item) (tweetItemPayload item)) sc.1 h
      refine foldl_ftsSync _ _ _ ?_ (fun b a hb => ftsSync_congr rfl rfl hb)
      refine foldl_ftsSync _ _ _ ?_ (fun b a hb => ftsSync_congr rfl rfl hb)
      refine foldl_ftsSync _ _ _ ?_ (fun b a hb => ftsSync_congr rfl rfl hb)
      refine foldl_ftsSync _ _ _ ?_ (fun b a hb => ftsSync_congr rfl rfl hb)
      exact h2

/-- Membership in a truncated merge-sorted list implies membership in the
original list. -/
theorem mem_of_mem_take_mergeSort {le : α → α → Bool} {r : α} {l : List α} {n : Nat}
    (h : r ∈ (l.mergeSort le).take n) : r ∈ l :=
  List.mem_mergeSort.mp (List.take_subset _ _ h)

/-- C5: the archive timestamp coercion is total and normalizes ISO-like
values to UTC, but the verbose, locale-bearing export format
(`Thu Jan 22 21:04:29 +0000 2026`) is NOT normalized to a UTC datetime:
`datetime.fromisoformat` rejects it and the coercion yields `None`,
although the repository's own zip-import test
(`test_load_twitter_zip_normalizes_datasets`) asserts that exactly this
value ends up stored as an aware UTC datetime with year 2026. -/
theorem C5_verbose_timestamp_coerces_to_null :
    parse_archive_datetime (.str "Thu Jan 22 21:04:29 +0000 2026") = Option.none
    ∧ parse_archive_datetime (.str "2023-05-01T00:00:00.000Z")
        = Option.some { usec := 1682899200000000, off := Option.some 0 }
    ∧ parse_archive_datetime (.str "2026-01-22 21:04:29.000000")
        = Option.some { usec := 1769115869000000, off := Option.some 0 }
    ∧ parse_archive_datetime (.str "   ") = Option.none
    ∧ parse_archive_datetime .none = Option.none := by
  refine ⟨?_, ?_, ?_, ?_, ?_⟩ <;> decide

/-- C9 counterexample: `["5", "x"]` is an array of exactly two elements of
which only one parses as a valid integer, yet `_indices_to_bounds` returns
`(5, None)`, not `(None, None)` as the claim states. -/
theorem C9_counterexample_mixed_pair :
    indices_to_bounds [.str "5", .str "x"] = (Option.some 5, Option.none)
    ∧ indices_to_bounds [.str "5", .str "x"] ≠ (Option.none, Option.none)
    ∧ safe_int (.str "x") = Option.none := by
  refine ⟨?_, ?_, ?_⟩ <;> decide

/-- C9 (amended): the paired index coercion yields `(None, None)` whenever
the input is not an array of exactly two elements; with exactly two
elements each component is coerced independently, so an invalid element
yields `None` in its own position only. -/
theorem C9_indices_to_bounds_componentwise (items : List PyVal) :
    (items.length ≠ 2 → indices_to_bounds items = (Option.none, Option.none))
    ∧ (∀ a b, items = [a, b] → indices_to_bounds items = (safe_int a, safe_int b)) := by
  constructor
  · intro h
    match items, h with
    | [], _ => rfl
    | [_], _ => rfl
    | _ :: _ :: _ :: _, _ => rfl
    | [a, b], h => exact absurd rfl h
  · rintro a b rfl
    rfl

/-- C9 witness: the amended statement evaluated at concrete inputs. -/
theorem C9_witness :
    indices_to_bounds [.str "7"] = (Option.none, Option.none)
    ∧ indices_to_bounds [.str "1", .str "2"]
        = (safe_int (.str "1"), safe_int (.str "2")) :=
  ⟨(C9_indices_to_bounds_componentwise [.str "7"]).1 (by decide),
   (C9_indices_to_bounds_componentwise [.str "1", .str "2"]).2 _ _ rfl⟩

/-- C4: a document with at least one non-empty owner-scoped record kind
but no resolvable owner account id makes the import call fail with the
missing-owner error; in this pure model the error is raised before the
state-threading begins, so no write is performed. -/
theorem C4_missing_owner_aborts (doc : ArchiveDoc) (s : Store)
    (hScoped : has_owner_scoped_data doc = true)
    (hOwner : get_owner_account_id doc = Option.none) :
    import_archive_data doc s = .error .missingOwner := by
  simp [import_archive_data, hScoped, hOwner]

/-- C4 witness: a document with one post and no account entry. -/
theorem C4_witness :
    has_owner_scoped_data c4Doc = true
    ∧ get_owner_account_id c4Doc = Option.none
    ∧ import_archive_data c4Doc {} = .error .missingOwner :=
  ⟨by decide, by decide, C4_missing_owner_aborts c4Doc {} (by decide) (by decide)⟩

/-- C7: a keyword search with a blank or whitespace-only query returns the
empty result for every store and every index-match oracle (no index query
can influence it), and a keyword search whose non-empty author filter
resolves to no stored account returns the empty result rather than an
error. -/
theorem C7_blank_query_or_unknown_author_empty (s : Store)
    (matchFn : String → String → Bool) (rankFn : String → String → Int)
    (query : String) (author : Option String) (since untilD : Option PyDate)
    (limit : Nat)
    (h : pyStrip query = ""
      ∨ (authorTruthy author = true ∧ resolve_author_account_id s author = Option.none)) :
    search_tweets s matchFn rankFn query author since untilD limit = [] := by
  rcases h with h | ⟨h1, h2⟩
  · simp [search_tweets, h]
  · by_cases hq : pyStrip query = ""
    · simp [search_tweets, hq]
    · simp [search_tweets, hq, h1, h2]

/-- C7 witness: a store holding a post by `alice`; a whitespace query and
an unresolvable author both return the empty result. -/
theorem C7_witness :
    (pyStrip "   " = ""
      ∧ search_tweets c1Store1 (fun _ _ => true) (fun _ _ => 0)
          "   " Option.none Option.none Option.none 20 = [])
    ∧ (authorTruthy (Option.some "ghost") = true
      ∧ resolve_author_account_id c1Store1 (Option.some "ghost") = Option.none
      ∧ search_tweets c1Store1 (fun _ _ => true) (fun _ _ => 0)
          "hello" (Option.some "ghost") Option.none Option.none 20 = []) :=
  ⟨⟨by decide,
    C7_blank_query_or_unknown_author_empty _ _ _ _ _ _ _ _ (Or.inl (by decide))⟩,
   ⟨by decide, by decide,
    C7_blank_query_or_unknown_author_empty _ _ _ _ _ _ _ _
      (Or.inr ⟨by decide, by decide⟩)⟩⟩

/-- C6 counterexample: on a store whose vector index is empty, a semantic
search call with a blank query returns an (empty) result instead of
failing with `EmbeddingsUnavailable`: the blank-query early return runs
before the embeddings-availability check. -/
theorem C6_counterexample_blank_query :
    embeddings_available {} = false
    ∧ semantic_search_tweets {} {} (fun _ _ => "[]") (fun rows _ _ => rows)
        "   " Option.none Option.none Option.none 20 Option.none = .ok [] :=
  ⟨by decide, rfl⟩

/-- C6 (amended): on a store whose vector index contains no rows, a
semantic search call with a non-blank query fails with
`EmbeddingsUnavailable` (before any credential resolution), rather than
returning a result. -/
theorem C6_no_embeddings_fails (s : Store) (env : EmbeddingEnv)
    (embedFn : String → String → String)
    (knn : List EmbeddingRow → String → Nat → List EmbeddingRow)
    (query : String) (author : Option String) (since untilD : Option PyDate)
    (limit : Nat) (modelOverride : Option String)
    (hq : pyStrip query ≠ "") (hemb : s.embeddings = []) :
    semantic_search_tweets s env embedFn knn query author since untilD limit
      modelOverride = .error .embeddingsUnavailable := by
  simp [semantic_search_tweets, hq, embeddings_available, hemb]

/-- C6 witness: the amended statement at a concrete call. -/
theorem C6_witness :
    pyStrip "hello" ≠ ""
    ∧ Store.embeddings {} = []
    ∧ semantic_search_tweets {} {} (fun _ _ => "[]") (fun rows _ _ => rows)
        "hello" Option.none Option.none Option.none 20 Option.none
      = .error .embeddingsUnavailable :=
  ⟨by decide, by decide,
   C6_no_embeddings_fails {} {} _ _ "hello" Option.none Option.none Option.none 20
     Option.none (by decide) rfl⟩

/-- C8: whenever a since and/or until date filter is supplied, neither
keyword search nor semantic search returns a post whose stored timestamp
is null: the SQL `NULL >= x` / `NULL <= x` comparisons filter such rows
out (the result `created_at` is the image of the stored timestamp under
a `None`-preserving coercion). -/
theorem C8_date_filters_exclude_null_timestamps
    (s : Store) (matchFn : String → String → Bool) (rankFn : String → String → Int)
    (env : EmbeddingEnv) (embedFn : String → String → String)
    (knn : List EmbeddingRow → String → Nat → List EmbeddingRow)
    (query : String) (author : Option String) (since untilD : Option PyDate)
    (limit : Nat) (modelOverride : Option String)
    (hdate : since.isSome ∨ untilD.isSome) :
    (∀ r ∈ search_tweets s matchFn rankFn query author since untilD limit,
        r.created_at ≠ Option.none)
    ∧ (∀ res, semantic_search_tweets s env embedFn knn query author since untilD
          limit modelOverride = .ok res → ∀ r ∈ res, r.created_at ≠ Option.none) := by
  have hfilter : ∀ (t : Tweet),
      sinceFilter (date_to_utc_datetime since false) t.created_at = true →
      untilFilter (date_to_utc_datetime untilD true) t.created_at = true →
      coerce_stored_datetime t.created_at ≠ Option.none := by
    intro t hs hu
    cases ht : t.created_at with
    | none =>
      cases hdate with
      | inl hd =>
        obtain ⟨d, rfl⟩ := Option.isSome_iff_exists.mp hd
        rw [ht] at hs
        simp [sinceFilter, date_to_utc_datetime] at hs
      | inr hd =>
        obtain ⟨d, rfl⟩ := Option.isSome_iff_exists.mp hd
        rw [ht] at hu
        simp [untilFilter, date_to_utc_datetime] at hu
    | some c => simp [coerce_stored_datetime, ht]
  constructor
  · intro r hr
    simp only [search_tweets] at hr
    split at hr
    · simp at hr
    · split at hr
      · simp at hr
      · have hr' := mem_of_mem_take_mergeSort hr
        obtain ⟨⟨f, t, a⟩, hmem, rfl⟩ := List.mem_map.mp hr'
        have hcond := (List.mem_filter.mp hmem).2
        simp only [Bool.and_eq_true] at hcond
        exact hfilter t hcond.1.2 hcond.2
  · intro res hres r hr
    simp only [semantic_search_tweets] at hres
    split at hres
    · simp only [Except.ok.injEq] at hres
      subst hres
      simp at hr
    · split at hres
      · simp at hres
      · split at hres
        · simp at hres
        · split at hres
          · simp only [Except.ok.injEq] at hres
            subst hres
            simp at hr
          · simp only [Except.ok.injEq] at hres
            subst hres
            have hr' := mem_of_mem_take_mergeSort hr
            obtain ⟨⟨t, a⟩, hmem, rfl⟩ := List.mem_map.mp hr'
            have hcond := (List.mem_filter.mp hmem).2
            simp only [Bool.and_eq_true] at hcond
            exact hfilter t hcond.1 hcond.2

/-- C8 witness: with a since filter supplied, the conclusion holds at a
concrete store and concrete oracle functions. -/
theorem C8_witness :
    ((Option.some { y := 2023, m := 1, d := 1 } : Option PyDate).isSome
      ∨ (Option.none : Option PyDate).isSome)
    ∧ ((∀ r ∈ search_tweets c1Store1 (fun _ _ => true) (fun _ _ => 0) "hello"
          Option.none (Option.some { y := 2023, m := 1, d := 1 }) Option.none 20,
          r.created_at ≠ Option.none)
      ∧ (∀ res, semantic_search_tweets c1Store1 {} (fun _ _ => "[]")
            (fun rows _ _ => rows) "hello" Option.none
            (Option.some { y := 2023, m := 1, d := 1 }) Option.none 20 Option.none
            = .ok res → ∀ r ∈ res, r.created_at ≠ Option.none)) :=
  ⟨Or.inl (by decide),
   C8_date_filters_exclude_null_timestamps c1Store1 (fun _ _ => true) (fun _ _ => 0)
     {} (fun _ _ => "[]") (fun rows _ _ => rows) "hello" Option.none
     (Option.some { y := 2023, m := 1, d := 1 }) Option.none 20 Option.none
     (Or.inl (by decide))⟩

/-- C1: contrary to the claim (and to the repository's own test
`test_import_archive_data_rejects_cross_owner_tweet_id_collision`, which
expects a raised error with the prior owner, text and index row
preserved), importing post id `111` under owner `99` after it
was imported under owner `42` succeeds and silently reassigns the post and
its search-index row to the new owner and new text. -/
theorem C1_cross_owner_import_overwrites :
    c1Store1.tweets.map (fun t => (t.tweet_id, t.account_id, t.full_text))
      = [("111", "42", "tweet-42")]
    ∧ c1Store1.fts = [{ tweet_id := "111", account_id := "42", full_text := "tweet-42" }]
    ∧ (import_archive_data c1DocB c1Store1).toOption.map
        (fun r => (r.2.tweets.map (fun t => (t.tweet_id, t.account_id, t.full_text)),
                   r.2.fts))
      = Option.some ([("111", "99", "tweet-99")],
          [{ tweet_id := "111", account_id := "99", full_text := "tweet-99" }]) := by
  refine ⟨?_, ?_, ?_⟩ <;> decide

/-- C2 counterexample: importing a document whose only post has empty
text leaves one search-index row but zero posts with non-empty text, so
the index-row count does not equal the count of posts with non-empty
text after a completed import. -/
theorem C2_counterexample_empty_text_post :
    (import_archive_data c2Doc {}).toOption.map
      (fun r => (r.2.fts.length,
                 (r.2.tweets.filter (fun t => t.full_text ≠ "")).length))
    = Option.some (1, 0) := by decide

/-- A successful import preserves the index consistency invariant. -/
theorem import_archive_data_ftsSync (doc : ArchiveDoc) (s : Store)
    (hfts : FtsSync s) {c : Counts} {s' : Store}
    (h : import_archive_data doc s = .ok (c, s')) : FtsSync s' := by
  simp only [import_archive_data] at h
  split at h
  · exact absurd h (by simp)
  · simp only [Except.ok.injEq, Prod.mk.injEq] at h
    obtain ⟨hc, hs⟩ := h
    subst hs
    refine foldl_ftsSync _ _ _ ?_ (fun b a hb => processFollowingItem_ftsSync hb)
    refine foldl_ftsSync _ _ _ ?_ (fun b a hb => processFollowerItem_ftsSync hb)
    refine foldl_ftsSync _ _ _ ?_ (fun b a hb => processLikeItem_ftsSync hb)
    refine foldl_ftsSync _ _ _ ?_ (fun b a hb => processNoteTweetItem_ftsSync hb)
    refine foldl_ftsSync _ _ _ ?_ (fun b a hb => processCommunityTweetItem_ftsSync hb)
    refine foldl_ftsSync _ _ _ ?_ (fun b a hb => processTweetItem_ftsSync hb)
    refine foldl_ftsSync _ _ _ ?_ (fun b a hb => processProfileItem_ftsSync hb)
    refine foldl_ftsSync _ _ _ ?_ (fun b a hb => processAccountItem_ftsSync hb)
    exact processUploadOptions_ftsSync hfts

/-- In a consistent store, the index and the post table have the same
number of rows. -/
theorem ftsSync_length_eq {s : Store} (h : FtsSync s) :
    s.fts.length = s.tweets.length := by
  obtain ⟨hnF, hnT, hFT, hTF⟩ := h
  have hperm : (s.fts.map (·.tweet_id)).Perm (s.tweets.map (·.tweet_id)) := by
    rw [List.perm_ext_iff_of_nodup hnF hnT]
    intro k
    constructor
    · intro hk
      obtain ⟨f, hf, rfl⟩ := List.mem_map.mp hk
      obtain ⟨t, ht, htid, _, _⟩ := hFT f hf
      exact List.mem_map.mpr ⟨t, ht, htid⟩
    · intro hk
      obtain ⟨t, ht, rfl⟩ := List.mem_map.mp hk
      obtain ⟨f, hf, hfid⟩ := hTF t ht
      exact List.mem_map.mpr ⟨f, hf, hfid⟩
  simpa using hperm.length_eq

/-- C2 (amended): after every completed import call on a store whose
search index was consistent, the index holds at most one row per post id,
each row mirrors its post's current (latest) text and owner, and the
total count of index rows equals the total count of Post rows — not the
count of Post rows with non-empty text, since the sync runs for
empty-text posts as well. -/
theorem C2_fts_index_consistent (doc : ArchiveDoc) (s : Store) (c : Counts)
    (s' : Store) (hfts : FtsSync s)
    (h : import_archive_data doc s = .ok (c, s')) :
    ((s'.fts.map (·.tweet_id)).Nodup)
    ∧ (∀ f ∈ s'.fts, ∃ t ∈ s'.tweets,
        t.tweet_id = f.tweet_id ∧ f.full_text = t.full_text
          ∧ f.account_id = t.account_id)
    ∧ s'.fts.length = s'.tweets.length := by
  have h2 := import_archive_data_ftsSync doc s hfts h
  exact ⟨h2.1, h2.2.2.1, ftsSync_length_eq h2⟩

/-- C2 witness: the amended invariant at a concrete import into the empty
store. -/
theorem C2_witness :
    FtsSync ({} : Store)
    ∧ (((importOk c2Doc {}).2.fts.map (·.tweet_id)).Nodup
       ∧ (∀ f ∈ (importOk c2Doc {}).2.fts, ∃ t ∈ (importOk c2Doc {}).2.tweets,
           t.tweet_id = f.tweet_id ∧ f.full_text = t.full_text
             ∧ f.account_id = t.account_id)
       ∧ (importOk c2Doc {}).2.fts.length = (importOk c2Doc {}).2.tweets.length) :=
  ⟨by simp [FtsSync],
   C2_fts_index_consistent c2Doc {} (importOk c2Doc {}).1 (importOk c2Doc {}).2
     (by simp [FtsSync]) rfl⟩

/-- A `tweets` item with an empty id is skipped entirely. -/
theorem processTweetItem_empty_id {o : Option String} {sc : Store × Counts}
    {item : PyVal} (h : tweetItemId item = "") : processTweetItem o sc item = sc := by
  simp [processTweetItem, h]

/-- A `community-tweet` item with an empty id is skipped entirely. -/
theorem processCommunityTweetItem_empty_id {o : Option String} {sc : Store × Counts}
    {item : PyVal} (h : tweetItemId item = "") :
    processCommunityTweetItem o sc item = sc := by
  simp [processCommunityTweetItem, h]

/-- A `note-tweet` item with an empty id is skipped entirely. -/
theorem processNoteTweetItem_empty_id {o : Option String} {sc : Store × Counts}
    {item : PyVal} (h : noteItemId item = "") :
    processNoteTweetItem o sc item = sc := by
  simp [processNoteTweetItem, h]

/-- A `like` item with an empty id is skipped entirely. -/
theorem processLikeItem_empty_id {o : Option String} {sc : Store × Counts}
    {item : PyVal} (h : likeItemId item = "") : processLikeItem o sc item = sc := by
  simp [processLikeItem, h]

/-- A `follower` item with an empty id is skipped entirely. -/
theorem processFollowerItem_empty_id {o : Option String} {sc : Store × Counts}
    {item : PyVal} (h : followerItemId item = "") :
    processFollowerItem o sc item = sc := by
  simp [processFollowerItem, h]

/-- A `following` item with an empty id is skipped entirely. -/
theorem processFollowingItem_empty_id {o : Option String} {sc : Store × Counts}
    {item : PyVal} (h : followingItemId item = "") :
    processFollowingItem o sc item = sc := by
  simp [processFollowingItem, h]

/-- A row property held by the table and by the new row survives an
upsert. -/
theorem forall_mem_upsertList {p : ρ → Bool} {row : ρ} {l : List ρ} {P : ρ → Prop}
    (hrow : P row) (h : ∀ x ∈ l, P x) : ∀ x ∈ (upsertList p row l).1, P x := by
  intro x hx
  simp only [upsertList] at hx
  split at hx
  · rcases mem_of_mem_replaceFirst hx with rfl | hold
    · exact hrow
    · exact h x hold
  · rcases List.mem_append.mp hx with hold | hnew
    · exact h x hold
    · simp only [List.mem_singleton] at hnew
      exact hnew ▸ hrow

/-- `NoEmptyIds` only depends on the five externally-keyed tables. -/
theorem noEmptyIds_congr {s s' : Store} (ht : s'.tweets = s.tweets)
    (hn : s'.note_tweets = s.note_tweets) (hl : s'.likes = s.likes)
    (hf : s'.followers = s.followers) (hg : s'.followings = s.followings)
    (h : NoEmptyIds s) : NoEmptyIds s' := by
  unfold NoEmptyIds at h ⊢
  rw [ht, hn, hl, hf, hg]
  exact h

/-- `NoEmptyIds` survives a fold whose steps preserve it. -/
theorem foldl_noEmptyIds {α : Type} (f : Store × Counts → α → Store × Counts)
    (l : List α) (b : Store × Counts) (h : NoEmptyIds b.1)
    (hf : ∀ b a, NoEmptyIds b.1 → NoEmptyIds (f b a).1) :
    NoEmptyIds (l.foldl f b).1 :=
  foldl_preserve hf l b h

/-- The upload-options step preserves `NoEmptyIds`. -/
theorem processUploadOptions_noEmptyIds {uo : PyVal} {o : Option String}
    {sc : Store × Counts} (h : NoEmptyIds sc.1) :
    NoEmptyIds ((processUploadOptions uo o sc).1) := by
  simp only [processUploadOptions]
  split
  · exact h
  · split
    · exact noEmptyIds_congr rfl rfl rfl rfl rfl h
    · exact h

/-- The account step preserves `NoEmptyIds`. -/
theorem processAccountItem_noEmptyIds {sc : Store × Counts} {item : PyVal}
    (h : NoEmptyIds sc.1) : NoEmptyIds ((processAccountItem sc item).1) := by
  simp only [processAccountItem]
  split
  · exact h
  · exact noEmptyIds_congr rfl rfl rfl rfl rfl h

/-- The profile step preserves `NoEmptyIds`. -/
theorem processProfileItem_noEmptyIds {o : Option String} {sc : Store × Counts}
    {item : PyVal} (h : NoEmptyIds sc.1) :
    NoEmptyIds ((processProfileItem o sc item).1) := by
  simp only [processProfileItem]
  split
  · exact h
  · exact noEmptyIds_congr rfl rfl rfl rfl rfl h

/-- The `tweets` step preserves `NoEmptyIds`. -/
theorem processTweetItem_noEmptyIds {o : Option String} {sc : Store × Counts}
    {item : PyVal} (h : NoEmptyIds sc.1) :
    NoEmptyIds ((processTweetItem o sc item).1) := by
  by_cases hid : tweetItemId item = ""
  · rw [processTweetItem_empty_id hid]
    exact h
  · simp only [processTweetItem]
    split
    · exact h
    · split
      · exact h
      · rename_i owner2 ownerId
        have h2 : NoEmptyIds (sync_tweet_fts (tweetItemId item) ownerId
            (strField (tweetItemPayload item) "full_text")
            (upsertTweet (mkTweetRow "tweet" ownerId (tweetItemId item)
              (tweetItemPayload item)) sc.1).1) := by
          refine noEmptyIds_congr ?_ rfl rfl rfl rfl
            ⟨forall_mem_upsertList hid h.1, h.2.1, h.2.2.1, h.2.2.2.1, h.2.2.2.2⟩
          rfl
        refine foldl_noEmptyIds _ _ _ ?_ (fun b a hb => noEmptyIds_congr rfl rfl rfl rfl rfl hb)
        refine foldl_noEmptyIds _ _ _ ?_ (fun b a hb => noEmptyIds_congr rfl rfl rfl rfl rfl hb)
        refine foldl_noEmptyIds _ _ _ ?_ (fun b a hb => noEmptyIds_congr rfl rfl rfl rfl rfl hb)
        refine foldl_noEmptyIds _ _ _ ?_ (fun b a hb => noEmptyIds_congr rfl rfl rfl rfl rfl hb)
        refine foldl_noEmptyIds _ _ _ ?_ (fun b a hb => noEmptyIds_congr rfl rfl rfl rfl rfl hb)
        refine foldl_noEmptyIds _ _ _ ?_ (fun b a hb => noEmptyIds_congr rfl rfl rfl rfl rfl hb)
        exact h2

/-- The `community-tweet` step preserves `NoEmptyIds`. -/
theorem processCommunityTweetItem_noEmptyIds {o : Option String}
    {sc : Store × Counts} {item : PyVal} (h : NoEmptyIds sc.1) :
    NoEmptyIds ((processCommunityTweetItem o sc item).1) := by
  by_cases hid : tweetItemId item = ""
  · rw [processCommunityTweetItem_empty_id hid]
    exact h
  · simp only [processCommunityTweetItem]
    split
    · exact h
    · split
      · exact h
      · rename_i owner2 ownerId
        have h2 : NoEmptyIds (sync_tweet_fts (tweetItemId item) ownerId
            (strField (tweetItemPayload item) "full_text")
            (upsertTweet (mkCommunityTweetRow ownerId (tweetItemId item)
              (tweetItemPayload item)) sc.1).1) := by
          refine noEmptyIds_congr ?_ rfl rfl rfl rfl
            ⟨forall_mem_upsertList hid h.1, h.2.1, h.2.2.1, h.2.2.2.1, h.2.2.2.2⟩
          rfl
        refine foldl_noEmptyIds _ _ _ ?_ (fun b a hb => noEmptyIds_congr rfl rfl rfl rfl rfl hb)
        refine foldl_noEmptyIds _ _ _ ?_ (fun b a hb => noEmptyIds_congr rfl rfl rfl rfl rfl hb)
        refine foldl_noEmptyIds _ _ _ ?_ (fun b a hb => noEmptyIds_congr rfl rfl rfl rfl rfl hb)
        refine foldl_noEmptyIds _ _ _ ?_ (fun b a hb => noEmptyIds_congr rfl rfl rfl rfl rfl hb)
        exact h2

/-- The note-tweet step preserves `NoEmptyIds`. -/
theorem processNoteTweetItem_noEmptyIds {o : Option String} {sc : Store × Counts}
    {item : PyVal} (h : NoEmptyIds sc.1) :
    NoEmptyIds ((processNoteTweetItem o sc item).1) := by
  by_cases hid : noteItemId item = ""
  · rw [processNoteTweetItem_empty_id hid]
    exact h
  · simp only [processNoteTweetItem]
    split
    · exact h
    · split
      · exact h
      · exact ⟨h.1, forall_mem_upsertList hid h.2.1, h.2.2.1, h.2.2.2.1, h.2.2.2.2⟩

/-- The like step preserves `NoEmptyIds`. -/
theorem processLikeItem_noEmptyIds {o : Option String} {sc : Store × Counts}
    {item : PyVal} (h : NoEmptyIds sc.1) :
    NoEmptyIds ((processLikeItem o sc item).1) := by
  by_cases hid : likeItemId item = ""
  · rw [processLikeItem_empty_id hid]
    exact h
  · simp only [processLikeItem]
    split
    · exact h
    · split
      · exact h
      · exact ⟨h.1, h.2.1, forall_mem_upsertList hid h.2.2.1, h.2.2.2.1, h.2.2.2.2⟩

/-- The follower step preserves `NoEmptyIds`. -/
theorem processFollowerItem_noEmptyIds {o : Option String} {sc : Store × Counts}
    {item : PyVal} (h : NoEmptyIds sc.1) :
    NoEmptyIds ((processFollowerItem o sc item).1) := by
  by_cases hid : followerItemId item = ""
  · rw [processFollowerItem_empty_id hid]
    exact h
  · simp only [processFollowerItem]
    split
    · exact h
    · split
      · exact h
      · exact ⟨h.1, h.2.1, h.2.2.1, forall_mem_upsertList hid h.2.2.2.1, h.2.2.2.2⟩

/-- The following step preserves `NoEmptyIds`. -/
theorem processFollowingItem_noEmptyIds {o : Option String} {sc : Store × Counts}
    {item : PyVal} (h : NoEmptyIds sc.1) :
    NoEmptyIds ((processFollowingItem o sc item).1) := by
  by_cases hid : followingItemId item = ""
  · rw [processFollowingItem_empty_id hid]
    exact h
  · simp only [processFollowingItem]
    split
    · exact h
    · split
      · exact h
      · exact ⟨h.1, h.2.1, h.2.2.1, h.2.2.2.1, forall_mem_upsertList hid h.2.2.2.2⟩

/-- A successful import never stores a row with an empty external id. -/
theorem import_archive_data_noEmptyIds (doc : ArchiveDoc) (s : Store)
    (hids : NoEmptyIds s) {c : Counts} {s' : Store}
    (h : import_archive_data doc s = .ok (c, s')) : NoEmptyIds s' := by
  simp only [import_archive_data] at h
  split at h
  · exact absurd h (by simp)
  · simp only [Except.ok.injEq, Prod.mk.injEq] at h
    obtain ⟨hc, hs⟩ := h
    subst hs
    refine foldl_noEmptyIds _ _ _ ?_ (fun b a hb => processFollowingItem_noEmptyIds hb)
    refine foldl_noEmptyIds _ _ _ ?_ (fun b a hb => processFollowerItem_noEmptyIds hb)
    refine foldl_noEmptyIds _ _ _ ?_ (fun b a hb => processLikeItem_noEmptyIds hb)
    refine foldl_noEmptyIds _ _ _ ?_ (fun b a hb => processNoteTweetItem_noEmptyIds hb)
    refine foldl_noEmptyIds _ _ _ ?_ (fun b a hb => processCommunityTweetItem_noEmptyIds hb)
    refine foldl_noEmptyIds _ _ _ ?_ (fun b a hb => processTweetItem_noEmptyIds hb)
    refine foldl_noEmptyIds _ _ _ ?_ (fun b a hb => processProfileItem_noEmptyIds hb)
    refine foldl_noEmptyIds _ _ _ ?_ (fun b a hb => processAccountItem_noEmptyIds hb)
    exact processUploadOptions_noEmptyIds hids

/-- C10: records in the tweets, community-tweet, note-tweet, like,
follower, or following lists whose identifying field is missing or
stringifies to the empty string are silently skipped: a
successful import of the document equals (same counts, same final store)
the import of the document with those records removed, and a store with
no empty external identifiers never acquires one. -/
theorem C10_empty_id_records_skipped (doc : ArchiveDoc) (s : Store) (c : Counts)
    (s' : Store) (h : import_archive_data doc s = .ok (c, s')) :
    import_archive_data (dropEmptyIdRecords doc) s = .ok (c, s')
    ∧ (NoEmptyIds s → NoEmptyIds s') := by
  refine ⟨?_, fun hids => import_archive_data_noEmptyIds doc s hids h⟩
  have htw : ∀ (o : Option String) (b : Store × Counts),
      (doc.tweets.filter (fun it => tweetItemId it ≠ "")).foldl
        (processTweetItem o) b = doc.tweets.foldl (processTweetItem o) b :=
    fun o b => foldl_filter_eq
      (fun b a hpa => processTweetItem_empty_id (by simpa using hpa)) _ _
  have hcm : ∀ (o : Option String) (b : Store × Counts),
      (doc.communityTweets.filter (fun it => tweetItemId it ≠ "")).foldl
        (processCommunityTweetItem o) b
        = doc.communityTweets.foldl (processCommunityTweetItem o) b :=
    fun o b => foldl_filter_eq
      (fun b a hpa => processCommunityTweetItem_empty_id (by simpa using hpa)) _ _
  have hnt : ∀ (o : Option String) (b : Store × Counts),
      (doc.noteTweets.filter (fun it => noteItemId it ≠ "")).foldl
        (processNoteTweetItem o) b = doc.noteTweets.foldl (processNoteTweetItem o) b :=
    fun o b => foldl_filter_eq
      (fun b a hpa => processNoteTweetItem_empty_id (by simpa using hpa)) _ _
  have hlk : ∀ (o : Option String) (b : Store × Counts),
      (doc.likes.filter (fun it => likeItemId it ≠ "")).foldl
        (processLikeItem o) b = doc.likes.foldl (processLikeItem o) b :=
    fun o b => foldl_filter_eq
      (fun b a hpa => processLikeItem_empty_id (by simpa using hpa)) _ _
  have hfr : ∀ (o : Option String) (b : Store × Counts),
      (doc.followers.filter (fun it => followerItemId it ≠ "")).foldl
        (processFollowerItem o) b = doc.followers.foldl (processFollowerItem o) b :=
    fun o b => foldl_filter_eq
      (fun b a hpa => processFollowerItem_empty_id (by simpa using hpa)) _ _
  have hfg : ∀ (o : Option String) (b : Store × Counts),
      (doc.followings.filter (fun it => followingItemId it ≠ "")).foldl
        (processFollowingItem o) b = doc.followings.foldl (processFollowingItem o) b :=
    fun o b => foldl_filter_eq
      (fun b a hpa => processFollowingItem_empty_id (by simpa using hpa)) _ _
  have hguard : ¬((get_owner_account_id doc).isNone = true
      ∧ has_owner_scoped_data doc = true) := by
    intro hg
    simp only [import_archive_data] at h
    rw [if_pos hg] at h
    exact absurd h (by simp)
  cases howner : get_owner_account_id doc with
  | some o =>
    have howner' : get_owner_account_id (dropEmptyIdRecords doc) = Option.some o :=
      howner
    simp only [import_archive_data] at h ⊢
    rw [howner']
    rw [howner] at h
    rw [if_neg (by simp)]
    rw [if_neg (by simp)] at h
    simp only [dropEmptyIdRecords]
    rw [htw, hcm, hnt, hlk, hfr, hfg]
    exact h
  | none =>
    have hsc : has_owner_scoped_data doc = false := by
      cases hx : has_owner_scoped_data doc
      · rfl
      · exact absurd ⟨by simp [howner], hx⟩ hguard
    have hTw : doc.tweets = [] := by
      by_contra hx
      have hne : doc.tweets.isEmpty = false := by simpa [List.isEmpty_iff] using hx
      simp [has_owner_scoped_data, hne] at hsc
    have hCm : doc.communityTweets = [] := by
      by_contra hx
      have hne : doc.communityTweets.isEmpty = false := by
        simpa [List.isEmpty_iff] using hx
      simp [has_owner_scoped_data, hne] at hsc
    have hNt : doc.noteTweets = [] := by
      by_contra hx
      have hne : doc.noteTweets.isEmpty = false := by simpa [List.isEmpty_iff] using hx
      simp [has_owner_scoped_data, hne] at hsc
    have hLk : doc.likes = [] := by
      by_contra hx
      have hne : doc.likes.isEmpty = false := by simpa [List.isEmpty_iff] using hx
      simp [has_owner_scoped_data, hne] at hsc
    have hFr : doc.followers = [] := by
      by_contra hx
      have hne : doc.followers.isEmpty = false := by simpa [List.isEmpty_iff] using hx
      simp [has_owner_scoped_data, hne] at hsc
    have hFg : doc.followings = [] := by
      by_contra hx
      have hne : doc.followings.isEmpty = false := by simpa [List.isEmpty_iff] using hx
      simp [has_owner_scoped_data, hne] at hsc
    have hsc2 : has_owner_scoped_data (dropEmptyIdRecords doc) = false := by
      rw [show has_owner_scoped_data (dropEmptyIdRecords doc)
          = has_owner_scoped_data doc from by
        simp [has_owner_scoped_data, dropEmptyIdRecords, hTw, hCm, hNt, hLk, hFr, hFg]]
      exact hsc
    have howner' : get_owner_account_id (dropEmptyIdRecords doc) = Option.none :=
      howner
    simp only [import_archive_data] at h ⊢
    rw [howner']
    rw [howner] at h
    rw [if_neg (by simp [hsc2])]
    rw [if_neg (by simp [hsc])] at h
    simp only [dropEmptyIdRecords]
    rw [htw, hcm, hnt, hlk, hfr, hfg]
    exact h

/-- C10 witness: a concrete document with an empty-id post record
yields the same import result as its filtered form. -/
theorem C10_witness :
    import_archive_data c10Doc {} = .ok ((importOk c10Doc {}).1, (importOk c10Doc {}).2)
    ∧ (import_archive_data (dropEmptyIdRecords c10Doc) {}
        = .ok ((importOk c10Doc {}).1, (importOk c10Doc {}).2)
      ∧ (NoEmptyIds ({} : Store) → NoEmptyIds (importOk c10Doc {}).2)) :=
  ⟨rfl, C10_empty_id_records_skipped c10Doc {} _ _ rfl⟩

/-- Updating only `upload_options` yields `KeyPres` when its clause holds. -/
theorem keyPres_upd_upload {s : Store} {l : List UploadOptions}
    (h : ∀ k, s.upload_options.any (fun r => r.account_id == k) = true →
      l.any (fun r => r.account_id == k) = true) :
    KeyPres s { s with upload_options := l } :=
  ⟨h,
   fun _ hx => hx,
   fun _ hx => hx,
   fun _ hx => hx,
   fun _ hx => hx,
   fun _ _ hx => hx,
   fun _ _ hx => hx,
   fun _ _ hx => hx,
   fun _ hx => hx,
   fun _ hx => hx,
   fun _ hx => hx,
   fun _ hx => hx,
   fun _ hx => hx⟩

/-- Updating only `accounts` yields `KeyPres` when its clause holds. -/
theorem keyPres_upd_account {s : Store} {l : List Account}
    (h : ∀ k, s.accounts.any (fun r => r.account_id == k) = true →
      l.any (fun r => r.account_id == k) = true) :
    KeyPres s { s with accounts := l } :=
  ⟨fun _ hx => hx,
   h,
   fun _ hx => hx,
   fun _ hx => hx,
   fun _ hx => hx,
   fun _ _ hx => hx,
   fun _ _ hx => hx,
   fun _ _ hx => hx,
   fun _ hx => hx,
   fun _ hx => hx,
   fun _ hx => hx,
   fun _ hx => hx,
   fun _ hx => hx⟩

/-- Updating only `profiles` yields `KeyPres` when its clause holds. -/
theorem keyPres_upd_profile {s : Store} {l : List Profile}
    (h : ∀ k, s.profiles.any (fun r => r.account_id == k) = true →
      l.any (fun r => r.account_id == k) = true) :
    KeyPres s { s with profiles := l } :=
  ⟨fun _ hx => hx,
   fun _ hx => hx,
   h,
   fun _ hx => hx,
   fun _ hx => hx,
   fun _ _ hx => hx,
   fun _ _ hx => hx,
   fun _ _ hx => hx,
   fun _ hx => hx,
   fun _ hx => hx,
   fun _ hx => hx,
   fun _ hx => hx,
   fun _ hx => hx⟩

/-- Updating only `tweets` yields `KeyPres` when its clause holds. -/
theorem keyPres_upd_tweet {s : Store} {l : List Tweet}
    (h : ∀ k, s.tweets.any (fun r => r.tweet_id == k) = true →
      l.any (fun r => r.tweet_id == k) = true) :
    KeyPres s { s with tweets := l } :=
  ⟨fun _ hx => hx,
   fun _ hx => hx,
   fun _ hx => hx,
   h,
   fun _ hx => hx,
   fun _ _ hx => hx,
   fun _ _ hx => hx,
   fun _ _ hx => hx,
   fun _ hx => hx,
   fun _ hx => hx,
   fun _ hx => hx,
   fun _ hx => hx,
   fun _ hx => hx⟩

/-- Updating only `note_tweets` yields `KeyPres` when its clause holds. -/
theorem keyPres_upd_note {s : Store} {l : List NoteTweet}
    (h : ∀ k, s.note_tweets.any (fun r => r.note_tweet_id == k) = true →
      l.any (fun r => r.note_tweet_id == k) = true) :
    KeyPres s { s with note_tweets := l } :=
  ⟨fun _ hx => hx,
   fun _ hx => hx,
   fun _ hx => hx,
   fun _ hx => hx,
   h,
   fun _ _ hx => hx,
   fun _ _ hx => hx,
   fun _ _ hx => hx,
   fun _ hx => hx,
   fun _ hx => hx,
   fun _ hx => hx,
   fun _ hx => hx,
   fun _ hx => hx⟩

/-- Updating only `likes` yields `KeyPres` when its clause holds. -/
theorem keyPres_upd_like {s : Store} {l : List Like}
    (h : ∀ o k, s.likes.any (fun r => r.account_id == o && r.tweet_id == k) = true →
      l.any (fun r => r.account_id == o && r.tweet_id == k) = true) :
    KeyPres s { s with likes := l } :=
  ⟨fun _ hx => hx,
   fun _ hx => hx,
   fun _ hx => hx,
   fun _ hx => hx,
   fun _ hx => hx,
   h,
   fun _ _ hx => hx,
   fun _ _ hx => hx,
   fun _ hx => hx,
   fun _ hx => hx,
   fun _ hx => hx,
   fun _ hx => hx,
   fun _ hx => hx⟩

/-- Updating only `followers` yields `KeyPres` when its clause holds. -/
theorem keyPres_upd_follower {s : Store} {l : List Follower}
    (h : ∀ o k, s.followers.any (fun r => r.account_id == o && r.follower_account_id == k) = true →
      l.any (fun r => r.account_id == o && r.follower_account_id == k) = true) :
    KeyPres s { s with followers := l } :=
  ⟨fun _ hx => hx,
   fun _ hx => hx,
   fun _ hx => hx,
   fun _ hx => hx,
   fun _ hx => hx,
   fun _ _ hx => hx,
   h,
   fun _ _ hx => hx,
   fun _ hx => hx,
   fun _ hx => hx,
   fun _ hx => hx,
   fun _ hx => hx,
   fun _ hx => hx⟩

/-- Updating only `followings` yields `KeyPres` when its clause holds. -/
theorem keyPres_upd_following {s : Store} {l : List Following}
    (h : ∀ o k, s.followings.any (fun r => r.account_id == o && r.followed_account_id == k) = true →
      l.any (fun r => r.account_id == o && r.followed_account_id == k) = true) :
    KeyPres s { s with followings := l } :=
  ⟨fun _ hx => hx,
   fun _ hx => hx,
   fun _ hx => hx,
   fun _ hx => hx,
   fun _ hx => hx,
   fun _ _ hx => hx,
   fun _ _ hx => hx,
   h,
   fun _ hx => hx,
   fun _ hx => hx,
   fun _ hx => hx,
   fun _ hx => hx,
   fun _ hx => hx⟩

/-- Updating only `tweet_hashtags` yields `KeyPres` when its clause holds. -/
theorem keyPres_upd_hashtag {s : Store} {l : List TweetHashtag}
    (h : ∀ q, s.tweet_hashtags.any q = true → l.any q = true) :
    KeyPres s { s with tweet_hashtags := l } :=
  ⟨fun _ hx => hx,
   fun _ hx => hx,
   fun _ hx => hx,
   fun _ hx => hx,
   fun _ hx => hx,
   fun _ _ hx => hx,
   fun _ _ hx => hx,
   fun _ _ hx => hx,
   h,
   fun _ hx => hx,
   fun _ hx => hx,
   fun _ hx => hx,
   fun _ hx => hx⟩

/-- Updating only `tweet_symbols` yields `KeyPres` when its clause holds. -/
theorem keyPres_upd_symbol {s : Store} {l : List TweetSymbol}
    (h : ∀ q, s.tweet_symbols.any q = true → l.any q = true) :
    KeyPres s { s with tweet_symbols := l } :=
  ⟨fun _ hx => hx,
   fun _ hx => hx,
   fun _ hx => hx,
   fun _ hx => hx,
   fun _ hx => hx,
   fun _ _ hx => hx,
   fun _ _ hx => hx,
   fun _ _ hx => hx,
   fun _ hx => hx,
   h,
   fun _ hx => hx,
   fun _ hx => hx,
   fun _ hx => hx⟩

/-- Updating only `tweet_user_mentions` yields `KeyPres` when its clause holds. -/
theorem keyPres_upd_mention {s : Store} {l : List TweetUserMention}
    (h : ∀ q, s.tweet_user_mentions.any q = true → l.any q = true) :
    KeyPres s { s with tweet_user_mentions := l } :=
  ⟨fun _ hx => hx,
   fun _ hx => hx,
   fun _ hx => hx,
   fun _ hx => hx,
   fun _ hx => hx,
   fun _ _ hx => hx,
   fun _ _ hx => hx,
   fun _ _ hx => hx,
   fun _ hx => hx,
   fun _ hx => hx,
   h,
   fun _ hx => hx,
   fun _ hx => hx⟩

/-- Updating only `tweet_urls` yields `KeyPres` when its clause holds. -/
theorem keyPres_upd_url {s : Store} {l : List TweetUrl}
    (h : ∀ q, s.tweet_urls.any q = true → l.any q = true) :
    KeyPres s { s with tweet_urls := l } :=
  ⟨fun _ hx => hx,
   fun _ hx => hx,
   fun _ hx => hx,
   fun _ hx => hx,
   fun _ hx => hx,
   fun _ _ hx => hx,
   fun _ _ hx => hx,
   fun _ _ hx => hx,
   fun _ hx => hx,
   fun _ hx => hx,
   fun _ hx => hx,
   h,
   fun _ hx => hx⟩

/-- Updating only `tweet_media` yields `KeyPres` when its clause holds. -/
theorem keyPres_upd_media {s : Store} {l : List TweetMedia}
    (h : ∀ q, s.tweet_media.any q = true → l.any q = true) :
    KeyPres s { s with tweet_media := l } :=
  ⟨fun _ hx => hx,
   fun _ hx => hx,
   fun _ hx => hx,
   fun _ hx => hx,
   fun _ hx => hx,
   fun _ _ hx => hx,
   fun _ _ hx => hx,
   fun _ _ hx => hx,
   fun _ hx => hx,
   fun _ hx => hx,
   fun _ hx => hx,
   fun _ hx => hx,
   h⟩

/-- Updating only the fts table yields `KeyPres` unconditionally. -/
theorem keyPres_upd_fts {s : Store} {l : List FtsRow} :
    KeyPres s { s with fts := l } :=
  ⟨fun _ hx => hx, fun _ hx => hx, fun _ hx => hx, fun _ hx => hx, fun _ hx => hx,
   fun _ _ hx => hx, fun _ _ hx => hx, fun _ _ hx => hx,
   fun _ hx => hx, fun _ hx => hx, fun _ hx => hx, fun _ hx => hx, fun _ hx => hx⟩

/-- A fold of `KeyPres`-producing steps produces `KeyPres`. -/
theorem foldl_keyPres {α : Type} (f : Store × Counts → α → Store × Counts)
    (l : List α) (b : Store × Counts)
    (hf : ∀ (b : Store × Counts) (a : α), KeyPres b.1 ((f b a).1)) :
    KeyPres b.1 ((l.foldl f b).1) := by
  induction l generalizing b with
  | nil => exact keyPres_refl _
  | cons a t ih => exact keyPres_trans (hf b a) (ih (f b a))

/-- Attachment inserts yield `KeyPres`. -/
theorem addHashtag_keyPres {tid : String} {h : PyVal} {sc : Store × Counts} :
    KeyPres sc.1 ((addHashtag tid h sc).1) :=
  keyPres_upd_hashtag (fun _ hq => insertIfAbsent_any_mono hq)

/-- Attachment inserts yield `KeyPres`. -/
theorem addSymbol_keyPres {tid : String} {h : PyVal} {sc : Store × Counts} :
    KeyPres sc.1 ((addSymbol tid h sc).1) :=
  keyPres_upd_symbol (fun _ hq => insertIfAbsent_any_mono hq)

/-- Attachment inserts yield `KeyPres`. -/
theorem addMention_keyPres {tid : String} {m : PyVal} {sc : Store × Counts} :
    KeyPres sc.1 ((addMention tid m sc).1) :=
  keyPres_upd_mention (fun _ hq => insertIfAbsent_any_mono hq)

/-- Attachment inserts yield `KeyPres`. -/
theorem addUrl_keyPres {tid : String} {u : PyVal} {sc : Store × Counts} :
    KeyPres sc.1 ((addUrl tid u sc).1) :=
  keyPres_upd_url (fun _ hq => insertIfAbsent_any_mono hq)

/-- Attachment inserts yield `KeyPres`. -/
theorem addMedia_keyPres {row : TweetMedia} {sc : Store × Counts} :
    KeyPres sc.1 ((addMedia row sc).1) :=
  keyPres_upd_media (fun _ hq => insertIfAbsent_any_mono hq)

/-- The upload-options step yields `KeyPres`. -/
theorem processUploadOptions_keyPres (uo : PyVal) (o : Option String)
    (sc : Store × Counts) : KeyPres sc.1 ((processUploadOptions uo o sc).1) := by
  simp only [processUploadOptions]
  split
  · exact keyPres_refl _
  · split
    · exact keyPres_upd_upload (fun k hk => upsertList_any_mono
        (fun x h1 h2 => by
          simp only [beq_iff_eq] at h1 h2 ⊢
          exact h1.symm.trans h2) hk)
    · exact keyPres_refl _

/-- The account step yields `KeyPres`. -/
theorem processAccountItem_keyPres (sc : Store × Counts) (item : PyVal) :
    KeyPres sc.1 ((processAccountItem sc item).1) := by
  simp only [processAccountItem]
  split
  · exact keyPres_refl _
  · exact keyPres_upd_account (fun k hk => upsertList_any_mono
      (fun x h1 h2 => by
        simp only [beq_iff_eq] at h1 h2 ⊢
        exact h1.symm.trans h2) hk)

/-- The profile step yields `KeyPres`. -/
theorem processProfileItem_keyPres (o : Option String) (sc : Store × Counts)
    (item : PyVal) : KeyPres sc.1 ((processProfileItem o sc item).1) := by
  simp only [processProfileItem]
  split
  · exact keyPres_refl _
  · exact keyPres_upd_profile (fun k hk => upsertList_any_mono
      (fun x h1 h2 => by
        simp only [beq_iff_eq] at h1 h2 ⊢
        exact h1.symm.trans h2) hk)

/-- The note-tweet step yields `KeyPres`. -/
theorem processNoteTweetItem_keyPres (o : Option String) (sc : Store × Counts)
    (item : PyVal) : KeyPres sc.1 ((processNoteTweetItem o sc item).1) := by
  simp only [processNoteTweetItem]
  split
  · exact keyPres_refl _
  · split
    · exact keyPres_refl _
    · exact keyPres_upd_note (fun k hk => upsertList_any_mono
        (fun x h1 h2 => by
          simp only [beq_iff_eq] at h1 h2 ⊢
          exact h1.symm.trans h2) hk)

/-- The like step yields `KeyPres`. -/
theorem processLikeItem_keyPres (o : Option String) (sc : Store × Counts)
    (item : PyVal) : KeyPres sc.1 ((processLikeItem o sc item).1) := by
  simp only [processLikeItem]
  split
  · exact keyPres_refl _
  · split
    · exact keyPres_refl _
    · exact keyPres_upd_like (fun o' k hk => upsertList_any_mono
        (fun x h1 h2 => by
          simp only [Bool.and_eq_true, beq_iff_eq] at h1 h2 ⊢
          exact ⟨h1.1.symm.trans h2.1, h1.2.symm.trans h2.2⟩) hk)

/-- The follower step yields `KeyPres`. -/
theorem processFollowerItem_keyPres (o : Option String) (sc : Store × Counts)
    (item : PyVal) : KeyPres sc.1 ((processFollowerItem o sc item).1) := by
  simp only [processFollowerItem]
  split
  · exact keyPres_refl _
  · split
    · exact keyPres_refl _
    · exact keyPres_upd_follower (fun o' k hk => upsertList_any_mono
        (fun x h1 h2 => by
          simp only [Bool.and_eq_true, beq_iff_eq] at h1 h2 ⊢
          exact ⟨h1.1.symm.trans h2.1, h1.2.symm.trans h2.2⟩) hk)

/-- The following step yields `KeyPres`. -/
theorem processFollowingItem_keyPres (o : Option String) (sc : Store × Counts)
    (item : PyVal) : KeyPres sc.1 ((processFollowingItem o sc item).1) := by
  simp only [processFollowingItem]
  split
  · exact keyPres_refl _
  · split
    · exact keyPres_refl _
    · exact keyPres_upd_following (fun o' k hk => upsertList_any_mono
        (fun x h1 h2 => by
          simp only [Bool.and_eq_true, beq_iff_eq] at h1 h2 ⊢
          exact ⟨h1.1.symm.trans h2.1, h1.2.symm.trans h2.2⟩) hk)

/-- The `tweets` step yields `KeyPres`. -/
theorem processTweetItem_keyPres (o : Option String) (sc : Store × Counts)
    (item : PyVal) : KeyPres sc.1 ((processTweetItem o sc item).1) := by
  simp only [processTweetItem]
  split
  · exact keyPres_refl _
  · split
    · exact keyPres_refl _
    · rename_i owner2 ownerId
      refine keyPres_trans ?_ (foldl_keyPres _ _ _ (fun b a => addMedia_keyPres))
      refine keyPres_trans ?_ (foldl_keyPres _ _ _ (fun b a => addMedia_keyPres))
      refine keyPres_trans ?_ (foldl_keyPres _ _ _ (fun b a => addUrl_keyPres))
      refine keyPres_trans ?_ (foldl_keyPres _ _ _ (fun b a => addMention_keyPres))
      refine keyPres_trans ?_ (foldl_keyPres _ _ _ (fun b a => addSymbol_keyPres))
      refine keyPres_trans ?_ (foldl_keyPres _ _ _ (fun b a => addHashtag_keyPres))
      refine keyPres_trans (v := (upsertTweet (mkTweetRow "tweet" ownerId
        (tweetItemId item) (tweetItemPayload item)) sc.1).1) ?_ keyPres_upd_fts
      exact keyPres_upd_tweet (fun k hk => upsertList_any_mono
        (fun x h1 h2 => by
          simp only [beq_iff_eq] at h1 h2 ⊢
          exact h1.symm.trans h2) hk)

/-- The `community-tweet` step yields `KeyPres`. -/
theorem processCommunityTweetItem_keyPres (o : Option String)
    (sc : Store × Counts) (item : PyVal) :
    KeyPres sc.1 ((processCommunityTweetItem o sc item).1) := by
  simp only [processCommunityTweetItem]
  split
  · exact keyPres_refl _
  · split
    · exact keyPres_refl _
    · rename_i owner2 ownerId
      refine keyPres_trans ?_ (foldl_keyPres _ _ _ (fun b a => addUrl_keyPres))
      refine keyPres_trans ?_ (foldl_keyPres _ _ _ (fun b a => addMention_keyPres))
      refine keyPres_trans ?_ (foldl_keyPres _ _ _ (fun b a => addSymbol_keyPres))
      refine keyPres_trans ?_ (foldl_keyPres _ _ _ (fun b a => addHashtag_keyPres))
      refine keyPres_trans (v := (upsertTweet (mkCommunityTweetRow ownerId
        (tweetItemId item) (tweetItemPayload item)) sc.1).1) ?_ keyPres_upd_fts
      exact keyPres_upd_tweet (fun k hk => upsertList_any_mono
        (fun x h1 h2 => by
          simp only [beq_iff_eq] at h1 h2 ⊢
          exact h1.symm.trans h2) hk)

/-- `accountHandled` is monotone along `KeyPres`. -/
theorem accountHandled_mono {item : PyVal} {s s' : Store} (kp : KeyPres s s')
    (h : accountHandled item s) : accountHandled item s' :=
  h.elim Or.inl (fun hx => Or.inr (kp.account _ hx))

/-- `uploadHandled` is monotone along `KeyPres`. -/
theorem uploadHandled_mono {o : String} {uo : PyVal} {s s' : Store}
    (kp : KeyPres s s') (h : uploadHandled o uo s) : uploadHandled o uo s' :=
  fun hd => kp.upload _ (h hd)

/-- `noteHandled` is monotone along `KeyPres`. -/
theorem noteHandled_mono {item : PyVal} {s s' : Store} (kp : KeyPres s s')
    (h : noteHandled item s) : noteHandled item s' :=
  h.elim Or.inl (fun hx => Or.inr (kp.note _ hx))

/-- `likeHandled` is monotone along `KeyPres`. -/
theorem likeHandled_mono {o : String} {item : PyVal} {s s' : Store}
    (kp : KeyPres s s') (h : likeHandled o item s) : likeHandled o item s' :=
  h.elim Or.inl (fun hx => Or.inr (kp.like _ _ hx))

/-- `followerHandled` is monotone along `KeyPres`. -/
theorem followerHandled_mono {o : String} {item : PyVal} {s s' : Store}
    (kp : KeyPres s s') (h : followerHandled o item s) : followerHandled o item s' :=
  h.elim Or.inl (fun hx => Or.inr (kp.follower _ _ hx))

/-- `followingHandled` is monotone along `KeyPres`. -/
theorem followingHandled_mono {o : String} {item : PyVal} {s s' : Store}
    (kp : KeyPres s s') (h : followingHandled o item s) : followingHandled o item s' :=
  h.elim Or.inl (fun hx => Or.inr (kp.following _ _ hx))

/-- `tweetHandled` is monotone along `KeyPres`. -/
theorem tweetHandled_mono {item : PyVal} {s s' : Store} (kp : KeyPres s s')
    (h : tweetHandled item s) : tweetHandled item s' := by
  rcases h with hid | ⟨h1, h2, h3, h4, h5, h6, h7⟩
  · exact Or.inl hid
  · exact Or.inr ⟨kp.tweet _ h1,
      fun x hx => kp.hashtag _ (h2 x hx),
      fun x hx => kp.symbol _ (h3 x hx),
      fun x hx => kp.mention _ (h4 x hx),
      fun x hx => kp.url _ (h5 x hx),
      fun x hx => kp.media _ (h6 x hx),
      fun x hx => kp.media _ (h7 x hx)⟩

/-- `communityTweetHandled` is monotone along `KeyPres`. -/
theorem communityTweetHandled_mono {item : PyVal} {s s' : Store} (kp : KeyPres s s')
    (h : communityTweetHandled item s) : communityTweetHandled item s' := by
  rcases h with hid | ⟨h1, h2, h3, h4, h5⟩
  · exact Or.inl hid
  · exact Or.inr ⟨kp.tweet _ h1,
      fun x hx => kp.hashtag _ (h2 x hx),
      fun x hx => kp.symbol _ (h3 x hx),
      fun x hx => kp.mention _ (h4 x hx),
      fun x hx => kp.url _ (h5 x hx)⟩

/-- In a consistent store, a post id present in the post table has
exactly one index row. -/
theorem ftsSync_countP_of_present {s : Store} {k : String} (hfts : FtsSync s)
    (hany : s.tweets.any (fun r => r.tweet_id == k) = true) :
    s.fts.countP (fun r => r.tweet_id == k) = 1 := by
  obtain ⟨t, ht, htk⟩ := List.any_eq_true.mp hany
  simp only [beq_iff_eq] at htk
  obtain ⟨f, hf, hfk⟩ := hfts.2.2.2 t ht
  have hmem : k ∈ s.fts.map (fun r => r.tweet_id) :=
    List.mem_map.mpr ⟨f, hf, hfk.trans htk⟩
  have hcount := List.count_eq_one_of_mem hfts.1 hmem
  calc s.fts.countP (fun r => r.tweet_id == k)
      = (s.fts.map (fun r => r.tweet_id)).countP (fun x => x == k) := by
        rw [List.countP_map]
        rfl
    _ = 1 := hcount

/-- A present hashtag attachment insert is a no-op. -/
theorem addHashtag_skip {tid : String} {h : PyVal} {sc : Store × Counts}
    (hex : sc.1.tweet_hashtags.any (hashtagPred (mkHashtagRow tid h)) = true) :
    addHashtag tid h sc = sc := by
  simp [addHashtag, insertIfAbsent_of_any hex]

/-- A present symbol attachment insert is a no-op. -/
theorem addSymbol_skip {tid : String} {h : PyVal} {sc : Store × Counts}
    (hex : sc.1.tweet_symbols.any (symbolPred (mkSymbolRow tid h)) = true) :
    addSymbol tid h sc = sc := by
  simp [addSymbol, insertIfAbsent_of_any hex]

/-- A present user-mention attachment insert is a no-op. -/
theorem addMention_skip {tid : String} {m : PyVal} {sc : Store × Counts}
    (hex : sc.1.tweet_user_mentions.any (mentionPred (mkMentionRow tid m)) = true) :
    addMention tid m sc = sc := by
  simp [addMention, insertIfAbsent_of_any hex]

/-- A present url attachment insert is a no-op. -/
theorem addUrl_skip {tid : String} {u : PyVal} {sc : Store × Counts}
    (hex : sc.1.tweet_urls.any (urlPred (mkUrlRow tid u)) = true) :
    addUrl tid u sc = sc := by
  simp [addUrl, insertIfAbsent_of_any hex]

/-- A present media attachment insert is a no-op. -/
theorem addMedia_skip {row : TweetMedia} {sc : Store × Counts}
    (hex : sc.1.tweet_media.any (mediaPred row) = true) :
    addMedia row sc = sc := by
  simp [addMedia, insertIfAbsent_of_any hex]

/-- A handled upload-options record is updated in place: counts and all
table lengths are unchanged. -/
theorem processUploadOptions_handled_step {uo : PyVal} {oid : String}
    {sc : Store × Counts} (hh : uploadHandled oid uo sc.1) :
    (processUploadOptions uo (Option.some oid) sc).2 = sc.2
    ∧ tableLengths ((processUploadOptions uo (Option.some oid) sc).1)
      = tableLengths sc.1 := by
  simp only [processUploadOptions]
  split
  · rename_i hd
    have hany := hh hd
    refine ⟨by simp [upsertList_of_any hany], ?_⟩
    simp [tableLengths, upsertList_of_any hany, replaceFirst_length]
  · exact ⟨rfl, rfl⟩

/-- A handled account record is updated in place. -/
theorem processAccountItem_handled_step {sc : Store × Counts} {item : PyVal}
    (hh : accountHandled item sc.1) :
    (processAccountItem sc item).2 = sc.2
    ∧ tableLengths ((processAccountItem sc item).1) = tableLengths sc.1 := by
  simp only [processAccountItem]
  split
  · exact ⟨rfl, rfl⟩
  · rename_i hid
    have hany := hh.resolve_left hid
    refine ⟨by simp [upsertList_of_any hany], ?_⟩
    simp [tableLengths, upsertList_of_any hany, replaceFirst_length]

/-- A handled profile record is updated in place. -/
theorem processProfileItem_handled_step {sc : Store × Counts} {item : PyVal}
    {oid : String} (hh : sc.1.profiles.any (fun r => r.account_id == oid) = true) :
    (processProfileItem (Option.some oid) sc item).2 = sc.2
    ∧ tableLengths ((processProfileItem (Option.some oid) sc item).1)
      = tableLengths sc.1 := by
  simp only [processProfileItem]
  refine ⟨by simp [upsertList_of_any hh], ?_⟩
  simp [tableLengths, upsertList_of_any hh, replaceFirst_length]

/-- A handled note-tweet record is updated in place. -/
theorem processNoteTweetItem_handled_step {sc : Store × Counts} {item : PyVal}
    {oid : String} (hh : noteHandled item sc.1) :
    (processNoteTweetItem (Option.some oid) sc item).2 = sc.2
    ∧ tableLengths ((processNoteTweetItem (Option.some oid) sc item).1)
      = tableLengths sc.1 := by
  simp only [processNoteTweetItem]
  split
  · exact ⟨rfl, rfl⟩
  · rename_i hid
    have hany := hh.resolve_left hid
    refine ⟨by simp [upsertList_of_any hany], ?_⟩
    simp [tableLengths, upsertList_of_any hany, replaceFirst_length]

/-- A handled like record is updated in place. -/
theorem processLikeItem_handled_step {sc : Store × Counts} {item : PyVal}
    {oid : String} (hh : likeHandled oid item sc.1) :
    (processLikeItem (Option.some oid) sc item).2 = sc.2
    ∧ tableLengths ((processLikeItem (Option.some oid) sc item).1)
      = tableLengths sc.1 := by
  simp only [processLikeItem]
  split
  · exact ⟨rfl, rfl⟩
  · rename_i hid
    have hany := hh.resolve_left hid
    refine ⟨by simp [upsertList_of_any hany], ?_⟩
    simp [tableLengths, upsertList_of_any hany, replaceFirst_length]

/-- A handled follower record is updated in place. -/
theorem processFollowerItem_handled_step {sc : Store × Counts} {item : PyVal}
    {oid : String} (hh : followerHandled oid item sc.1) :
    (processFollowerItem (Option.some oid) sc item).2 = sc.2
    ∧ tableLengths ((processFollowerItem (Option.some oid) sc item).1)
      = tableLengths sc.1 := by
  simp only [processFollowerItem]
  split
  · exact ⟨rfl, rfl⟩
  · rename_i hid
    have hany := hh.resolve_left hid
    refine ⟨by simp [upsertList_of_any hany], ?_⟩
    simp [tableLengths, upsertList_of_any hany, replaceFirst_length]

/-- A handled following record is updated in place. -/
theorem processFollowingItem_handled_step {sc : Store × Counts} {item : PyVal}
    {oid : String} (hh : followingHandled oid item sc.1) :
    (processFollowingItem (Option.some oid) sc item).2 = sc.2
    ∧ tableLengths ((processFollowingItem (Option.some oid) sc item).1)
      = tableLengths sc.1 := by
  simp only [processFollowingItem]
  split
  · exact ⟨rfl, rfl⟩
  · rename_i hid
    have hany := hh.resolve_left hid
    refine ⟨by simp [upsertList_of_any hany], ?_⟩
    simp [tableLengths, upsertList_of_any hany, replaceFirst_length]

/-- A fold of present hashtag inserts is the identity. -/
theorem hashtag_fold_fixed {tid : String} {l : List PyVal} {b : Store × Counts}
    (h : ∀ x ∈ l, b.1.tweet_hashtags.any (hashtagPred (mkHashtagRow tid x)) = true) :
    l.foldl (fun c x => addHashtag tid x c) b = b :=
  foldl_fixed (fun a ha => addHashtag_skip (h a ha))

/-- A fold of present symbol inserts is the identity. -/
theorem symbol_fold_fixed {tid : String} {l : List PyVal} {b : Store × Counts}
    (h : ∀ x ∈ l, b.1.tweet_symbols.any (symbolPred (mkSymbolRow tid x)) = true) :
    l.foldl (fun c x => addSymbol tid x c) b = b :=
  foldl_fixed (fun a ha => addSymbol_skip (h a ha))

/-- A fold of present user-mention inserts is the identity. -/
theorem mention_fold_fixed {tid : String} {l : List PyVal} {b : Store × Counts}
    (h : ∀ x ∈ l,
      b.1.tweet_user_mentions.any (mentionPred (mkMentionRow tid x)) = true) :
    l.foldl (fun c x => addMention tid x c) b = b :=
  foldl_fixed (fun a ha => addMention_skip (h a ha))

/-- A fold of present url inserts is the identity. -/
theorem url_fold_fixed {tid : String} {l : List PyVal} {b : Store × Counts}
    (h : ∀ x ∈ l, b.1.tweet_urls.any (urlPred (mkUrlRow tid x)) = true) :
    l.foldl (fun c x => addUrl tid x c) b = b :=
  foldl_fixed (fun a ha => addUrl_skip (h a ha))

/-- A fold of present entities-media inserts is the identity. -/
theorem mediaE_fold_fixed {tid : String} {l : List PyVal} {b : Store × Counts}
    (h : ∀ x ∈ l, b.1.tweet_media.any (mediaPred (mkEntitiesMediaRow tid x)) = true) :
    l.foldl (fun c x => addMedia (mkEntitiesMediaRow tid x) c) b = b :=
  foldl_fixed (fun a ha => addMedia_skip (h a ha))

/-- A fold of present extended-media inserts is the identity. -/
theorem mediaX_fold_fixed {tid : String} {l : List PyVal} {b : Store × Counts}
    (h : ∀ x ∈ l, b.1.tweet_media.any (mediaPred (mkExtendedMediaRow tid x)) = true) :
    l.foldl (fun c x => addMedia (mkExtendedMediaRow tid x) c) b = b :=
  foldl_fixed (fun a ha => addMedia_skip (h a ha))

/-- Removing the unique row of an id and appending a fresh one keeps the
index length. -/
theorem length_filter_ne_add_one {l : List FtsRow} {k : String}
    (h : l.countP (fun r => r.tweet_id == k) = 1) :
    (l.filter (fun r => r.tweet_id ≠ k)).length + 1 = l.length := by
  have hsplit := List.length_eq_countP_add_countP
    (fun (r : FtsRow) => r.tweet_id == k) l
  have hfun : (fun (r : FtsRow) => decide ¬(r.tweet_id == k) = true)
      = fun (r : FtsRow) => decide ¬(r.tweet_id = k) := by
    funext r
    by_cases hr : r.tweet_id = k
    · simp [hr]
    · simp [hr]
  have hflen : (l.filter (fun r => r.tweet_id ≠ k)).length
      = l.countP (fun r => decide ¬(r.tweet_id = k)) := by
    rw [← List.countP_eq_length_filter]
  rw [hflen, ← hfun]
  omega

/-- Updating a present post in place and re-syncing its unique index row
keeps every table length. -/
theorem tableLengths_upsert_sync {sc : Store} {row : Tweet}
    (hany : sc.tweets.any (fun r => r.tweet_id == row.tweet_id) = true)
    (hcount : sc.fts.countP (fun r => r.tweet_id == row.tweet_id) = 1) :
    tableLengths (sync_tweet_fts row.tweet_id row.account_id row.full_text
      (upsertTweet row sc).1) = tableLengths sc := by
  simp only [upsertTweet, upsertList_of_any hany]
  simp only [tableLengths, sync_tweet_fts, List.length_append, List.length_cons,
    List.length_nil, replaceFirst_length]
  rw [show (sc.fts.filter (fun r => r.tweet_id ≠ row.tweet_id)).length + 1
    = sc.fts.length from length_filter_ne_add_one hcount]

/-- A handled `tweets` record is a pure in-place update: counts and all
table lengths are unchanged. -/
theorem processTweetItem_handled_step {sc : Store × Counts} {item : PyVal}
    {oid : String} (hh : tweetHandled item sc.1) (hfts : FtsSync sc.1) :
    (processTweetItem (Option.some oid) sc item).2 = sc.2
    ∧ tableLengths ((processTweetItem (Option.some oid) sc item).1)
      = tableLengths sc.1 := by
  by_cases hid : tweetItemId item = ""
  · rw [processTweetItem_empty_id hid]
    exact ⟨rfl, rfl⟩
  · obtain ⟨hany, hhash, hsym, hmen, hurl, hmedE, hmedX⟩ := hh.resolve_left hid
    have hany' : sc.1.tweets.any (fun r => r.tweet_id ==
        (mkTweetRow "tweet" oid (tweetItemId item) (tweetItemPayload item)).tweet_id)
        = true := hany
    have hres2 : (upsertTweet (mkTweetRow "tweet" oid (tweetItemId item)
        (tweetItemPayload item)) sc.1).2 = false := by
      simp [upsertTweet, upsertList_of_any hany']
    have hcollapse : processTweetItem (Option.some oid) sc item
        = (sync_tweet_fts (tweetItemId item) oid
            (strField (tweetItemPayload item) "full_text")
            (upsertTweet (mkTweetRow "tweet" oid (tweetItemId item)
              (tweetItemPayload item)) sc.1).1,
           sc.2) := by
      simp only [processTweetItem]
      rw [if_neg hid]
      rw [hres2]
      simp only [Bool.false_eq_true, if_false]
      set B : Store × Counts := (sync_tweet_fts (tweetItemId item) oid
        (strField (tweetItemPayload item) "full_text")
        (upsertTweet (mkTweetRow "tweet" oid (tweetItemId item)
          (tweetItemPayload item)) sc.1).1, sc.2) with hB
      rw [hashtag_fold_fixed (b := B) (fun x hx => hhash x hx)]
      rw [symbol_fold_fixed (b := B) (fun x hx => hsym x hx)]
      rw [mention_fold_fixed (b := B) (fun x hx => hmen x hx)]
      rw [url_fold_fixed (b := B) (fun x hx => hurl x hx)]
      rw [mediaE_fold_fixed (b := B) (fun x hx => hmedE x hx)]
      rw [mediaX_fold_fixed (b := B) (fun x hx => hmedX x hx)]
    rw [hcollapse]
    exact ⟨rfl, tableLengths_upsert_sync hany'
      (ftsSync_countP_of_present hfts hany)⟩

/-- A handled `community-tweet` record is a pure in-place update. -/
theorem processCommunityTweetItem_handled_step {sc : Store × Counts} {item : PyVal}
    {oid : String} (hh : communityTweetHandled item sc.1) (hfts : FtsSync sc.1) :
    (processCommunityTweetItem (Option.some oid) sc item).2 = sc.2
    ∧ tableLengths ((processCommunityTweetItem (Option.some oid) sc item).1)
      = tableLengths sc.1 := by
  by_cases hid : tweetItemId item = ""
  · rw [processCommunityTweetItem_empty_id hid]
    exact ⟨rfl, rfl⟩
  · obtain ⟨hany, hhash, hsym, hmen, hurl⟩ := hh.resolve_left hid
    have hany' : sc.1.tweets.any (fun r => r.tweet_id ==
        (mkCommunityTweetRow oid (tweetItemId item) (tweetItemPayload item)).tweet_id)
        = true := hany
    have hres2 : (upsertTweet (mkCommunityTweetRow oid (tweetItemId item)
        (tweetItemPayload item)) sc.1).2 = false := by
      simp [upsertTweet, upsertList_of_any hany']
    have hcollapse : processCommunityTweetItem (Option.some oid) sc item
        = (sync_tweet_fts (tweetItemId item) oid
            (strField (tweetItemPayload item) "full_text")
            (upsertTweet (mkCommunityTweetRow oid (tweetItemId item)
              (tweetItemPayload item)) sc.1).1,
           sc.2) := by
      simp only [processCommunityTweetItem]
      rw [if_neg hid]
      rw [hres2]
      simp only [Bool.false_eq_true, if_false]
      set B : Store × Counts := (sync_tweet_fts (tweetItemId item) oid
        (strField (tweetItemPayload item) "full_text")
        (upsertTweet (mkCommunityTweetRow oid (tweetItemId item)
          (tweetItemPayload item)) sc.1).1, sc.2) with hB
      rw [hashtag_fold_fixed (b := B) (fun x hx => hhash x hx)]
      rw [symbol_fold_fixed (b := B) (fun x hx => hsym x hx)]
      rw [mention_fold_fixed (b := B) (fun x hx => hmen x hx)]
      rw [url_fold_fixed (b := B) (fun x hx => hurl x hx)]
    rw [hcollapse]
    exact ⟨rfl, tableLengths_upsert_sync hany'
      (ftsSync_countP_of_present hfts hany)⟩

/-- A fold preserves an invariant whose step preservation is only known
for the elements actually folded over. -/
theorem foldl_preserve_mem {P : β → Prop} {f : β → α → β} :
    ∀ (l : List α) (b : β), P b → (∀ (c : β) (a : α), a ∈ l → P c → P (f c a)) →
      P (l.foldl f b) := by
  intro l
  induction l with
  | nil => exact fun b h _ => h
  | cons a t ih =>
    intro b h hf
    exact ih (f b a) (hf b a (by simp) h)
      (fun c x hx hc => hf c x (by simp [hx]) hc)

/-- With no owner, the `tweets` step is skipped. -/
theorem processTweetItem_skip_none (sc : Store × Counts) (item : PyVal) :
    processTweetItem Option.none sc item = sc := by
  simp only [processTweetItem]
  split <;> rfl

/-- With no owner, the `community-tweet` step is skipped. -/
theorem processCommunityTweetItem_skip_none (sc : Store × Counts) (item : PyVal) :
    processCommunityTweetItem Option.none sc item = sc := by
  simp only [processCommunityTweetItem]
  split <;> rfl

/-- With no owner, the `note-tweet` step is skipped. -/
theorem processNoteTweetItem_skip_none (sc : Store × Counts) (item : PyVal) :
    processNoteTweetItem Option.none sc item = sc := by
  simp only [processNoteTweetItem]
  split <;> rfl

/-- With no owner, the `like` step is skipped. -/
theorem processLikeItem_skip_none (sc : Store × Counts) (item : PyVal) :
    processLikeItem Option.none sc item = sc := by
  simp only [processLikeItem]
  split <;> rfl

/-- With no owner, the `follower` step is skipped. -/
theorem processFollowerItem_skip_none (sc : Store × Counts) (item : PyVal) :
    processFollowerItem Option.none sc item = sc := by
  simp only [processFollowerItem]
  split <;> rfl

/-- With no owner, the `following` step is skipped. -/
theorem processFollowingItem_skip_none (sc : Store × Counts) (item : PyVal) :
    processFollowingItem Option.none sc item = sc := by
  simp only [processFollowingItem]
  split <;> rfl

/-- Inserting a hashtag row makes its own existence check pass. -/
theorem addHashtag_establishes {tid : String} {h : PyVal} {sc : Store × Counts} :
    (addHashtag tid h sc).1.tweet_hashtags.any
      (hashtagPred (mkHashtagRow tid h)) = true := by
  simp only [addHashtag]
  exact insertIfAbsent_establishes (by simp [hashtagPred])

/-- Inserting a symbol row makes its own existence check pass. -/
theorem addSymbol_establishes {tid : String} {h : PyVal} {sc : Store × Counts} :
    (addSymbol tid h sc).1.tweet_symbols.any
      (symbolPred (mkSymbolRow tid h)) = true := by
  simp only [addSymbol]
  exact insertIfAbsent_establishes (by simp [symbolPred])

/-- Inserting a user-mention row makes its own existence check pass. -/
theorem addMention_establishes {tid : String} {m : PyVal} {sc : Store × Counts} :
    (addMention tid m sc).1.tweet_user_mentions.any
      (mentionPred (mkMentionRow tid m)) = true := by
  simp only [addMention]
  exact insertIfAbsent_establishes (by simp [mentionPred])

/-- Inserting a url row makes its own existence check pass. -/
theorem addUrl_establishes {tid : String} {u : PyVal} {sc : Store × Counts} :
    (addUrl tid u sc).1.tweet_urls.any (urlPred (mkUrlRow tid u)) = true := by
  simp only [addUrl]
  exact insertIfAbsent_establishes (by simp [urlPred])

/-- Inserting a media row makes its own existence check pass. -/
theorem addMedia_establishes {row : TweetMedia} {sc : Store × Counts} :
    (addMedia row sc).1.tweet_media.any (mediaPred row) = true := by
  simp only [addMedia]
  exact insertIfAbsent_establishes (by simp [mediaPred])

/-- After an upsert of a post row, its keyed lookup passes. -/
theorem upsertTweet_establishes {row : Tweet} {s : Store} :
    (upsertTweet row s).1.tweets.any (fun r => r.tweet_id == row.tweet_id) = true := by
  simp only [upsertTweet]
  exact upsertList_establishes (by simp)

/-- The upload-options step materializes its record. -/
theorem processUploadOptions_establishes {uo : PyVal} {oid : String}
    {sc : Store × Counts} :
    uploadHandled oid uo ((processUploadOptions uo (Option.some oid) sc).1) := by
  intro hd
  simp only [processUploadOptions]
  rw [if_pos hd]
  exact upsertList_establishes (by simp)

/-- The account step materializes its record. -/
theorem processAccountItem_establishes (sc : Store × Counts) (item : PyVal) :
    accountHandled item ((processAccountItem sc item).1) := by
  by_cases hid : accountItemId item = ""
  · exact Or.inl hid
  · refine Or.inr ?_
    simp only [processAccountItem]
    rw [if_neg hid]
    exact upsertList_establishes (by simp)

/-- The profile step materializes the owner's profile row. -/
theorem processProfileItem_establishes {oid : String} (sc : Store × Counts)
    (item : PyVal) :
    ((processProfileItem (Option.some oid) sc item).1).profiles.any
      (fun r => r.account_id == oid) = true := by
  simp only [processProfileItem]
  exact upsertList_establishes (by simp)

/-- A nonempty profile loop materializes the owner's profile row. -/
theorem profile_fold_establishes {oid : String} {sc : Store × Counts}
    {l : List PyVal} (hne : l ≠ []) :
    ((l.foldl (processProfileItem (Option.some oid)) sc).1).profiles.any
      (fun r => r.account_id == oid) = true := by
  cases l with
  | nil => exact absurd rfl hne
  | cons a t =>
    simp only [List.foldl_cons]
    exact foldl_preserve
      (fun b x hb => (processProfileItem_keyPres (Option.some oid) b x).profile _ hb)
      t _ (processProfileItem_establishes sc a)

/-- The note-tweet step materializes its record. -/
theorem processNoteTweetItem_establishes {oid : String} (sc : Store × Counts)
    (item : PyVal) :
    noteHandled item ((processNoteTweetItem (Option.some oid) sc item).1) := by
  by_cases hid : noteItemId item = ""
  · exact Or.inl hid
  · refine Or.inr ?_
    simp only [processNoteTweetItem]
    rw [if_neg hid]
    exact upsertList_establishes (by simp)

/-- The like step materializes its record. -/
theorem processLikeItem_establishes {oid : String} (sc : Store × Counts)
    (item : PyVal) :
    likeHandled oid item ((processLikeItem (Option.some oid) sc item).1) := by
  by_cases hid : likeItemId item = ""
  · exact Or.inl hid
  · refine Or.inr ?_
    simp only [processLikeItem]
    rw [if_neg hid]
    exact upsertList_establishes (by simp)

/-- The follower step materializes its record. -/
theorem processFollowerItem_establishes {oid : String} (sc : Store × Counts)
    (item : PyVal) :
    followerHandled oid item ((processFollowerItem (Option.some oid) sc item).1) := by
  by_cases hid : followerItemId item = ""
  · exact Or.inl hid
  · refine Or.inr ?_
    simp only [processFollowerItem]
    rw [if_neg hid]
    exact upsertList_establishes (by simp)

/-- After the six attachment folds of the `tweets` loop, the post row is
still present and every attachment row passes its existence check. -/
theorem tweet_attach_establish (tid : String) (entities extended : PyVal)
    (b0 t6 : Store × Counts)
    (htw : b0.1.tweets.any (fun r => r.tweet_id == tid) = true)
    (h6 : t6 = (entityList extended "media").foldl
      (fun c m => addMedia (mkExtendedMediaRow tid m) c)
      ((entityList entities "media").foldl
        (fun c m => addMedia (mkEntitiesMediaRow tid m) c)
        ((entityList entities "urls").foldl (fun c u => addUrl tid u c)
          ((entityList entities "user_mentions").foldl
            (fun c m => addMention tid m c)
            ((entityList entities "symbols").foldl (fun c h => addSymbol tid h c)
              ((entityList entities "hashtags").foldl
                (fun c h => addHashtag tid h c) b0)))))) :
    t6.1.tweets.any (fun r => r.tweet_id == tid) = true
    ∧ (∀ h ∈ entityList entities "hashtags",
        t6.1.tweet_hashtags.any (hashtagPred (mkHashtagRow tid h)) = true)
    ∧ (∀ h ∈ entityList entities "symbols",
        t6.1.tweet_symbols.any (symbolPred (mkSymbolRow tid h)) = true)
    ∧ (∀ m ∈ entityList entities "user_mentions",
        t6.1.tweet_user_mentions.any (mentionPred (mkMentionRow tid m)) = true)
    ∧ (∀ u ∈ entityList entities "urls",
        t6.1.tweet_urls.any (urlPred (mkUrlRow tid u)) = true)
    ∧ (∀ m ∈ entityList entities "media",
        t6.1.tweet_media.any (mediaPred (mkEntitiesMediaRow tid m)) = true)
    ∧ (∀ m ∈ entityList extended "media",
        t6.1.tweet_media.any (mediaPred (mkExtendedMediaRow tid m)) = true) := by
  subst h6
  set b1 := (entityList entities "hashtags").foldl
    (fun c h => addHashtag tid h c) b0 with hb1
  set b2 := (entityList entities "symbols").foldl
    (fun c h => addSymbol tid h c) b1 with hb2
  set b3 := (entityList entities "user_mentions").foldl
    (fun c m => addMention tid m c) b2 with hb3
  set b4 := (entityList entities "urls").foldl
    (fun c u => addUrl tid u c) b3 with hb4
  set b5 := (entityList entities "media").foldl
    (fun c m => addMedia (mkEntitiesMediaRow tid m) c) b4 with hb5
  set b6 := (entityList extended "media").foldl
    (fun c m => addMedia (mkExtendedMediaRow tid m) c) b5 with hb6
  have kp01 : KeyPres b0.1 b1.1 := by
    rw [hb1]; exact foldl_keyPres _ _ _ (fun b a => addHashtag_keyPres)
  have kp12 : KeyPres b1.1 b2.1 := by
    rw [hb2]; exact foldl_keyPres _ _ _ (fun b a => addSymbol_keyPres)
  have kp23 : KeyPres b2.1 b3.1 := by
    rw [hb3]; exact foldl_keyPres _ _ _ (fun b a => addMention_keyPres)
  have kp34 : KeyPres b3.1 b4.1 := by
    rw [hb4]; exact foldl_keyPres _ _ _ (fun b a => addUrl_keyPres)
  have kp45 : KeyPres b4.1 b5.1 := by
    rw [hb5]; exact foldl_keyPres _ _ _ (fun b a => addMedia_keyPres)
  have kp56 : KeyPres b5.1 b6.1 := by
    rw [hb6]; exact foldl_keyPres _ _ _ (fun b a => addMedia_keyPres)
  have kp46 : KeyPres b4.1 b6.1 := keyPres_trans kp45 kp56
  have kp36 : KeyPres b3.1 b6.1 := keyPres_trans kp34 kp46
  have kp26 : KeyPres b2.1 b6.1 := keyPres_trans kp23 kp36
  have kp16 : KeyPres b1.1 b6.1 := keyPres_trans kp12 kp26
  have kp06 : KeyPres b0.1 b6.1 := keyPres_trans kp01 kp16
  have e1 : ∀ x ∈ entityList entities "hashtags",
      b1.1.tweet_hashtags.any (hashtagPred (mkHashtagRow tid x)) = true := by
    rw [hb1]
    exact foldl_forall_mem
      (P := fun x c => c.1.tweet_hashtags.any (hashtagPred (mkHashtagRow tid x)) = true)
      (fun b a => addHashtag_establishes)
      (fun b a x hx => addHashtag_keyPres.hashtag _ hx) _ b0
  have e2 : ∀ x ∈ entityList entities "symbols",
      b2.1.tweet_symbols.any (symbolPred (mkSymbolRow tid x)) = true := by
    rw [hb2]
    exact foldl_forall_mem
      (P := fun x c => c.1.tweet_symbols.any (symbolPred (mkSymbolRow tid x)) = true)
      (fun b a => addSymbol_establishes)
      (fun b a x hx => addSymbol_keyPres.symbol _ hx) _ b1
  have e3 : ∀ x ∈ entityList entities "user_mentions",
      b3.1.tweet_user_mentions.any (mentionPred (mkMentionRow tid x)) = true := by
    rw [hb3]
    exact foldl_forall_mem
      (P := fun x c =>
        c.1.tweet_user_mentions.any (mentionPred (mkMentionRow tid x)) = true)
      (fun b a => addMention_establishes)
      (fun b a x hx => addMention_keyPres.mention _ hx) _ b2
  have e4 : ∀ x ∈ entityList entities "urls",
      b4.1.tweet_urls.any (urlPred (mkUrlRow tid x)) = true := by
    rw [hb4]
    exact foldl_forall_mem
      (P := fun x c => c.1.tweet_urls.any (urlPred (mkUrlRow tid x)) = true)
      (fun b a => addUrl_establishes)
      (fun b a x hx => addUrl_keyPres.url _ hx) _ b3
  have e5 : ∀ x ∈ entityList entities "media",
      b5.1.tweet_media.any (mediaPred (mkEntitiesMediaRow tid x)) = true := by
    rw [hb5]
    exact foldl_forall_mem
      (P := fun x c => c.1.tweet_media.any (mediaPred (mkEntitiesMediaRow tid x)) = true)
      (fun b a => addMedia_establishes)
      (fun b a x hx => addMedia_keyPres.media _ hx) _ b4
  have e6 : ∀ x ∈ entityList extended "media",
      b6.1.tweet_media.any (mediaPred (mkExtendedMediaRow tid x)) = true := by
    rw [hb6]
    exact foldl_forall_mem
      (P := fun x c => c.1.tweet_media.any (mediaPred (mkExtendedMediaRow tid x)) = true)
      (fun b a => addMedia_establishes)
      (fun b a x hx => addMedia_keyPres.media _ hx) _ b5
  exact ⟨kp06.tweet _ htw,
    fun x hx => kp16.hashtag _ (e1 x hx),
    fun x hx => kp26.symbol _ (e2 x hx),
    fun x hx => kp36.mention _ (e3 x hx),
    fun x hx => kp46.url _ (e4 x hx),
    fun x hx => kp56.media _ (e5 x hx),
    e6⟩

/-- After the four attachment folds of the `community-tweet` loop, the
post row is still present and every attachment row passes its existence
check. -/
theorem community_attach_establish (tid : String) (entities : PyVal)
    (b0 t4 : Store × Counts)
    (htw : b0.1.tweets.any (fun r => r.tweet_id == tid) = true)
    (h4 : t4 = (entityList entities "urls").foldl (fun c u => addUrl tid u c)
      ((entityList entities "user_mentions").foldl (fun c m => addMention tid m c)
        ((entityList entities "symbols").foldl (fun c h => addSymbol tid h c)
          ((entityList entities "hashtags").foldl
            (fun c h => addHashtag tid h c) b0)))) :
    t4.1.tweets.any (fun r => r.tweet_id == tid) = true
    ∧ (∀ h ∈ entityList entities "hashtags",
        t4.1.tweet_hashtags.any (hashtagPred (mkHashtagRow tid h)) = true)
    ∧ (∀ h ∈ entityList entities "symbols",
        t4.1.tweet_symbols.any (symbolPred (mkSymbolRow tid h)) = true)
    ∧ (∀ m ∈ entityList entities "user_mentions",
        t4.1.tweet_user_mentions.any (mentionPred (mkMentionRow tid m)) = true)
    ∧ (∀ u ∈ entityList entities "urls",
        t4.1.tweet_urls.any (urlPred (mkUrlRow tid u)) = true) := by
  subst h4
  set b1 := (entityList entities "hashtags").foldl
    (fun c h => addHashtag tid h c) b0 with hb1
  set b2 := (entityList entities "symbols").foldl
    (fun c h => addSymbol tid h c) b1 with hb2
  set b3 := (entityList entities "user_mentions").foldl
    (fun c m => addMention tid m c) b2 with hb3
  set b4 := (entityList entities "urls").foldl
    (fun c u => addUrl tid u c) b3 with hb4
  have kp01 : KeyPres b0.1 b1.1 := by
    rw [hb1]; exact foldl_keyPres _ _ _ (fun b a => addHashtag_keyPres)
  have kp12 : KeyPres b1.1 b2.1 := by
    rw [hb2]; exact foldl_keyPres _ _ _ (fun b a => addSymbol_keyPres)
  have kp23 : KeyPres b2.1 b3.1 := by
    rw [hb3]; exact foldl_keyPres _ _ _ (fun b a => addMention_keyPres)
  have kp34 : KeyPres b3.1 b4.1 := by
    rw [hb4]; exact foldl_keyPres _ _ _ (fun b a => addUrl_keyPres)
  have kp24 : KeyPres b2.1 b4.1 := keyPres_trans kp23 kp34
  have kp14 : KeyPres b1.1 b4.1 := keyPres_trans kp12 kp24
  have kp04 : KeyPres b0.1 b4.1 := keyPres_trans kp01 kp14
  have e1 : ∀ x ∈ entityList entities "hashtags",
      b1.1.tweet_hashtags.any (hashtagPred (mkHashtagRow tid x)) = true := by
    rw [hb1]
    exact foldl_forall_mem
      (P := fun x c => c.1.tweet_hashtags.any (hashtagPred (mkHashtagRow tid x)) = true)
      (fun b a => addHashtag_establishes)
      (fun b a x hx => addHashtag_keyPres.hashtag _ hx) _ b0
  have e2 : ∀ x ∈ entityList entities "symbols",
      b2.1.tweet_symbols.any (symbolPred (mkSymbolRow tid x)) = true := by
    rw [hb2]
    exact foldl_forall_mem
      (P := fun x c => c.1.tweet_symbols.any (symbolPred (mkSymbolRow tid x)) = true)
      (fun b a => addSymbol_establishes)
      (fun b a x hx => addSymbol_keyPres.symbol _ hx) _ b1
  have e3 : ∀ x ∈ entityList entities "user_mentions",
      b3.1.tweet_user_mentions.any (mentionPred (mkMentionRow tid x)) = true := by
    rw [hb3]
    exact foldl_forall_mem
      (P := fun x c =>
        c.1.tweet_user_mentions.any (mentionPred (mkMentionRow tid x)) = true)
      (fun b a => addMention_establishes)
      (fun b a x hx => addMention_keyPres.mention _ hx) _ b2
  have e4 : ∀ x ∈ entityList entities "urls",
      b4.1.tweet_urls.any (urlPred (mkUrlRow tid x)) = true := by
    rw [hb4]
    exact foldl_forall_mem
      (P := fun x c => c.1.tweet_urls.any (urlPred (mkUrlRow tid x)) = true)
      (fun b a => addUrl_establishes)
      (fun b a x hx => addUrl_keyPres.url _ hx) _ b3
  exact ⟨kp04.tweet _ htw,
    fun x hx => kp14.hashtag _ (e1 x hx),
    fun x hx => kp24.symbol _ (e2 x hx),
    fun x hx => kp34.mention _ (e3 x hx),
    e4⟩

/-- The `tweets` step materializes its record. -/
theorem processTweetItem_establishes (oid : String) (sc : Store × Counts)
    (item : PyVal) :
    tweetHandled item ((processTweetItem (Option.some oid) sc item).1) := by
  by_cases hid : tweetItemId item = ""
  · exact Or.inl hid
  · refine Or.inr ?_
    simp only [processTweetItem]
    rw [if_neg hid]
    refine tweet_attach_establish (tweetItemId item) _ _ _ _ ?_ rfl
    exact upsertTweet_establishes

/-- The `community-tweet` step materializes its record. -/
theorem processCommunityTweetItem_establishes (oid : String) (sc : Store × Counts)
    (item : PyVal) :
    communityTweetHandled item
      ((processCommunityTweetItem (Option.some oid) sc item).1) := by
  by_cases hid : tweetItemId item = ""
  · exact Or.inl hid
  · refine Or.inr ?_
    simp only [processCommunityTweetItem]
    rw [if_neg hid]
    refine community_attach_establish (tweetItemId item) _ _ _ ?_ rfl
    exact upsertTweet_establishes

/-- The following step materializes its record. -/
theorem processFollowingItem_establishes {oid : String} (sc : Store × Counts)
    (item : PyVal) :
    followingHandled oid item ((processFollowingItem (Option.some oid) sc item).1) := by
  by_cases hid : followingItemId item = ""
  · exact Or.inl hid
  · refine Or.inr ?_
    simp only [processFollowingItem]
    rw [if_neg hid]
    exact upsertList_establishes (by simp)

/-- After the nine processing stages of `import_archive_data`, every
record of the document is materialized in the resulting store, whatever
the starting state. -/
theorem docHandled_after_stages (doc : ArchiveDoc) (ow : Option String)
    (sc0 : Store × Counts) :
    DocHandled ow doc ((doc.followings.foldl (processFollowingItem ow)
      (doc.followers.foldl (processFollowerItem ow)
        (doc.likes.foldl (processLikeItem ow)
          (doc.noteTweets.foldl (processNoteTweetItem ow)
            (doc.communityTweets.foldl (processCommunityTweetItem ow)
              (doc.tweets.foldl (processTweetItem ow)
                (doc.profile.foldl (processProfileItem ow)
                  (doc.account.foldl processAccountItem
                    (processUploadOptions doc.uploadOptions ow sc0))))))))).1) := by
  cases ow with
  | none =>
    set t1 := processUploadOptions doc.uploadOptions Option.none sc0 with ht1
    set t2 := doc.account.foldl processAccountItem t1 with ht2
    set t3 := doc.profile.foldl (processProfileItem Option.none) t2 with ht3
    set t4 := doc.tweets.foldl (processTweetItem Option.none) t3 with ht4
    set t5 := doc.communityTweets.foldl
      (processCommunityTweetItem Option.none) t4 with ht5
    set t6 := doc.noteTweets.foldl (processNoteTweetItem Option.none) t5 with ht6
    set t7 := doc.likes.foldl (processLikeItem Option.none) t6 with ht7
    set t8 := doc.followers.foldl (processFollowerItem Option.none) t7 with ht8
    set t9 := doc.followings.foldl (processFollowingItem Option.none) t8 with ht9
    have kp23 : KeyPres t2.1 t3.1 := by
      rw [ht3]; exact foldl_keyPres _ _ _ (fun b a => processProfileItem_keyPres _ b a)
    have kp34 : KeyPres t3.1 t4.1 := by
      rw [ht4]; exact foldl_keyPres _ _ _ (fun b a => processTweetItem_keyPres _ b a)
    have kp45 : KeyPres t4.1 t5.1 := by
      rw [ht5]
      exact foldl_keyPres _ _ _ (fun b a => processCommunityTweetItem_keyPres _ b a)
    have kp56 : KeyPres t5.1 t6.1 := by
      rw [ht6]; exact foldl_keyPres _ _ _ (fun b a => processNoteTweetItem_keyPres _ b a)
    have kp67 : KeyPres t6.1 t7.1 := by
      rw [ht7]; exact foldl_keyPres _ _ _ (fun b a => processLikeItem_keyPres _ b a)
    have kp78 : KeyPres t7.1 t8.1 := by
      rw [ht8]; exact foldl_keyPres _ _ _ (fun b a => processFollowerItem_keyPres _ b a)
    have kp89 : KeyPres t8.1 t9.1 := by
      rw [ht9]; exact foldl_keyPres _ _ _ (fun b a => processFollowingItem_keyPres _ b a)
    have kp29 : KeyPres t2.1 t9.1 :=
      keyPres_trans kp23 (keyPres_trans kp34 (keyPres_trans kp45
        (keyPres_trans kp56 (keyPres_trans kp67 (keyPres_trans kp78 kp89)))))
    have haccE : ∀ item ∈ doc.account, accountHandled item t2.1 := by
      rw [ht2]
      exact foldl_forall_mem (P := fun x c => accountHandled x c.1)
        (fun b a => processAccountItem_establishes b a)
        (fun b a x hx => accountHandled_mono (processAccountItem_keyPres b a) hx)
        doc.account t1
    exact ⟨fun item hit => accountHandled_mono kp29 (haccE item hit), trivial⟩
  | some o =>
    set t1 := processUploadOptions doc.uploadOptions (Option.some o) sc0 with ht1
    set t2 := doc.account.foldl processAccountItem t1 with ht2
    set t3 := doc.profile.foldl (processProfileItem (Option.some o)) t2 with ht3
    set t4 := doc.tweets.foldl (processTweetItem (Option.some o)) t3 with ht4
    set t5 := doc.communityTweets.foldl
      (processCommunityTweetItem (Option.some o)) t4 with ht5
    set t6 := doc.noteTweets.foldl (processNoteTweetItem (Option.some o)) t5 with ht6
    set t7 := doc.likes.foldl (processLikeItem (Option.some o)) t6 with ht7
    set t8 := doc.followers.foldl (processFollowerItem (Option.some o)) t7 with ht8
    set t9 := doc.followings.foldl (processFollowingItem (Option.some o)) t8 with ht9
    have kp12 : KeyPres t1.1 t2.1 := by
      rw [ht2]; exact foldl_keyPres _ _ _ (fun b a => processAccountItem_keyPres b a)
    have kp23 : KeyPres t2.1 t3.1 := by
      rw [ht3]; exact foldl_keyPres _ _ _ (fun b a => processProfileItem_keyPres _ b a)
    have kp34 : KeyPres t3.1 t4.1 := by
      rw [ht4]; exact foldl_keyPres _ _ _ (fun b a => processTweetItem_keyPres _ b a)
    have kp45 : KeyPres t4.1 t5.1 := by
      rw [ht5]
      exact foldl_keyPres _ _ _ (fun b a => processCommunityTweetItem_keyPres _ b a)
    have kp56 : KeyPres t5.1 t6.1 := by
      rw [ht6]; exact foldl_keyPres _ _ _ (fun b a => processNoteTweetItem_keyPres _ b a)
    have kp67 : KeyPres t6.1 t7.1 := by
      rw [ht7]; exact foldl_keyPres _ _ _ (fun b a => processLikeItem_keyPres _ b a)
    have kp78 : KeyPres t7.1 t8.1 := by
      rw [ht8]; exact foldl_keyPres _ _ _ (fun b a => processFollowerItem_keyPres _ b a)
    have kp89 : KeyPres t8.1 t9.1 := by
      rw [ht9]; exact foldl_keyPres _ _ _ (fun b a => processFollowingItem_keyPres _ b a)
    have kp79 : KeyPres t7.1 t9.1 := keyPres_trans kp78 kp89
    have kp69 : KeyPres t6.1 t9.1 := keyPres_trans kp67 kp79
    have kp59 : KeyPres t5.1 t9.1 := keyPres_trans kp56 kp69
    have kp49 : KeyPres t4.1 t9.1 := keyPres_trans kp45 kp59
    have kp39 : KeyPres t3.1 t9.1 := keyPres_trans kp34 kp49
    have kp29 : KeyPres t2.1 t9.1 := keyPres_trans kp23 kp39
    have kp19 : KeyPres t1.1 t9.1 := keyPres_trans kp12 kp29
    have hupE : uploadHandled o doc.uploadOptions t1.1 := by
      rw [ht1]; exact processUploadOptions_establishes
    have haccE : ∀ item ∈ doc.account, accountHandled item t2.1 := by
      rw [ht2]
      exact foldl_forall_mem (P := fun x c => accountHandled x c.1)
        (fun b a => processAccountItem_establishes b a)
        (fun b a x hx => accountHandled_mono (processAccountItem_keyPres b a) hx)
        doc.account t1
    have hprofE : doc.profile ≠ [] →
        t3.1.profiles.any (fun r => r.account_id == o) = true := by
      intro hne
      rw [ht3]; exact profile_fold_establishes hne
    have htwE : ∀ item ∈ doc.tweets, tweetHandled item t4.1 := by
      rw [ht4]
      exact foldl_forall_mem (P := fun x c => tweetHandled x c.1)
        (fun b a => processTweetItem_establishes o b a)
        (fun b a x hx =>
          tweetHandled_mono (processTweetItem_keyPres (Option.some o) b a) hx)
        doc.tweets t3
    have hcomE : ∀ item ∈ doc.communityTweets, communityTweetHandled item t5.1 := by
      rw [ht5]
      exact foldl_forall_mem (P := fun x c => communityTweetHandled x c.1)
        (fun b a => processCommunityTweetItem_establishes o b a)
        (fun b a x hx => communityTweetHandled_mono
          (processCommunityTweetItem_keyPres (Option.some o) b a) hx)
        doc.communityTweets t4
    have hnoteE : ∀ item ∈ doc.noteTweets, noteHandled item t6.1 := by
      rw [ht6]
      exact foldl_forall_mem (P := fun x c => noteHandled x c.1)
        (fun b a => processNoteTweetItem_establishes b a)
        (fun b a x hx =>
          noteHandled_mono (processNoteTweetItem_keyPres (Option.some o) b a) hx)
        doc.noteTweets t5
    have hlikeE : ∀ item ∈ doc.likes, likeHandled o item t7.1 := by
      rw [ht7]
      exact foldl_forall_mem (P := fun x c => likeHandled o x c.1)
        (fun b a => processLikeItem_establishes b a)
        (fun b a x hx =>
          likeHandled_mono (processLikeItem_keyPres (Option.some o) b a) hx)
        doc.likes t6
    have hfolE : ∀ item ∈ doc.followers, followerHandled o item t8.1 := by
      rw [ht8]
      exact foldl_forall_mem (P := fun x c => followerHandled o x c.1)
        (fun b a => processFollowerItem_establishes b a)
        (fun b a x hx =>
          followerHandled_mono (processFollowerItem_keyPres (Option.some o) b a) hx)
        doc.followers t7
    have hfolgE : ∀ item ∈ doc.followings, followingHandled o item t9.1 := by
      rw [ht9]
      exact foldl_forall_mem (P := fun x c => followingHandled o x c.1)
        (fun b a => processFollowingItem_establishes b a)
        (fun b a x hx =>
          followingHandled_mono (processFollowingItem_keyPres (Option.some o) b a) hx)
        doc.followings t8
    exact ⟨fun item hit => accountHandled_mono kp29 (haccE item hit),
      uploadHandled_mono kp19 hupE,
      fun hne => kp39.profile o (hprofE hne),
      fun item hit => tweetHandled_mono kp49 (htwE item hit),
      fun item hit => communityTweetHandled_mono kp59 (hcomE item hit),
      fun item hit => noteHandled_mono kp69 (hnoteE item hit),
      fun item hit => likeHandled_mono kp79 (hlikeE item hit),
      fun item hit => followerHandled_mono kp89 (hfolE item hit),
      hfolgE⟩

/-- A successful import leaves every record of the imported document
materialized in the resulting store. -/
theorem import_establishes_docHandled (doc : ArchiveDoc) (s : Store) {c : Counts}
    {s1 : Store} (h : import_archive_data doc s = .ok (c, s1)) :
    DocHandled (get_owner_account_id doc) doc s1 := by
  simp only [import_archive_data] at h
  split at h
  · exact absurd h (by simp)
  · simp only [Except.ok.injEq, Prod.mk.injEq] at h
    obtain ⟨-, hs⟩ := h
    subst hs
    exact docHandled_after_stages doc (get_owner_account_id doc) (s, {})

/-- Running the nine processing stages over a store that already
materializes the document counts no insert, grows no table, and keeps
the search index consistent. -/
theorem stages_reimport (doc : ArchiveDoc) (ow : Option String) (s1 : Store)
    (hfts : FtsSync s1) (hdh : DocHandled ow doc s1) :
    ReimportInv s1 (doc.followings.foldl (processFollowingItem ow)
      (doc.followers.foldl (processFollowerItem ow)
        (doc.likes.foldl (processLikeItem ow)
          (doc.noteTweets.foldl (processNoteTweetItem ow)
            (doc.communityTweets.foldl (processCommunityTweetItem ow)
              (doc.tweets.foldl (processTweetItem ow)
                (doc.profile.foldl (processProfileItem ow)
                  (doc.account.foldl processAccountItem
                    (processUploadOptions doc.uploadOptions ow
                      (s1, ({} : Counts))))))))))) := by
  cases ow with
  | none =>
    obtain ⟨hacc, -⟩ : (∀ item ∈ doc.account, accountHandled item s1) ∧ True := hdh
    have P1 : ReimportInv s1
        (processUploadOptions doc.uploadOptions Option.none (s1, ({} : Counts))) :=
      ⟨rfl, rfl, keyPres_refl s1, hfts⟩
    have P2 := foldl_preserve_mem (P := ReimportInv s1) (f := processAccountItem)
      doc.account _ P1 (fun b a ha hP => by
        obtain ⟨hc, hl, hkp, hf⟩ := hP
        obtain ⟨hx2, hx1⟩ := @processAccountItem_handled_step b a
          (accountHandled_mono hkp (hacc a ha))
        exact ⟨hx2.trans hc, hx1.trans hl,
          keyPres_trans hkp (processAccountItem_keyPres b a),
          processAccountItem_ftsSync hf⟩)
    have P3 := foldl_preserve_mem (P := ReimportInv s1)
      (f := processProfileItem Option.none) doc.profile _ P2
      (fun b a ha hP => hP)
    have P4 := foldl_preserve_mem (P := ReimportInv s1)
      (f := processTweetItem Option.none) doc.tweets _ P3
      (fun b a ha hP => by rw [processTweetItem_skip_none]; exact hP)
    have P5 := foldl_preserve_mem (P := ReimportInv s1)
      (f := processCommunityTweetItem Option.none) doc.communityTweets _ P4
      (fun b a ha hP => by rw [processCommunityTweetItem_skip_none]; exact hP)
    have P6 := foldl_preserve_mem (P := ReimportInv s1)
      (f := processNoteTweetItem Option.none) doc.noteTweets _ P5
      (fun b a ha hP => by rw [processNoteTweetItem_skip_none]; exact hP)
    have P7 := foldl_preserve_mem (P := ReimportInv s1)
      (f := processLikeItem Option.none) doc.likes _ P6
      (fun b a ha hP => by rw [processLikeItem_skip_none]; exact hP)
    have P8 := foldl_preserve_mem (P := ReimportInv s1)
      (f := processFollowerItem Option.none) doc.followers _ P7
      (fun b a ha hP => by rw [processFollowerItem_skip_none]; exact hP)
    exact foldl_preserve_mem (P := ReimportInv s1)
      (f := processFollowingItem Option.none) doc.followings _ P8
      (fun b a ha hP => by rw [processFollowingItem_skip_none]; exact hP)
  | some o =>
    obtain ⟨hacc, hup, hprof, htws, hcoms, hnotes, hlikes, hfolr, hfolg⟩ :
        (∀ item ∈ doc.account, accountHandled item s1)
        ∧ uploadHandled o doc.uploadOptions s1
        ∧ (doc.profile ≠ [] → s1.profiles.any (fun r => r.account_id == o) = true)
        ∧ (∀ item ∈ doc.tweets, tweetHandled item s1)
        ∧ (∀ item ∈ doc.communityTweets, communityTweetHandled item s1)
        ∧ (∀ item ∈ doc.noteTweets, noteHandled item s1)
        ∧ (∀ item ∈ doc.likes, likeHandled o item s1)
        ∧ (∀ item ∈ doc.followers, followerHandled o item s1)
        ∧ (∀ item ∈ doc.followings, followingHandled o item s1) := hdh
    have hP0 : ReimportInv s1 (s1, ({} : Counts)) :=
      ⟨rfl, rfl, keyPres_refl s1, hfts⟩
    have P1 : ReimportInv s1 (processUploadOptions doc.uploadOptions
        (Option.some o) (s1, ({} : Counts))) := by
      obtain ⟨hc, hl, hkp, hf⟩ := hP0
      obtain ⟨hx2, hx1⟩ := @processUploadOptions_handled_step doc.uploadOptions o
        (s1, ({} : Counts)) (uploadHandled_mono hkp hup)
      exact ⟨hx2.trans hc, hx1.trans hl,
        keyPres_trans hkp (processUploadOptions_keyPres doc.uploadOptions
          (Option.some o) (s1, ({} : Counts))),
        processUploadOptions_ftsSync hf⟩
    have P2 := foldl_preserve_mem (P := ReimportInv s1) (f := processAccountItem)
      doc.account _ P1 (fun b a ha hP => by
        obtain ⟨hc, hl, hkp, hf⟩ := hP
        obtain ⟨hx2, hx1⟩ := @processAccountItem_handled_step b a
          (accountHandled_mono hkp (hacc a ha))
        exact ⟨hx2.trans hc, hx1.trans hl,
          keyPres_trans hkp (processAccountItem_keyPres b a),
          processAccountItem_ftsSync hf⟩)
    have P3 := foldl_preserve_mem (P := ReimportInv s1)
      (f := processProfileItem (Option.some o)) doc.profile _ P2
      (fun b a ha hP => by
        obtain ⟨hc, hl, hkp, hf⟩ := hP
        obtain ⟨hx2, hx1⟩ := @processProfileItem_handled_step b a o
          (hkp.profile o (hprof (List.ne_nil_of_mem ha)))
        exact ⟨hx2.trans hc, hx1.trans hl,
          keyPres_trans hkp (processProfileItem_keyPres (Option.some o) b a),
          processProfileItem_ftsSync hf⟩)
    have P4 := foldl_preserve_mem (P := ReimportInv s1)
      (f := processTweetItem (Option.some o)) doc.tweets _ P3
      (fun b a ha hP => by
        obtain ⟨hc, hl, hkp, hf⟩ := hP
        obtain ⟨hx2, hx1⟩ := @processTweetItem_handled_step b a o
          (tweetHandled_mono hkp (htws a ha)) hf
        exact ⟨hx2.trans hc, hx1.trans hl,
          keyPres_trans hkp (processTweetItem_keyPres (Option.some o) b a),
          processTweetItem_ftsSync hf⟩)
    have P5 := foldl_preserve_mem (P := ReimportInv s1)
      (f := processCommunityTweetItem (Option.some o)) doc.communityTweets _ P4
      (fun b a ha hP => by
        obtain ⟨hc, hl, hkp, hf⟩ := hP
        obtain ⟨hx2, hx1⟩ := @processCommunityTweetItem_handled_step b a o
          (communityTweetHandled_mono hkp (hcoms a ha)) hf
        exact ⟨hx2.trans hc, hx1.trans hl,
          keyPres_trans hkp (processCommunityTweetItem_keyPres (Option.some o) b a),
          processCommunityTweetItem_ftsSync hf⟩)
    have P6 := foldl_preserve_mem (P := ReimportInv s1)
      (f := processNoteTweetItem (Option.some o)) doc.noteTweets _ P5
      (fun b a ha hP => by
        obtain ⟨hc, hl, hkp, hf⟩ := hP
        obtain ⟨hx2, hx1⟩ := @processNoteTweetItem_handled_step b a o
          (noteHandled_mono hkp (hnotes a ha))
        exact ⟨hx2.trans hc, hx1.trans hl,
          keyPres_trans hkp (processNoteTweetItem_keyPres (Option.some o) b a),
          processNoteTweetItem_ftsSync hf⟩)
    have P7 := foldl_preserve_mem (P := ReimportInv s1)
      (f := processLikeItem (Option.some o)) doc.likes _ P6
      (fun b a ha hP => by
        obtain ⟨hc, hl, hkp, hf⟩ := hP
        obtain ⟨hx2, hx1⟩ := @processLikeItem_handled_step b a o
          (likeHandled_mono hkp (hlikes a ha))
        exact ⟨hx2.trans hc, hx1.trans hl,
          keyPres_trans hkp (processLikeItem_keyPres (Option.some o) b a),
          processLikeItem_ftsSync hf⟩)
    have P8 := foldl_preserve_mem (P := ReimportInv s1)
      (f := processFollowerItem (Option.some o)) doc.followers _ P7
      (fun b a ha hP => by
        obtain ⟨hc, hl, hkp, hf⟩ := hP
        obtain ⟨hx2, hx1⟩ := @processFollowerItem_handled_step b a o
          (followerHandled_mono hkp (hfolr a ha))
        exact ⟨hx2.trans hc, hx1.trans hl,
          keyPres_trans hkp (processFollowerItem_keyPres (Option.some o) b a),
          processFollowerItem_ftsSync hf⟩)
    exact foldl_preserve_mem (P := ReimportInv s1)
      (f := processFollowingItem (Option.some o)) doc.followings _ P8
      (fun b a ha hP => by
        obtain ⟨hc, hl, hkp, hf⟩ := hP
        obtain ⟨hx2, hx1⟩ := @processFollowingItem_handled_step b a o
          (followingHandled_mono hkp (hfolg a ha))
        exact ⟨hx2.trans hc, hx1.trans hl,
          keyPres_trans hkp (processFollowingItem_keyPres (Option.some o) b a),
          processFollowingItem_ftsSync hf⟩)

/-- Importing a document into a consistent store that already
materializes it succeeds, reports zero inserts of every kind, and leaves
every table at its previous size with the index still consistent. -/
theorem reimport_noop (doc : ArchiveDoc) (s1 : Store)
    (hguard : ¬((get_owner_account_id doc).isNone = true
      ∧ has_owner_scoped_data doc = true))
    (hfts : FtsSync s1) (hdh : DocHandled (get_owner_account_id doc) doc s1) :
    ∃ s2 : Store, import_archive_data doc s1 = .ok (({} : Counts), s2)
      ∧ tableLengths s2 = tableLengths s1 ∧ FtsSync s2 := by
  obtain ⟨hc, hl, -, hf⟩ := stages_reimport doc (get_owner_account_id doc) s1 hfts hdh
  refine ⟨_, ?_, hl, hf⟩
  simp only [import_archive_data]
  rw [if_neg hguard]
  rw [hc]

/-- C3: for every document and every store whose search index is
consistent, if an import succeeds then importing the identical document
a second time also succeeds, reports zero newly-inserted rows for every
record kind, leaves every table row count (including the search index)
exactly as after the first import, and the search index holds exactly
one row per post id: its ids are duplicate-free and every post has an
index row. -/
theorem C3_reimport_idempotent (doc : ArchiveDoc) (s : Store) (c1 : Counts)
    (s1 : Store) (hfts : FtsSync s)
    (h : import_archive_data doc s = .ok (c1, s1)) :
    ∃ s2 : Store, import_archive_data doc s1 = .ok (({} : Counts), s2)
      ∧ tableLengths s2 = tableLengths s1
      ∧ (s2.fts.map (·.tweet_id)).Nodup
      ∧ (∀ t ∈ s2.tweets, ∃ f ∈ s2.fts, f.tweet_id = t.tweet_id) := by
  have hfts1 : FtsSync s1 := import_archive_data_ftsSync doc s hfts h
  have hdh := import_establishes_docHandled doc s h
  have hguard : ¬((get_owner_account_id doc).isNone = true
      ∧ has_owner_scoped_data doc = true) := by
    intro hg
    simp only [import_archive_data] at h
    rw [if_pos hg] at h
    exact absurd h (by simp)
  obtain ⟨s2, hok, hlen, hf⟩ := reimport_noop doc s1 hguard hfts1 hdh
  exact ⟨s2, hok, hlen, hf.1, hf.2.2.2⟩

/-- C3 witness: a fully populated document imported twice into the empty
store; the second call reports zero inserts and changes no row count. -/
theorem C3_witness :
    FtsSync ({} : Store)
    ∧ import_archive_data c3Doc {}
        = .ok ((importOk c3Doc {}).1, (importOk c3Doc {}).2)
    ∧ ∃ s2 : Store, import_archive_data c3Doc (importOk c3Doc {}).2
          = .ok (({} : Counts), s2)
        ∧ tableLengths s2 = tableLengths (importOk c3Doc {}).2
        ∧ (s2.fts.map (·.tweet_id)).Nodup
        ∧ (∀ t ∈ s2.tweets, ∃ f ∈ s2.fts, f.tweet_id = t.tweet_id) :=
  ⟨by simp [FtsSync], rfl,
   C3_reimport_idempotent c3Doc {} (importOk c3Doc {}).1 (importOk c3Doc {}).2
     (by simp [FtsSync]) rfl⟩

end BirdApp
